import Mathlib

/-!
# storagenode-updater: binary substitution and the update gate

A shallow embedding of `cmd/storagenode-updater` (`restart.go`,
`restart_windows.go`, `update.go`, `loop_windows.go`).  The operating system
is an explicit `World`: a file system of regular files, the list of decisions
the OS will take on the coming calls (fail with an errno, or let the call
through), the log of the calls issued so far and the history of the
file-system states those calls produced; and, for the Windows service
manager, the answers it will give, what the coming looks at the context will
find and the coming readings of the clock.
-/

namespace Updater

/-! ## Data model -/

/-- A file name. -/
abbrev Path := String

/-- The bytes of a file. -/
abbrev Content := String

/-- The file system: the regular file, if any, found at every path. -/
abbrev FS := Path → Option Content

/-- Type `svc.State` of `golang.org/x/sys/windows/svc`: the state a service
reports. -/
inductive SvcState where
  | Stopped
  | StartPending
  | StopPending
  | Running
  | ContinuePending
  | PausePending
  | Paused
  deriving DecidableEq, Repr

/-- Type `svc.Cmd`: a command sent to a service. -/
inductive Cmd where
  | Stop
  | Pause
  | Continue
  | Interrogate
  | Shutdown
  deriving DecidableEq, Repr

/-- What the service manager answers to `Query` or `Control`: the status of
the service, or a failure with an errno. -/
inductive SvcReply where
  | ok (state : SvcState)
  | fail (errno : Nat)
  deriving DecidableEq, Repr

/-- What the program does to its environment, in the order it does it. -/
inductive Event where
  /-- The call `os.Rename(oldpath, newpath)`. -/
  | rename (oldpath newpath : Path)
  /-- The call `os.Remove(name)`. -/
  | remove (name : Path)
  /-- The call `downloadBinary(ctx, url, target)`. -/
  | download (url : String) (target : Path)
  /-- The call `version.ShouldUpdate(rollout, nodeID)`. -/
  | rolloutCheck
  /-- The call `zap.S().Infof(...)`, with the formatted message. -/
  | info (msg : String)
  /-- The call `mgr.Connect()`, with the errno it failed with, if any. -/
  | connect (failure : Option Nat)
  /-- The call `manager.OpenService(name)`, with its failure, if any. -/
  | openService (name : String) (failure : Option Nat)
  /-- The call `srvc.Query()`, with the answer. -/
  | query (reply : SvcReply)
  /-- The call `srvc.Control(cmd)`, with the answer. -/
  | control (cmd : Cmd) (reply : SvcReply)
  /-- The call `srvc.Start()`, with its failure, if any. -/
  | start (failure : Option Nat)
  /-- The call `srvc.Close()`, with its failure, if any. -/
  | close (failure : Option Nat)
  /-- The call `manager.Disconnect()`, with its failure, if any. -/
  | disconnect (failure : Option Nat)
  /-- The call `ctx.Err()`, with whether the context was found canceled. -/
  | ctxErr (canceled : Bool)
  /-- The call `time.Now()`, with the reading (`none`: later than every
  deadline). -/
  | now (reading : Option Nat)
  /-- The call `exec.Command(bin, args...).Start()`. -/
  | spawn (bin : Path) (args : List String)
  /-- The call `checker.New(...).All(ctx)`: the query to the version server. -/
  | versionQuery
  /-- The call `zap.S().Errorf(...)`, with the message, the error left out. -/
  | logError (msg : String)
  deriving DecidableEq, Repr

/-- The events that write to the file system. -/
def Event.isFileOp : Event → Bool
  | .rename _ _ => true
  | .remove _ => true
  | .download _ _ => true
  | .rolloutCheck => false
  | .info _ => false
  | .connect _ => false
  | .openService _ _ => false
  | .query _ => false
  | .control _ _ => false
  | .start _ => false
  | .close _ => false
  | .disconnect _ => false
  | .ctxErr _ => false
  | .now _ => false
  | .spawn _ _ => false
  | .versionQuery => false
  | .logError _ => false

/-- Go `error` values (`nil` is `none` of `Option Error`). -/
inductive Error where
  /-- The `*os.LinkError` of a failed `os.Rename`. -/
  | link (op : String) (oldpath newpath : Path) (errno : Nat)
  /-- The `*os.PathError` of a failed call on one path. -/
  | path (op : String) (name : Path) (errno : Nat)
  /-- The value of `errs.New(msg)`. -/
  | msg (text : String)
  /-- The `syscall.Errno` of a failed call to the service manager. -/
  | errno (op : String) (code : Nat)
  /-- The value of `ctx.Err()` of a canceled context. -/
  | canceled
  /-- The value of `errs.Wrap(e)` for a foreign error `e`. -/
  | wrap (e : Error)
  /-- The value of `errs.Combine` of the two or more listed errors. -/
  | group (es : List Error)
  deriving Repr

/-- The errno of a missing file. -/
def ENOENT : Nat := 2

/-- Function `errs.Wrap` of `github.com/zeebo/errs`: `nil` stays `nil`, an
error that already carries a stack trace is returned as it is, any other one
is wrapped. -/
def errsWrap : Option Error → Option Error
  | none => none
  | some (.wrap e) => some (.wrap e)
  | some (.msg t) => some (.msg t)
  | some e => some (.wrap e)

/-- Function `errs.Combine` of `github.com/zeebo/errs`: the `nil` arguments
are dropped; nothing left gives `nil`, one error left gives that error, more
give a group of them in order. -/
def errsCombine (es : List (Option Error)) : Option Error :=
  match es.filterMap id with
  | [] => none
  | [e] => some e
  | l => some (.group l)

/-- The state of the environment. -/
structure World where
  /-- The file system now. -/
  fs : FS
  /-- The decisions of the OS on the coming calls, one per call: `some errno`
  makes the call fail with that errno, `none` lets it through.  Past the end
  of the list every call is let through. -/
  faults : List (Option Nat)
  /-- The calls issued so far, oldest first. -/
  log : List Event
  /-- The file-system state after each file-system call so far, oldest first. -/
  hist : List FS
  /-- The answers of the service manager to the coming `Query` and `Control`
  calls, one per call.  Past the end of the list these calls fail. -/
  svc : List SvcReply := []
  /-- The outcomes of the coming `Start` calls, one per call: `some errno` is a
  failure, `none` a service that started.  Past the end of the list the service
  starts. -/
  starts : List (Option Nat) := []
  /-- The outcomes of the coming `Connect`, `OpenService`, `Close` and
  `Disconnect` calls, one per call.  Past the end of the list they succeed. -/
  mgr : List (Option Nat) := []
  /-- What the coming `ctx.Err()` calls find, one per call: `true` is a
  canceled context.  Past the end of the list the context is not canceled. -/
  cancel : List Bool := []
  /-- The coming readings of the clock, in nanoseconds, one per `time.Now()`.
  Past the end of the list the time is later than every deadline. -/
  clock : List Nat := []

/-- The decision of the OS on the next call. -/
def World.nextFault (w : World) : Option Nat :=
  match w.faults with
  | some errno :: _ => some errno
  | _ => none

/-- The world after one call: the decision is used up, the call is logged and
the resulting file system is recorded. -/
def World.record (w : World) (ev : Event) (fs : FS) : World :=
  { w with fs := fs, faults := w.faults.tail, log := w.log ++ [ev], hist := w.hist ++ [fs] }

/-- The file system after moving the file `c` of `oldpath` to `newpath`
(replacing what was there); renaming a file to itself changes nothing. -/
def moveFile (fs : FS) (oldpath newpath : Path) (c : Content) : FS :=
  if oldpath = newpath then fs
  else fun p => if p = newpath then some c else if p = oldpath then none else fs p

/-- Function `os.Rename`: it fails, leaving the file system as it is, when the
OS refuses or `oldpath` does not exist; otherwise the file moves. -/
def os_Rename (oldpath newpath : Path) (w : World) : Option Error × World :=
  match w.nextFault, w.fs oldpath with
  | some errno, _ =>
    (some (.link "rename" oldpath newpath errno), w.record (.rename oldpath newpath) w.fs)
  | none, none =>
    (some (.link "rename" oldpath newpath ENOENT), w.record (.rename oldpath newpath) w.fs)
  | none, some c =>
    (none, w.record (.rename oldpath newpath) (moveFile w.fs oldpath newpath c))

/-- Function `os.Remove`: it fails, leaving the file system as it is, when the
OS refuses or `name` does not exist; otherwise the file is gone. -/
def os_Remove (name : Path) (w : World) : Option Error × World :=
  match w.nextFault, w.fs name with
  | some errno, _ => (some (.path "remove" name errno), w.record (.remove name) w.fs)
  | none, none => (some (.path "remove" name ENOENT), w.record (.remove name) w.fs)
  | none, some _ =>
    (none, w.record (.remove name) (fun p => if p = name then none else w.fs p))

/-! ## `restart_windows.go`: substituteWithRecovery -/

/-- Function `substituteWithRecovery(target, backup, new)`: the result is
`(recovered, err)`. -/
def substituteWithRecovery (target backup new : Path) (w : World) :
    (Bool × Option Error) × World :=
  match os_Rename target backup w with
  | (some err, w1) => ((false, errsWrap (some err)), w1)
  | (none, w1) =>
    match os_Rename new target w1 with
    | (some err, w2) =>
      match os_Rename backup target w2 with
      | (some rerr, w3) => ((false, errsCombine [some err, some rerr]), w3)
      | (none, w3) => ((true, errsWrap (some err)), w3)
    | (none, w2) => ((false, none), w2)

/-! ## `restart.go`: restartService without a service manager -/

/-- Function `restartService(ctx, service, binaryLocation, newVersionPath,
backupPath)` of `restart.go`.  The arguments of `errs.Combine` are evaluated
left to right: the restore rename, then the removal of the staged file. -/
def restartService (_service : String) (binaryLocation newVersionPath backupPath : Path)
    (w : World) : Option Error × World :=
  match os_Rename binaryLocation backupPath w with
  | (some err, w1) => (errsWrap (some err), w1)
  | (none, w1) =>
    match os_Rename newVersionPath binaryLocation w1 with
    | (some err, w2) =>
      let r3 := os_Rename backupPath binaryLocation w2
      let r4 := os_Remove newVersionPath r3.2
      (errsCombine [some err, r3.1, r4.1], r4.2)
    | (none, w2) => (none, w2)

/-- A sample world: an old binary at `sn.exe`, a staged one at `sn.v2.exe`. -/
def sampleFS : FS := fun p =>
  if p = "sn.exe" then some "old" else if p = "sn.v2.exe" then some "new" else none

/-- The sample file system with the given coming OS decisions. -/
def sampleWorld (faults : List (Option Nat)) : World :=
  { fs := sampleFS, faults := faults, log := [], hist := [] }

/-! ## `update.go`: update -/

/-- Type `version.SemVer` of the package `storj.io/private/version`. -/
structure SemVer where
  /-- Field `Major`. -/
  major : Nat
  /-- Field `Minor`. -/
  minor : Nat
  /-- Field `Patch`. -/
  patch : Nat
  deriving DecidableEq, Repr

/-- Modelled from the spec: method `SemVer.Compare` of the package
`storj.io/private/version`, which is not among the sources.  The spec makes it
the comparator of the total order on (major, minor, patch): `-1` when the
receiver is the smaller version, `0` when the two are equal, `1` otherwise. -/
def SemVer.Compare (sem version : SemVer) : Int :=
  if sem.major < version.major then -1
  else if version.major < sem.major then 1
  else if sem.minor < version.minor then -1
  else if version.minor < sem.minor then 1
  else if sem.patch < version.patch then -1
  else if version.patch < sem.patch then 1
  else 0

/-- Modelled from the spec: method `SemVer.String` of the package
`storj.io/private/version`, which is not among the sources: the three numbers
separated by dots after a `v`. -/
def SemVer.String (sem : SemVer) : String :=
  "v" ++ toString sem.major ++ "." ++ toString sem.minor ++ "." ++ toString sem.patch

/-- Type `version.Version`: a version string and the URL of its binary. -/
structure Version where
  /-- Field `Version`. -/
  version : String
  /-- Field `URL`. -/
  url : String
  deriving DecidableEq, Repr

/-- Type `version.Rollout`: the seed and the cursor of a rollout, as bytes. -/
structure Rollout where
  /-- Field `Seed`. -/
  seed : List Nat
  /-- Field `Cursor`. -/
  cursor : List Nat
  deriving DecidableEq, Repr

/-- Type `version.Process`: what the version server says of one process. -/
structure Process where
  /-- Field `Minimum`. -/
  minimum : Version
  /-- Field `Suggested`. -/
  suggested : Version
  /-- Field `Rollout`. -/
  rollout : Rollout
  deriving DecidableEq, Repr

/-- Type `storj.NodeID`, as bytes. -/
abbrev NodeID := List Nat

/-- Constant `updaterServiceName` of `cmd.go`. -/
def updaterServiceName : String := "storagenode-updater"

/-- What `update` uses and the sources do not contain: the package-level
variables it reads, the functions of `storj.io/private/version`, the helpers of
the package whose file is missing, and the server the binaries come from. -/
structure Deps where
  /-- Variable `nodeID` of `cmd.go`. -/
  nodeID : NodeID
  /-- Variable `version.Build.Version`: the version of the running updater. -/
  buildVersion : SemVer
  /-- Method `Version.SemVer`: the parsed version, or the parse error. -/
  semVer : Version → Except Error SemVer
  /-- Function `version.ShouldUpdate(rollout, nodeID)`. -/
  shouldUpdate : Rollout → NodeID → Bool
  /-- Function `binaryVersion(location)`: the version the binary at the
  location reports when it is run, or why that failed.  It reads the file
  system and does not write to it. -/
  binaryVersion : FS → Path → Except Error SemVer
  /-- Function `prependExtension(path, ext)`. -/
  prependExtension : Path → String → Path
  /-- Function `parseDownloadURL(template)`. -/
  parseDownloadURL : String → String
  /-- The bytes served at a URL, if any. -/
  fetch : String → Option Content

/-- The world after an event that is no OS call: only the log grows. -/
def World.note (w : World) (ev : Event) : World :=
  { w with log := w.log ++ [ev] }

/-- Modelled from the spec: function `downloadBinary(ctx, url, target)`, whose
file is not among the sources (the Binary Fetcher `Download(url,
destinationPath)`): on success the bytes served at the URL are the new file at
the target.  What a failed download leaves at the target is not specified; here
it leaves the file system as it was. -/
def downloadBinary (d : Deps) (url : String) (target : Path) (w : World) :
    Option Error × World :=
  match w.nextFault, d.fetch url with
  | some errno, _ => (some (.path "download" target errno), w.record (.download url target) w.fs)
  | none, none => (some (.msg "download failed"), w.record (.download url target) w.fs)
  | none, some c =>
    (none, w.record (.download url target) (fun p => if p = target then some c else w.fs p))

/-- The signature of `restartService(ctx, service, binaryLocation,
newVersionPath, backupPath)`; the build tags choose between the one of
`restart.go` and the one of `restart_windows.go`. -/
abbrev Restart := String → Path → Path → Path → World → Option Error × World

/-- Lines 23 to 32 of `update.go`: the current version is that of the running
updater when the service is the updater, else what the binary reports. -/
def currentVersionOf (d : Deps) (serviceName : String) (binaryLocation : Path) (w : World) :
    Except Error SemVer :=
  if serviceName = updaterServiceName then .ok d.buildVersion
  else d.binaryVersion w.fs binaryLocation

/-- Function `update(ctx, serviceName, binaryLocation, ver)` of `update.go`,
linked with the given `restartService`. -/
def update (d : Deps) (restart : Restart) (serviceName : String) (binaryLocation : Path)
    (ver : Process) (w : World) : Option Error × World :=
  match d.semVer ver.suggested with
  | .error err => (errsWrap (some err), w)
  | .ok suggestedVersion =>
    match currentVersionOf d serviceName binaryLocation w with
    | .error err => (errsWrap (some err), w)
    | .ok currentVersion =>
      if currentVersion.Compare suggestedVersion ≥ 0 then
        (none, w.note (.info (serviceName ++ " version is up to date")))
      else
        let w1 := w.note .rolloutCheck
        if !d.shouldUpdate ver.rollout d.nodeID then
          (none, w1.note (.info ("New " ++ serviceName
            ++ " version available but not rolled out to this nodeID yet")))
        else
          let backupPath :=
            if serviceName = updaterServiceName then d.prependExtension binaryLocation "old"
            else d.prependExtension binaryLocation ("old." ++ currentVersion.String)
          let newVersionPath := d.prependExtension binaryLocation ver.suggested.version
          match downloadBinary d (d.parseDownloadURL ver.suggested.url) newVersionPath w1 with
          | (some err, w2) => (errsWrap (some err), w2)
          | (none, w2) =>
            match d.binaryVersion w2.fs newVersionPath with
            | .error err =>
              let r := os_Remove newVersionPath w2
              (errsCombine [errsWrap (some err), r.1], r.2)
            | .ok downloadedVersion =>
              if suggestedVersion.Compare downloadedVersion ≠ 0 then
                let err := Error.msg ("invalid version downloaded: wants "
                  ++ suggestedVersion.String ++ " got " ++ downloadedVersion.String)
                let r := os_Remove newVersionPath w2
                (errsCombine [some err, r.1], r.2)
              else
                let w3 := w2.note (.info ("Restarting service " ++ serviceName))
                match restart serviceName binaryLocation newVersionPath backupPath w3 with
                | (some err, w4) => (errsWrap (some err), w4)
                | (none, w4) =>
                  (none, w4.note (.info ("Service " ++ serviceName ++ " restarted successfully")))

/-! ## `loop_windows.go`: updateSelf and restartSelf -/

/-- What `updateSelf` uses beyond what `update` uses. -/
structure SelfDeps extends Deps where
  /-- Function `version.ShouldUpdateVersion(currentVersion, nodeID, ver)`:
  whether to update and the reason, or an error. -/
  shouldUpdateVersion : SemVer → NodeID → Process → Except Error (Bool × String)

/-- Function `restartSelf(bin, newbin)`: the updater binary is started as a
new process with the restart-service arguments; the OS lets the process start
or refuses. -/
def restartSelf (bin newbin : Path) (w : World) : Option Error × World :=
  (w.nextFault.map (Error.path "exec" bin),
    { w with
      faults := w.faults.tail
      log := w.log ++ [.spawn bin ["restart-service", "--binary-location", bin,
        "--service-name", updaterServiceName, newbin]] })

/-- Function `updateSelf(ctx, binaryLocation, ver)` of `loop_windows.go`. -/
def updateSelf (d : SelfDeps) (binaryLocation : Path) (ver : Process) (w : World) :
    Option Error × World :=
  match d.semVer ver.suggested with
  | .error err => (errsWrap (some err), w)
  | .ok suggestedVersion =>
    match d.shouldUpdateVersion d.buildVersion d.nodeID ver with
    | .error err => (errsWrap (some err), w)
    | .ok (shouldUpdate, reason) =>
      if !shouldUpdate then (none, w.note (.info reason))
      else
        let newVersionPath := d.prependExtension binaryLocation ver.suggested.version
        match downloadBinary d.toDeps (d.parseDownloadURL ver.suggested.url) newVersionPath w with
        | (some err, w1) => (errsWrap (some err), w1)
        | (none, w1) =>
          match d.binaryVersion w1.fs newVersionPath with
          | .error err =>
            let r := os_Remove newVersionPath w1
            (errsCombine [errsWrap (some err), r.1], r.2)
          | .ok downloadedVersion =>
            if suggestedVersion.Compare downloadedVersion ≠ 0 then
              let err := Error.msg ("invalid version downloaded: wants "
                ++ suggestedVersion.String ++ " got " ++ downloadedVersion.String)
              let r := os_Remove newVersionPath w1
              (errsCombine [some err, r.1], r.2)
            else
              restartSelf binaryLocation newVersionPath (w1.note (.info "Restarting service."))

/-- The staged path of an update: `prependExtension(binaryLocation,
ver.Suggested.Version)`. -/
def stagedPath (d : Deps) (binaryLocation : Path) (ver : Process) : Path :=
  d.prependExtension binaryLocation ver.suggested.version

/-- The world after the download of an update that started in `w`. -/
def afterDownload (d : Deps) (binaryLocation : Path) (ver : Process) (w : World) :
    Option Error × World :=
  downloadBinary d (d.parseDownloadURL ver.suggested.url) (stagedPath d binaryLocation ver) w

/-- A call of `update` has gone past the version check when the rollout check
is the next thing it did. -/
def pastVersionCheck (w out : World) : Prop :=
  w.log ++ [Event.rolloutCheck] <+: out.log

/-- A call of `update` has gone on to the download when the rollout check and
then a download are the next things it did. -/
def proceeded (w out : World) : Prop :=
  ∃ url target, w.log ++ [Event.rolloutCheck, Event.download url target] <+: out.log

/-- A `restartService` keeps the log of the calls made before it. -/
def KeepsLog (restart : Restart) : Prop :=
  ∀ service binaryLocation newVersionPath backupPath w,
    w.log <+: (restart service binaryLocation newVersionPath backupPath w).2.log

/-- A sample environment: the node 7, an updater of version 1.2.0, a server
that knows the versions v1.2.0 and v1.3.0 and serves the binary "new" at one
URL, and binaries that report 1.2.0 ("old") and 1.3.0 ("new"). -/
def sampleDeps : Deps :=
  { nodeID := [7]
    buildVersion := ⟨1, 2, 0⟩
    semVer := fun v =>
      if v.version = "v1.3.0" then .ok ⟨1, 3, 0⟩
      else if v.version = "v1.2.0" then .ok ⟨1, 2, 0⟩
      else .error (.msg "invalid version")
    shouldUpdate := fun r id => decide (id.sum ≤ r.cursor.sum)
    binaryVersion := fun fs p =>
      match fs p with
      | some c =>
        if c = "old" then .ok ⟨1, 2, 0⟩
        else if c = "new" then .ok ⟨1, 3, 0⟩
        else .error (.msg "unable to determine binary version")
      | none => .error (.path "exec" p ENOENT)
    prependExtension := fun p ext => if p = "sn.exe" then "sn." ++ ext ++ ".exe" else p ++ "." ++ ext
    parseDownloadURL := fun t => t
    fetch := fun url => if url = "https://example.test/sn" then some "new" else none }

/-- The sample environment with a server whose binary at the URL reports 1.2.9
("bad") instead of the suggested version. -/
def sampleBadDeps : Deps :=
  { sampleDeps with
    fetch := fun url => if url = "https://example.test/sn" then some "bad" else none
    binaryVersion := fun fs p =>
      match fs p with
      | some c =>
        if c = "old" then .ok ⟨1, 2, 0⟩
        else if c = "bad" then .ok ⟨1, 2, 9⟩
        else .error (.msg "unable to determine binary version")
      | none => .error (.path "exec" p ENOENT) }

/-- The sample environment of `updateSelf`, with the bad server: an update is
due whenever the suggested version is newer than the running one. -/
def sampleSelfDeps : SelfDeps :=
  { sampleBadDeps with
    shouldUpdateVersion := fun cur _ ver =>
      match sampleBadDeps.semVer ver.suggested with
      | .ok sug => .ok (decide (cur.Compare sug < 0), "up to date")
      | .error e => .error e }

/-- What the sample server says of the storage node: 1.3.0 is suggested, to the
nodes up to the given cursor. -/
def sampleProcess (cursor : List Nat) : Process :=
  { minimum := ⟨"v1.2.0", ""⟩
    suggested := ⟨"v1.3.0", "https://example.test/sn"⟩
    rollout := ⟨[0], cursor⟩ }

/-- What the sample server says when the running version is the suggested one. -/
def sampleProcessSame : Process :=
  { minimum := ⟨"v1.2.0", ""⟩
    suggested := ⟨"v1.2.0", "https://example.test/sn"⟩
    rollout := ⟨[0], [255]⟩ }

/-- The file-system states reached on the way from the world `w` to the later
world `out`, oldest first. -/
def statesSince (w out : World) : List FS := out.hist.drop w.hist.length

/-! ## `restart_windows.go`: the service manager, the context and the clock -/

/-- Constant `time.Second`, in nanoseconds. -/
def second : Nat := 1000000000

/-- The outcome of the next `Connect`, `OpenService`, `Close` or `Disconnect`. -/
def World.nextMgr (w : World) : Option Nat :=
  match w.mgr with
  | some errno :: _ => some errno
  | _ => none

/-- The outcome of the next `Start`. -/
def World.nextStart (w : World) : Option Nat :=
  match w.starts with
  | some errno :: _ => some errno
  | _ => none

/-- The answer to the next `Query` or `Control`. -/
def World.nextReply (w : World) : SvcReply :=
  match w.svc with
  | r :: _ => r
  | [] => .fail 0

/-- What the next `ctx.Err()` finds. -/
def World.nextCancel (w : World) : Bool :=
  match w.cancel with
  | b :: _ => b
  | [] => false

/-- Function `mgr.Connect`. -/
def mgr_Connect (w : World) : Option Error × World :=
  (w.nextMgr.map (Error.errno "Connect"),
    { w with mgr := w.mgr.tail, log := w.log ++ [.connect w.nextMgr] })

/-- Method `Mgr.OpenService`. -/
def mgr_OpenService (name : String) (w : World) : Option Error × World :=
  (w.nextMgr.map (Error.errno "OpenService"),
    { w with mgr := w.mgr.tail, log := w.log ++ [.openService name w.nextMgr] })

/-- Method `Service.Close`. -/
def srvc_Close (w : World) : Option Error × World :=
  (w.nextMgr.map (Error.errno "Close"),
    { w with mgr := w.mgr.tail, log := w.log ++ [.close w.nextMgr] })

/-- Method `Mgr.Disconnect`. -/
def mgr_Disconnect (w : World) : Option Error × World :=
  (w.nextMgr.map (Error.errno "Disconnect"),
    { w with mgr := w.mgr.tail, log := w.log ++ [.disconnect w.nextMgr] })

/-- The status or the error a reply stands for. -/
def SvcReply.result (op : String) : SvcReply → Except Error SvcState
  | .ok state => .ok state
  | .fail errno => .error (.errno op errno)

/-- Method `Service.Query`: the state of the service, or an error. -/
def srvc_Query (w : World) : Except Error SvcState × World :=
  (w.nextReply.result "Query", { w with svc := w.svc.tail, log := w.log ++ [.query w.nextReply] })

/-- Method `Service.Control`: the state of the service after the command, or
an error. -/
def srvc_Control (cmd : Cmd) (w : World) : Except Error SvcState × World :=
  (w.nextReply.result "Control",
    { w with svc := w.svc.tail, log := w.log ++ [.control cmd w.nextReply] })

/-- Method `Service.Start`. -/
def srvc_Start (w : World) : Option Error × World :=
  (w.nextStart.map (Error.errno "Start"),
    { w with starts := w.starts.tail, log := w.log ++ [.start w.nextStart] })

/-- Method `ctx.Err`. -/
def ctx_Err (w : World) : Option Error × World :=
  (if w.nextCancel then some Error.canceled else none,
    { w with cancel := w.cancel.tail, log := w.log ++ [.ctxErr w.nextCancel] })

/-- Function `time.Now`: the next reading of the clock, `none` once the
readings are used up. -/
def time_Now (w : World) : Option Nat × World :=
  (w.clock.head?, { w with clock := w.clock.tail, log := w.log ++ [.now w.clock.head?] })

/-- Method `Time.Add`. -/
def timeAdd (t : Option Nat) (d : Nat) : Option Nat := t.map (· + d)

/-- Method `Time.Before`, as in `timeout.Before(now)`: a reading `none` is
later than every deadline. -/
def timeBefore (timeout now : Option Nat) : Bool :=
  match timeout, now with
  | _, none => true
  | some t, some n => decide (t < n)
  | none, some _ => false

/-- The `for status.State != state` loop of `serviceControl` (lines 90 to 102)
and of `serviceWaitForState` (lines 113 to 125), from the last status seen.
Every round that goes on to another one has used up a reading of the clock, so
with more fuel than there are readings the fuel does not run out. -/
def pollLoop (state : SvcState) (timeout : Option Nat) :
    Nat → SvcState → World → Option Error × World
  | 0, _, w => (some (.msg "timeout"), w)
  | fuel + 1, status, w =>
    if status = state then (none, w)
    else
      match ctx_Err w with
      | (some err, w1) => (some err, w1)
      | (none, w1) =>
        if timeBefore timeout (time_Now w1).1 then (some (.msg "timeout"), (time_Now w1).2)
        else
          match srvc_Query (time_Now w1).2 with
          | (.error err, w2) => (some err, w2)
          | (.ok status2, w2) => pollLoop state timeout fuel status2 w2

/-- Function `serviceControl(service, ctx, cmd, state, timeout)`. -/
def serviceControl (cmd : Cmd) (state : SvcState) (timeout : Option Nat) (w : World) :
    Option Error × World :=
  match srvc_Control cmd w with
  | (.error err, w1) => (some err, w1)
  | (.ok status, w1) => pollLoop state timeout (w1.clock.length + 1) status w1

/-- Function `serviceWaitForState(service, ctx, state, timeout)`. -/
def serviceWaitForState (state : SvcState) (timeout : Option Nat) (w : World) :
    Option Error × World :=
  match srvc_Query w with
  | (.error err, w1) => (some err, w1)
  | (.ok status, w1) => pollLoop state timeout (w1.clock.length + 1) status w1

/-- The `for i := 0; i < count; i++` loop of `retry` with `count` rounds left
and `err` the error of the last round. -/
def retryFrom (cb : World → (Bool × Option Error) × World) :
    Nat → Option Error → World → Option Error × World
  | 0, err, w => (err, w)
  | count + 1, _, w =>
    match cb w with
    | ((_, none), w1) => (none, w1)
    | ((abort, some err), w1) => if abort then (some err, w1) else retryFrom cb count (some err) w1

/-- Function `retry(count, cb)`. -/
def retry (count : Nat) (cb : World → (Bool × Option Error) × World) (w : World) :
    Option Error × World :=
  retryFrom cb count none w

/-- The callback `restartService` gives to `retry` (lines 65 to 70): the
context is looked at, then the service is started. -/
def startAttempt (w : World) : (Bool × Option Error) × World :=
  match ctx_Err w with
  | (some err, w1) => ((true, some err), w1)
  | (none, w1) => ((false, (srvc_Start w1).1), (srvc_Start w1).2)

/-- Lines 35 to 50 of `restart_windows.go`: the state of the service is
queried and the service is stopped if it is not; the result is the error each
of the three failing branches gives to `errs.Wrap`. -/
def stopService (w : World) : Option Error × World :=
  match srvc_Query w with
  | (.error err, w1) => (some err, w1)
  | (.ok status, w1) =>
    if status ≠ .Stopped ∧ status ≠ .StopPending then
      serviceControl .Stop .Stopped (timeAdd (time_Now w1).1 (second * 10)) (time_Now w1).2
    else if status = .StopPending then
      serviceWaitForState .Stopped (timeAdd (time_Now w1).1 (second * 10)) (time_Now w1).2
    else (none, w1)

/-- The statement `return errs.Combine(errs.Wrap(err), os.Remove(newVersionPath))`. -/
def failAndRemove (err : Error) (newVersionPath : Path) (w : World) : Option Error × World :=
  (errsCombine [errsWrap (some err), (os_Remove newVersionPath w).1], (os_Remove newVersionPath w).2)

/-- Lines 52 to 81 of `restart_windows.go`: the substitution and the start of
the service. -/
def swapAndStart (binaryLocation newVersionPath backupPath : Path) (w : World) :
    Option Error × World :=
  match substituteWithRecovery binaryLocation backupPath newVersionPath w with
  | ((recovered, some err), w1) =>
    if recovered then
      (errsCombine [errsWrap (some err), (srvc_Start w1).1,
          (os_Remove newVersionPath (srvc_Start w1).2).1],
        (os_Remove newVersionPath (srvc_Start w1).2).2)
    else failAndRemove err newVersionPath w1
  | ((_, none), w1) =>
    match retry 2 startAttempt w1 with
    | (some err, w2) =>
      match os_Rename backupPath binaryLocation w2 with
      | (some rerr, w3) => (errsCombine [some err, some rerr], w3)
      | (none, w3) => (errsCombine [some err, (srvc_Start w3).1], (srvc_Start w3).2)
    | (none, w2) => (none, w2)

namespace Windows

/-- Function `restartService(ctx, service, binaryLocation, newVersionPath,
backupPath)` of `restart_windows.go`.  The deferred `srvc.Close()` and
`manager.Disconnect()` run after the result is computed, the last deferred
first; what they return is assigned to a local variable and is not returned. -/
def restartService (service : String) (binaryLocation newVersionPath backupPath : Path)
    (w : World) : Option Error × World :=
  match mgr_Connect w with
  | (some err, w1) => failAndRemove err newVersionPath w1
  | (none, w1) =>
    match mgr_OpenService service w1 with
    | (some err, w2) =>
      ((failAndRemove err newVersionPath w2).1,
        (mgr_Disconnect (failAndRemove err newVersionPath w2).2).2)
    | (none, w2) =>
      match stopService w2 with
      | (some err, w3) =>
        ((failAndRemove err newVersionPath w3).1,
          (mgr_Disconnect (srvc_Close (failAndRemove err newVersionPath w3).2).2).2)
      | (none, w3) =>
        ((swapAndStart binaryLocation newVersionPath backupPath w3).1,
          (mgr_Disconnect
            (srvc_Close (swapAndStart binaryLocation newVersionPath backupPath w3).2).2).2)

end Windows

/-- The world in which `Windows.restartService` starts its stop phase, the
manager being connected and the service open. -/
def atStop (service : String) (w : World) : World :=
  (mgr_OpenService service (mgr_Connect w).2).2

/-- The world in which `Windows.restartService` starts the substitution. -/
def atSwap (service : String) (w : World) : World :=
  (stopService (atStop service w)).2

/-- The world after a swap that started in `w`: the rename of live to backup
and the rename of staged to live. -/
def afterSwap (live staged backup : Path) (w : World) : World :=
  (os_Rename staged live (os_Rename live backup w).2).2

/-- The world after the start loop that follows the swap. -/
def afterStarts (live staged backup : Path) (w : World) : World :=
  (retry 2 startAttempt (afterSwap live staged backup w)).2

/-- The status reports among the events, oldest first. -/
def observed : List Event → List SvcState
  | [] => []
  | .query (.ok s) :: es => s :: observed es
  | .control _ (.ok s) :: es => s :: observed es
  | _ :: es => observed es

/-- The number of `Start` calls among the events. -/
def startCount (es : List Event) : Nat :=
  (es.filter (fun e => match e with | .start _ => true | _ => false)).length

/-- The number of `Control` calls among the events. -/
def controlCount (es : List Event) : Nat :=
  (es.filter (fun e => match e with | .control _ _ => true | _ => false)).length

/-- The number of `os.Rename` calls among the events. -/
def renameCount (es : List Event) : Nat :=
  (es.filter (fun e => match e with | .rename _ _ => true | _ => false)).length

/-- The events of the polling loop: the looks at the context and at the clock,
and the queries. -/
def Event.isPoll : Event → Bool
  | .ctxErr _ => true
  | .now _ => true
  | .query _ => true
  | _ => false

/-- The events of the stop phase: those of the polling loop and the `Control`
calls. -/
def Event.isStopPhase : Event → Bool
  | .control _ _ => true
  | e => e.isPoll

/-- The events of the rounds of the polling loop that went on to the query:
in each a look at the context that finds it live, a reading of the clock and
the query with its answer. -/
def pollRounds : List (Option Nat × SvcReply) → List Event
  | [] => []
  | (t, r) :: rest => .ctxErr false :: .now t :: .query r :: pollRounds rest

/-- The events of the attempts of the start loop that went on to `Start`: in
each a look at the context that finds it live and the `Start` with its outcome. -/
def startRounds : List (Option Nat) → List Event
  | [] => []
  | r :: rest => .ctxErr false :: .start r :: startRounds rest

/-- The events logged on the way from the world `w` to the later world `out`. -/
def eventsSince (w out : World) : List Event := out.log.drop w.log.length

/-- The sample file system with a service manager: the given answers to
`Query` and `Control`, outcomes of `Start` and of the file-system calls, and
looks at the context; the clock reads 0, 1, 2, ... seconds, six times. -/
def sampleService (svc : List SvcReply) (starts : List (Option Nat))
    (faults : List (Option Nat)) (cancel : List Bool) : World :=
  { fs := sampleFS, faults := faults, log := [], hist := [],
    svc := svc, starts := starts, cancel := cancel,
    clock := [0, second, 2 * second, 3 * second, 4 * second, 5 * second] }

/-! ## `cmd.go` and `loop_windows.go`: the update cycle and its schedule -/

/-- Type `version.Processes`, as far as the cycle reads it. -/
structure AllProcesses where
  /-- Field `Storagenode`. -/
  storagenode : Process
  /-- Field `StoragenodeUpdater`. -/
  storagenodeUpdater : Process
  deriving DecidableEq, Repr

/-- Variable `runCfg` of `cmd.go`, as far as the cycle reads it. -/
structure RunCfg where
  /-- Field `BinaryLocation`. -/
  binaryLocation : Path
  /-- Field `ServiceName`. -/
  serviceName : String
  /-- Field `CheckInterval`, a `time.Duration` in nanoseconds. -/
  checkInterval : Int

/-- The statement `if err := ...; err != nil { zap.S().Errorf(msg, ...) }`
around an update: a failure is logged and dropped. -/
def logIfError (msg : String) (r : Option Error × World) : World :=
  match r.1 with
  | some _ => r.2.note (.logError msg)
  | none => r.2

/-- The closure `loopFunc` of `cmdRun` (lines 110 to 128 of `cmd.go`), linked
with the given `restartService`; `all` is what the version server answers in
this cycle and `args0` is `os.Args[0]`. -/
def loopFunc (d : Deps) (restart : Restart) (cfg : RunCfg) (args0 : Path)
    (all : Except Error AllProcesses) (w : World) : Option Error × World :=
  match all with
  | .error _ => (none, (w.note .versionQuery).note (.logError "Error retrieving version info"))
  | .ok all =>
    let w1 := logIfError ("Error updating " ++ cfg.serviceName)
      (update d restart cfg.serviceName cfg.binaryLocation all.storagenode
        (w.note .versionQuery))
    let w2 := logIfError ("Error updating " ++ updaterServiceName)
      (update d restart updaterServiceName args0 all.storagenodeUpdater w1)
    (none, w2)

namespace Windows

/-- Function `loopFunc` of `loop_windows.go`. -/
def loopFunc (d : SelfDeps) (restart : Restart) (cfg : RunCfg) (args0 : Path)
    (all : Except Error AllProcesses) (w : World) : Option Error × World :=
  let w0 := (w.note (.info "Downloading versions.")).note .versionQuery
  match all with
  | .error _ => (none, w0.note (.logError "Error retrieving version info."))
  | .ok all =>
    let w1 := logIfError "Error updating service."
      (update d.toDeps restart cfg.serviceName cfg.binaryLocation all.storagenode w0)
    let w2 := logIfError "Error updating service."
      (updateSelf d args0 all.storagenodeUpdater w1)
    (none, w2)

end Windows

/-- Constant `minCheckInterval` of `cmd.go`: `time.Minute`, in nanoseconds. -/
def minCheckInterval : Int := 60 * second

/-- How `cmdRun` runs the cycle. -/
inductive Schedule where
  /-- The statement `err = loopFunc(ctx)`: one cycle, no scheduler. -/
  | once
  /-- The statements `loop := sync2.NewCycle(interval)` and
  `err = loop.Run(ctx, loopFunc)`. -/
  | cycle (interval : Int)
  deriving DecidableEq, Repr

/-- The `switch` of `cmdRun` (lines 130 to 140 of `cmd.go`) on
`runCfg.CheckInterval`; the second case sets the interval to the minimum and
falls through to the default one. -/
def cmdRunSchedule (checkInterval : Int) : Schedule :=
  if checkInterval ≤ 0 then .once
  else if checkInterval < minCheckInterval then .cycle minCheckInterval
  else .cycle checkInterval

/-- Type `os.FileInfo`, as far as `fileExists` reads it. -/
structure FileInfo where
  /-- The value of `Mode().IsRegular()`. -/
  isRegular : Bool
  deriving DecidableEq, Repr

/-- The errno of a refused access. -/
def EACCES : Nat := 13

/-- Function `os.IsNotExist`: whether the error says that a file does not
exist. -/
def os_IsNotExist : Option Error → Bool
  | some (.path _ _ errno) => errno == ENOENT
  | some (.link _ _ _ errno) => errno == ENOENT
  | _ => false

/-- Function `fileExists(filename)` of `cmd.go`, given what `os.Stat(filename)`
returned: the file information (`nil` on failure) and the error.  The result is
the boolean returned, or the panic of the Go runtime. -/
def fileExists (stat : Option FileInfo × Option Error) : Except String Bool :=
  if os_IsNotExist stat.2 then .ok false
  else
    match stat.1 with
    | none => .error "invalid memory address or nil pointer dereference"
    | some info => .ok info.isRegular

/-- The backup path `update` gives to `restartService` (lines 43 to 48 of
`update.go`). -/
def backupPathOf (d : Deps) (serviceName : String) (binaryLocation : Path)
    (currentVersion : SemVer) : Path :=
  if serviceName = updaterServiceName then d.prependExtension binaryLocation "old"
  else d.prependExtension binaryLocation ("old." ++ currentVersion.String)

/-- The world with another script for the coming `Connect`, `OpenService`,
`Close` and `Disconnect` calls. -/
def World.withMgr (w : World) (m : List (Option Nat)) : World :=
  { w with mgr := m }

/-! ## `satellite/payments/coinpayments/transactions.go` -/

/-- Type `TransactionID`. -/
abbrev TransactionID := String

/-- Method `TransactionIDList.String`. -/
def TransactionIDList.String (list : List TransactionID) : String :=
  if list.length = 0 then ""
  else if list.length = 1 then list.headD ""
  else
    let separator := "|"
    let builder := ("" ++ list.headD "") ++ separator
    let builder := ((list.take (list.length - 1)).drop 1).foldl
      (fun b id => (b ++ id) ++ separator) builder
    builder ++ list.getLastD ""

/-- The ids joined with a separator, as the claim words it: the ids in order
with one separator between consecutive ids, none at the start or the end. -/
def joinIds (separator : String) : List TransactionID → String
  | [] => ""
  | [id] => id
  | id :: next :: rest => id ++ separator ++ joinIds separator (next :: rest)

/-- A sample configuration: the storage node at `sn.exe`, checked every ten
seconds. -/
def sampleCfg : RunCfg :=
  { binaryLocation := "sn.exe", serviceName := "storagenode", checkInterval := 10 * second }

/-- A sample answer of the version server: 1.3.0 is suggested for the storage
node, and the updater already runs the version suggested for it. -/
def sampleAll : AllProcesses :=
  { storagenode := sampleProcess [255], storagenodeUpdater := sampleProcessSame }

/-- The sample environment of updateSelf with the good server: the binary at
the URL reports the suggested version 1.3.0. -/
def sampleGoodSelfDeps : SelfDeps :=
  { sampleDeps with
    shouldUpdateVersion := fun cur _ ver =>
      match sampleDeps.semVer ver.suggested with
      | .ok sug => .ok (decide (cur.Compare sug < 0), "up to date")
      | .error e => .error e }

/-- A clock that reads 0 and then 11 seconds, one second past the deadline. -/
def sampleLate (svc : List SvcReply) (cancel : List Bool) : World :=
  { sampleService svc [] [] cancel with clock := [0, 11 * second] }

/-! ## Lemmas on the OS calls -/

theorem os_Rename_log (a b : Path) (w : World) :
    (os_Rename a b w).2.log = w.log ++ [Event.rename a b] := by
  unfold os_Rename
  split <;> rfl

theorem os_Rename_hist (a b : Path) (w : World) :
    (os_Rename a b w).2.hist = w.hist ++ [(os_Rename a b w).2.fs] := by
  unfold os_Rename
  split <;> rfl

theorem os_Rename_faults (a b : Path) (w : World) :
    (os_Rename a b w).2.faults = w.faults.tail := by
  unfold os_Rename
  split <;> rfl

/-- A rename that fails leaves the file system as it was. -/
theorem os_Rename_fs_of_fail (a b : Path) (w : World) (e : Error)
    (h : (os_Rename a b w).1 = some e) : (os_Rename a b w).2.fs = w.fs := by
  unfold os_Rename at h ⊢
  split <;> simp_all [World.record]

/-- A rename that succeeds found a file at the old path and moved it. -/
theorem os_Rename_fs_of_ok (a b : Path) (w : World)
    (h : (os_Rename a b w).1 = none) :
    ∃ c, w.fs a = some c ∧ (os_Rename a b w).2.fs = moveFile w.fs a b c := by
  unfold os_Rename at h ⊢
  split <;> simp_all [World.record]

/-- After a successful rename the new path holds what the old path held. -/
theorem os_Rename_new_of_ok (a b : Path) (w : World)
    (h : (os_Rename a b w).1 = none) : (os_Rename a b w).2.fs b = w.fs a := by
  obtain ⟨c, hc, hfs⟩ := os_Rename_fs_of_ok a b w h
  rw [hfs, hc]
  unfold moveFile
  split
  · next hab => rw [← hab, hc]
  · simp

/-- After a successful rename to another path the old path is empty. -/
theorem os_Rename_old_of_ok (a b : Path) (w : World) (hab : a ≠ b)
    (h : (os_Rename a b w).1 = none) : (os_Rename a b w).2.fs a = none := by
  obtain ⟨c, _, hfs⟩ := os_Rename_fs_of_ok a b w h
  rw [hfs]
  simp [moveFile, hab]

/-- A successful rename leaves every third path alone. -/
theorem os_Rename_other_of_ok (a b p : Path) (w : World) (hpa : p ≠ a) (hpb : p ≠ b)
    (h : (os_Rename a b w).1 = none) : (os_Rename a b w).2.fs p = w.fs p := by
  obtain ⟨c, _, hfs⟩ := os_Rename_fs_of_ok a b w h
  rw [hfs]
  unfold moveFile
  split <;> simp [hpa, hpb]

/-- The three outcomes of `substituteWithRecovery` after a first rename that
succeeded, and the one after a first rename that failed, in terms of the
results of the renames. -/
theorem substituteWithRecovery_eq (t b n : Path) (w : World) :
    substituteWithRecovery t b n w =
      match (os_Rename t b w).1 with
      | some err => ((false, errsWrap (some err)), (os_Rename t b w).2)
      | none =>
        match (os_Rename n t (os_Rename t b w).2).1 with
        | none => ((false, none), (os_Rename n t (os_Rename t b w).2).2)
        | some err =>
          match (os_Rename b t (os_Rename n t (os_Rename t b w).2).2).1 with
          | some rerr =>
            ((false, errsCombine [some err, some rerr]),
              (os_Rename b t (os_Rename n t (os_Rename t b w).2).2).2)
          | none =>
            ((true, errsWrap (some err)),
              (os_Rename b t (os_Rename n t (os_Rename t b w).2).2).2) := by
  unfold substituteWithRecovery
  rcases h1 : os_Rename t b w with ⟨_ | e1, w1⟩
  · rcases h2 : os_Rename n t w1 with ⟨_ | e2, w2⟩
    · simp [h2]
    · rcases h3 : os_Rename b t w2 with ⟨_ | e3, w3⟩ <;> simp [h2, h3]
  · simp

/-- The outcomes of the `restartService` of `restart.go` in terms of the
results of its calls. -/
theorem restartService_eq (service : String) (t n b : Path) (w : World) :
    restartService service t n b w =
      match (os_Rename t b w).1 with
      | some err => (errsWrap (some err), (os_Rename t b w).2)
      | none =>
        match (os_Rename n t (os_Rename t b w).2).1 with
        | none => (none, (os_Rename n t (os_Rename t b w).2).2)
        | some err =>
          (errsCombine [some err,
              (os_Rename b t (os_Rename n t (os_Rename t b w).2).2).1,
              (os_Remove n (os_Rename b t (os_Rename n t (os_Rename t b w).2).2).2).1],
            (os_Remove n (os_Rename b t (os_Rename n t (os_Rename t b w).2).2).2).2) := by
  unfold restartService
  rcases h1 : os_Rename t b w with ⟨_ | e1, w1⟩
  · rcases h2 : os_Rename n t w1 with ⟨_ | e2, w2⟩ <;> simp [h2]
  · simp

/-! ## C1: the substitute round trip -/

/-- C1. When the live, backup and staged paths are three different files and
both renames (live to backup, staged to live) succeed, substituteWithRecovery
returns recovered = false with a nil error; afterwards the live path holds what
the staged path held, the backup path holds what the live path held, and the
staged path is empty.  The restartService of restart.go returns nil and ends in
the same world. -/
theorem substitute_round_trip (live backup staged : Path) (w : World)
    (hLB : live ≠ backup) (hSB : staged ≠ backup)
    (h1 : (os_Rename live backup w).1 = none)
    (h2 : (os_Rename staged live (os_Rename live backup w).2).1 = none) :
    (substituteWithRecovery live backup staged w).1 = (false, none) ∧
    (∃ c, w.fs staged = some c) ∧ (∃ c, w.fs live = some c) ∧
    (substituteWithRecovery live backup staged w).2.fs live = w.fs staged ∧
    (substituteWithRecovery live backup staged w).2.fs backup = w.fs live ∧
    (substituteWithRecovery live backup staged w).2.fs staged = none ∧
    ∀ service : String,
      (restartService service live staged backup w).1 = none ∧
      (restartService service live staged backup w).2
        = (substituteWithRecovery live backup staged w).2 := by
  have hSL : staged ≠ live := by
    intro h
    obtain ⟨c, hc, _⟩ := os_Rename_fs_of_ok _ _ _ h2
    rw [h, os_Rename_old_of_ok _ _ _ hLB h1] at hc
    exact Option.noConfusion hc
  have hst : (os_Rename live backup w).2.fs staged = w.fs staged :=
    os_Rename_other_of_ok _ _ _ _ hSL hSB h1
  have hsub : substituteWithRecovery live backup staged w
      = ((false, none), (os_Rename staged live (os_Rename live backup w).2).2) := by
    rw [substituteWithRecovery_eq]; simp only [h1, h2]
  refine ⟨by rw [hsub], ?_, ?_, ?_, ?_, ?_, ?_⟩
  · obtain ⟨c, hc, _⟩ := os_Rename_fs_of_ok _ _ _ h2
    exact ⟨c, by rw [← hst, hc]⟩
  · obtain ⟨c, hc, _⟩ := os_Rename_fs_of_ok _ _ _ h1
    exact ⟨c, hc⟩
  · rw [hsub]
    show (os_Rename staged live (os_Rename live backup w).2).2.fs live = _
    rw [os_Rename_new_of_ok _ _ _ h2, hst]
  · rw [hsub]
    show (os_Rename staged live (os_Rename live backup w).2).2.fs backup = _
    rw [os_Rename_other_of_ok _ _ _ _ (Ne.symm hSB) (Ne.symm hLB) h2,
      os_Rename_new_of_ok _ _ _ h1]
  · rw [hsub]
    exact os_Rename_old_of_ok _ _ _ hSL h2
  · intro service
    rw [restartService_eq, hsub]
    simp only [h1, h2, and_self]

/-- C1 at the sample world: sn.exe is replaced by the staged sn.v2.exe and kept
as sn.old.exe. -/
theorem substitute_round_trip_witness :
    (substituteWithRecovery "sn.exe" "sn.old.exe" "sn.v2.exe" (sampleWorld [])).1 = (false, none) ∧
    (∃ c, (sampleWorld []).fs "sn.v2.exe" = some c) ∧ (∃ c, (sampleWorld []).fs "sn.exe" = some c) ∧
    (substituteWithRecovery "sn.exe" "sn.old.exe" "sn.v2.exe" (sampleWorld [])).2.fs "sn.exe"
      = (sampleWorld []).fs "sn.v2.exe" ∧
    (substituteWithRecovery "sn.exe" "sn.old.exe" "sn.v2.exe" (sampleWorld [])).2.fs "sn.old.exe"
      = (sampleWorld []).fs "sn.exe" ∧
    (substituteWithRecovery "sn.exe" "sn.old.exe" "sn.v2.exe" (sampleWorld [])).2.fs "sn.v2.exe"
      = none ∧
    ∀ service : String,
      (restartService service "sn.exe" "sn.v2.exe" "sn.old.exe" (sampleWorld [])).1 = none ∧
      (restartService service "sn.exe" "sn.v2.exe" "sn.old.exe" (sampleWorld [])).2
        = (substituteWithRecovery "sn.exe" "sn.old.exe" "sn.v2.exe" (sampleWorld [])).2 :=
  substitute_round_trip "sn.exe" "sn.old.exe" "sn.v2.exe" (sampleWorld [])
    (by decide) (by decide) rfl rfl

/-! ## C2: the live path during the substitution -/

/-- C2, as stated, fails: in the sample world the state right after the first
rename of substituteWithRecovery, and of restartService, has no file at the
live path sn.exe, so not every state reached holds the old or the new binary
there. -/
theorem live_invariant_counterexample :
    (¬ ∀ s ∈ (substituteWithRecovery "sn.exe" "sn.old.exe" "sn.v2.exe" (sampleWorld [])).2.hist,
        s "sn.exe" = sampleFS "sn.exe" ∨ s "sn.exe" = sampleFS "sn.v2.exe") ∧
    (¬ ∀ s ∈ (restartService "storagenode" "sn.exe" "sn.v2.exe" "sn.old.exe"
          (sampleWorld [])).2.hist,
        s "sn.exe" = sampleFS "sn.exe" ∨ s "sn.exe" = sampleFS "sn.v2.exe") := by
  constructor
  · intro h
    have h0 := h (os_Rename "sn.exe" "sn.old.exe" (sampleWorld [])).2.fs
      (List.mem_cons_self _ _)
    revert h0
    decide
  · intro h
    have h0 := h (os_Rename "sn.exe" "sn.old.exe" (sampleWorld [])).2.fs
      (List.mem_cons_self _ _)
    revert h0
    decide

theorem os_Remove_hist (a : Path) (w : World) :
    (os_Remove a w).2.hist = w.hist ++ [(os_Remove a w).2.fs] := by
  unfold os_Remove
  split <;> rfl

/-- After a rename every path is empty, or holds what it held, or holds what
the old path held. -/
theorem os_Rename_at (a b p : Path) (w : World) :
    (os_Rename a b w).2.fs p = none ∨ (os_Rename a b w).2.fs p = w.fs p ∨
      (os_Rename a b w).2.fs p = w.fs a := by
  rcases h : (os_Rename a b w).1 with _ | e
  · obtain ⟨c, hc, hfs⟩ := os_Rename_fs_of_ok a b w h
    rw [hfs, hc]
    unfold moveFile
    split
    · exact Or.inr (Or.inl rfl)
    · next hab =>
      by_cases hpb : p = b
      · exact Or.inr (Or.inr (by simp [hpb]))
      · by_cases hpa : p = a
        · exact Or.inl (by simp [hpa, hab])
        · exact Or.inr (Or.inl (by simp [hpb, hpa]))
  · exact Or.inr (Or.inl (by rw [os_Rename_fs_of_fail a b w e h]))

/-- After a removal every path is empty or holds what it held. -/
theorem os_Remove_at (a p : Path) (w : World) :
    (os_Remove a w).2.fs p = none ∨ (os_Remove a w).2.fs p = w.fs p := by
  unfold os_Remove
  split
  · exact Or.inr rfl
  · exact Or.inr rfl
  · by_cases hpa : p = a <;> simp [World.record, hpa]

/-- The states substituteWithRecovery goes through: one per rename it issues. -/
theorem substituteWithRecovery_states (t b n : Path) (w : World) :
    statesSince w (substituteWithRecovery t b n w).2 =
      match (os_Rename t b w).1 with
      | some _ => [(os_Rename t b w).2.fs]
      | none =>
        match (os_Rename n t (os_Rename t b w).2).1 with
        | none => [(os_Rename t b w).2.fs, (os_Rename n t (os_Rename t b w).2).2.fs]
        | some _ =>
          [(os_Rename t b w).2.fs, (os_Rename n t (os_Rename t b w).2).2.fs,
            (os_Rename b t (os_Rename n t (os_Rename t b w).2).2).2.fs] := by
  rw [substituteWithRecovery_eq]
  unfold statesSince
  rcases h1 : (os_Rename t b w).1 with _ | e1
  · rcases h2 : (os_Rename n t (os_Rename t b w).2).1 with _ | e2
    · simp [os_Rename_hist]
    · rcases h3 : (os_Rename b t (os_Rename n t (os_Rename t b w).2).2).1 with _ | e3 <;>
        simp [os_Rename_hist]
  · simp [os_Rename_hist]

/-- The states the restartService of restart.go goes through: one per call. -/
theorem restartService_states (service : String) (t n b : Path) (w : World) :
    statesSince w (restartService service t n b w).2 =
      match (os_Rename t b w).1 with
      | some _ => [(os_Rename t b w).2.fs]
      | none =>
        match (os_Rename n t (os_Rename t b w).2).1 with
        | none => [(os_Rename t b w).2.fs, (os_Rename n t (os_Rename t b w).2).2.fs]
        | some _ =>
          [(os_Rename t b w).2.fs, (os_Rename n t (os_Rename t b w).2).2.fs,
            (os_Rename b t (os_Rename n t (os_Rename t b w).2).2).2.fs,
            (os_Remove n (os_Rename b t (os_Rename n t (os_Rename t b w).2).2).2).2.fs] := by
  rw [restartService_eq]
  unfold statesSince
  rcases h1 : (os_Rename t b w).1 with _ | e1
  · rcases h2 : (os_Rename n t (os_Rename t b w).2).1 with _ | e2
    · simp [os_Rename_hist]
    · simp [os_Rename_hist, os_Remove_hist]
  · simp [os_Rename_hist]

/-- The live path in the states of a substitution: after each of the three
renames, and after the removal of the staged file, it is empty or holds the old
live content or the old staged content. -/
theorem live_after_calls (live backup staged : Path) (w : World) :
    let good : Option Content → Prop := fun x => x = none ∨ x = w.fs live ∨ x = w.fs staged
    good ((os_Rename live backup w).2.fs live) ∧
    ((os_Rename live backup w).1 = none →
      good ((os_Rename staged live (os_Rename live backup w).2).2.fs live) ∧
      good ((os_Rename backup live (os_Rename staged live (os_Rename live backup w).2).2).2.fs live) ∧
      good ((os_Remove staged
        (os_Rename backup live (os_Rename staged live (os_Rename live backup w).2).2).2).2.fs live)) := by
  intro good
  have g1 : good ((os_Rename live backup w).2.fs live) := by
    rcases os_Rename_at live backup live w with h | h | h
    · exact Or.inl h
    · exact Or.inr (Or.inl h)
    · exact Or.inr (Or.inl h)
  refine ⟨g1, fun h1 => ?_⟩
  have hb : (os_Rename live backup w).2.fs backup = w.fs live := os_Rename_new_of_ok _ _ _ h1
  have gs : good ((os_Rename live backup w).2.fs staged) := by
    rcases os_Rename_at live backup staged w with h | h | h
    · exact Or.inl h
    · exact Or.inr (Or.inr h)
    · exact Or.inr (Or.inl h)
  have g2 : good ((os_Rename staged live (os_Rename live backup w).2).2.fs live) := by
    rcases os_Rename_at staged live live (os_Rename live backup w).2 with h | h | h
    · exact Or.inl h
    · rw [h]; exact g1
    · rw [h]; exact gs
  have g2b : good ((os_Rename staged live (os_Rename live backup w).2).2.fs backup) := by
    rcases os_Rename_at staged live backup (os_Rename live backup w).2 with h | h | h
    · exact Or.inl h
    · rw [h, hb]; exact Or.inr (Or.inl rfl)
    · rw [h]; exact gs
  have g3 : good ((os_Rename backup live
      (os_Rename staged live (os_Rename live backup w).2).2).2.fs live) := by
    rcases os_Rename_at backup live live (os_Rename staged live (os_Rename live backup w).2).2
      with h | h | h
    · exact Or.inl h
    · rw [h]; exact g2
    · rw [h]; exact g2b
  refine ⟨g2, g3, ?_⟩
  rcases os_Remove_at staged live
    (os_Rename backup live (os_Rename staged live (os_Rename live backup w).2).2).2 with h | h
  · exact Or.inl h
  · rw [h]; exact g3

/-- C2, amended. In every state reached during and after substituteWithRecovery
and the restartService of restart.go the live path is empty or holds the
complete old binary or the complete staged binary, never anything else; and when
the first rename succeeds (live and backup being different paths) the state
between the first and the second rename has no file at the live path.  From a
state with a binary at the live path, the path is empty only in states reached
after the first rename has succeeded. -/
theorem live_old_new_or_absent (live backup staged : Path) (w : World) :
    (∀ s ∈ statesSince w (substituteWithRecovery live backup staged w).2,
      s live = none ∨ s live = w.fs live ∨ s live = w.fs staged) ∧
    (∀ service : String, ∀ s ∈ statesSince w (restartService service live staged backup w).2,
      s live = none ∨ s live = w.fs live ∨ s live = w.fs staged) ∧
    (live ≠ backup → (os_Rename live backup w).1 = none →
      (statesSince w (substituteWithRecovery live backup staged w).2).head?
        = some (os_Rename live backup w).2.fs ∧
      (∀ service : String,
        (statesSince w (restartService service live staged backup w).2).head?
          = some (os_Rename live backup w).2.fs) ∧
      (os_Rename live backup w).2.fs live = none) ∧
    (∀ c : Content, w.fs live = some c →
      (∀ s ∈ statesSince w (substituteWithRecovery live backup staged w).2,
        s live = none → (os_Rename live backup w).1 = none) ∧
      (∀ service : String, ∀ s ∈ statesSince w (restartService service live staged backup w).2,
        s live = none → (os_Rename live backup w).1 = none)) := by
  obtain ⟨g1, grest⟩ := live_after_calls live backup staged w
  refine ⟨?_, ?_, ?_, ?_⟩
  · intro s hs
    rw [substituteWithRecovery_states] at hs
    rcases h1 : (os_Rename live backup w).1 with _ | e1
    · obtain ⟨g2, g3, _⟩ := grest h1
      rw [h1] at hs
      rcases h2 : (os_Rename staged live (os_Rename live backup w).2).1 with _ | e2
      · rw [h2] at hs
        simp only [List.mem_cons, List.mem_singleton, List.not_mem_nil, or_false] at hs
        rcases hs with rfl | rfl
        · exact g1
        · exact g2
      · rw [h2] at hs
        simp only [List.mem_cons, List.mem_singleton, List.not_mem_nil, or_false] at hs
        rcases hs with rfl | rfl | rfl
        · exact g1
        · exact g2
        · exact g3
    · rw [h1] at hs
      simp only [List.mem_singleton] at hs
      rw [hs]; exact g1
  · intro service s hs
    rw [restartService_states] at hs
    rcases h1 : (os_Rename live backup w).1 with _ | e1
    · obtain ⟨g2, g3, g4⟩ := grest h1
      rw [h1] at hs
      rcases h2 : (os_Rename staged live (os_Rename live backup w).2).1 with _ | e2
      · rw [h2] at hs
        simp only [List.mem_cons, List.mem_singleton, List.not_mem_nil, or_false] at hs
        rcases hs with rfl | rfl
        · exact g1
        · exact g2
      · rw [h2] at hs
        simp only [List.mem_cons, List.mem_singleton, List.not_mem_nil, or_false] at hs
        rcases hs with rfl | rfl | rfl | rfl
        · exact g1
        · exact g2
        · exact g3
        · exact g4
    · rw [h1] at hs
      simp only [List.mem_singleton] at hs
      rw [hs]; exact g1
  · intro hLB h1
    refine ⟨?_, ?_, os_Rename_old_of_ok _ _ _ hLB h1⟩
    · rw [substituteWithRecovery_states, h1]
      rcases h2 : (os_Rename staged live (os_Rename live backup w).2).1 with _ | e2 <;> rfl
    · intro service
      rw [restartService_states, h1]
      rcases h2 : (os_Rename staged live (os_Rename live backup w).2).1 with _ | e2 <;> rfl
  · intro c hc
    constructor
    · intro s hs hnone
      rcases h1 : (os_Rename live backup w).1 with _ | e1
      · rfl
      · rw [substituteWithRecovery_states, h1] at hs
        simp only [List.mem_singleton] at hs
        rw [hs, os_Rename_fs_of_fail _ _ _ e1 h1, hc] at hnone
        exact Option.noConfusion hnone
    · intro service s hs hnone
      rcases h1 : (os_Rename live backup w).1 with _ | e1
      · rfl
      · rw [restartService_states, h1] at hs
        simp only [List.mem_singleton] at hs
        rw [hs, os_Rename_fs_of_fail _ _ _ e1 h1, hc] at hnone
        exact Option.noConfusion hnone

/-- C2, amended, at the sample world: the first state reached is the one after
the first rename, and it has no file at sn.exe. -/
theorem live_old_new_or_absent_witness :
    (statesSince (sampleWorld [])
        (substituteWithRecovery "sn.exe" "sn.old.exe" "sn.v2.exe" (sampleWorld [])).2).head?
      = some (os_Rename "sn.exe" "sn.old.exe" (sampleWorld [])).2.fs ∧
    (∀ service : String,
      (statesSince (sampleWorld [])
          (restartService service "sn.exe" "sn.v2.exe" "sn.old.exe" (sampleWorld [])).2).head?
        = some (os_Rename "sn.exe" "sn.old.exe" (sampleWorld [])).2.fs) ∧
    (os_Rename "sn.exe" "sn.old.exe" (sampleWorld [])).2.fs "sn.exe" = none :=
  (live_old_new_or_absent "sn.exe" "sn.old.exe" "sn.v2.exe" (sampleWorld [])).2.2.1
    (by decide) rfl

/-! ## C3: the live path when substituteWithRecovery returns -/

/-- C3. From a state where the live path holds a binary, and for every pattern
of rename failures, substituteWithRecovery returns with the old live content or
the old staged content at the live path, unless the first rename succeeded and
both the staged-to-live rename and the restore rename failed; the live path is
empty at return only in that double failure. -/
theorem live_kept_unless_double_failure (live backup staged : Path) (w : World) (c : Content)
    (hlive : w.fs live = some c) :
    (¬ ((os_Rename live backup w).1 = none ∧
        (os_Rename staged live (os_Rename live backup w).2).1 ≠ none ∧
        (os_Rename backup live (os_Rename staged live (os_Rename live backup w).2).2).1 ≠ none) →
      ∃ x, (substituteWithRecovery live backup staged w).2.fs live = some x ∧
        (w.fs live = some x ∨ w.fs staged = some x)) ∧
    ((substituteWithRecovery live backup staged w).2.fs live = none →
      (os_Rename live backup w).1 = none ∧
      (os_Rename staged live (os_Rename live backup w).2).1 ≠ none ∧
      (os_Rename backup live (os_Rename staged live (os_Rename live backup w).2).2).1 ≠ none) := by
  have key : ¬ ((os_Rename live backup w).1 = none ∧
        (os_Rename staged live (os_Rename live backup w).2).1 ≠ none ∧
        (os_Rename backup live (os_Rename staged live (os_Rename live backup w).2).2).1 ≠ none) →
      ∃ x, (substituteWithRecovery live backup staged w).2.fs live = some x ∧
        (w.fs live = some x ∨ w.fs staged = some x) := by
    intro hnd
    rw [substituteWithRecovery_eq]
    rcases h1 : (os_Rename live backup w).1 with _ | e1
    · have hb : (os_Rename live backup w).2.fs backup = w.fs live :=
        os_Rename_new_of_ok _ _ _ h1
      rcases h2 : (os_Rename staged live (os_Rename live backup w).2).1 with _ | e2
      · obtain ⟨x, hx, _⟩ := os_Rename_fs_of_ok _ _ _ h2
        refine ⟨x, ?_, ?_⟩
        · show (os_Rename staged live (os_Rename live backup w).2).2.fs live = some x
          rw [os_Rename_new_of_ok _ _ _ h2, hx]
        · rcases os_Rename_at live backup staged w with h | h | h
          · rw [h] at hx; exact Option.noConfusion hx
          · exact Or.inr (by rw [← h, hx])
          · exact Or.inl (by rw [← h, hx])
      · rcases h3 : (os_Rename backup live
            (os_Rename staged live (os_Rename live backup w).2).2).1 with _ | e3
        · refine ⟨c, ?_, Or.inl hlive⟩
          show (os_Rename backup live
            (os_Rename staged live (os_Rename live backup w).2).2).2.fs live = some c
          rw [os_Rename_new_of_ok _ _ _ h3, os_Rename_fs_of_fail _ _ _ e2 h2, hb, hlive]
        · exact absurd ⟨h1, by simp [h2], by simp [h3]⟩ hnd
    · refine ⟨c, ?_, Or.inl hlive⟩
      show (os_Rename live backup w).2.fs live = some c
      rw [os_Rename_fs_of_fail _ _ _ e1 h1, hlive]
  refine ⟨key, fun hnone => ?_⟩
  by_contra hnd
  obtain ⟨x, hx, _⟩ := key hnd
  rw [hnone] at hx
  exact Option.noConfusion hx

/-- C3 at the sample world, with the second rename refused by the OS and the
restore let through: the live path holds the old binary again. -/
theorem live_kept_unless_double_failure_witness :
    ∃ x, (substituteWithRecovery "sn.exe" "sn.old.exe" "sn.v2.exe"
        (sampleWorld [none, some 13])).2.fs "sn.exe" = some x ∧
      ((sampleWorld [none, some 13]).fs "sn.exe" = some x ∨
        (sampleWorld [none, some 13]).fs "sn.v2.exe" = some x) :=
  (live_kept_unless_double_failure "sn.exe" "sn.old.exe" "sn.v2.exe"
    (sampleWorld [none, some 13]) "old" rfl).1 (fun h => h.2.2 rfl)

/-! ## C4: the first rename fails -/

/-- C4. When the first rename (live to backup) fails with the error e,
substituteWithRecovery returns recovered = false with that error (wrapped), has
issued that one rename and nothing else, and the file system is as it was; the
restartService of restart.go returns the same error, with the same single call
and the same file system. -/
theorem first_rename_failure_is_terminal (live backup staged : Path) (w : World) (e : Error)
    (h1 : (os_Rename live backup w).1 = some e) :
    (substituteWithRecovery live backup staged w).1 = (false, some (Error.wrap e)) ∧
    (substituteWithRecovery live backup staged w).2.log = w.log ++ [Event.rename live backup] ∧
    (substituteWithRecovery live backup staged w).2.fs = w.fs ∧
    ∀ service : String,
      (restartService service live staged backup w).1 = some (Error.wrap e) ∧
      (restartService service live staged backup w).2.log
        = w.log ++ [Event.rename live backup] ∧
      (restartService service live staged backup w).2.fs = w.fs := by
  have hw : errsWrap (some e) = some (Error.wrap e) := by
    unfold os_Rename at h1
    split at h1 <;> simp at h1 <;> subst h1 <;> rfl
  have hsub : substituteWithRecovery live backup staged w
      = ((false, errsWrap (some e)), (os_Rename live backup w).2) := by
    rw [substituteWithRecovery_eq]; simp only [h1]
  refine ⟨by rw [hsub, hw], by rw [hsub]; exact os_Rename_log _ _ _,
    by rw [hsub]; exact os_Rename_fs_of_fail _ _ _ e h1, fun service => ?_⟩
  have hrs : restartService service live staged backup w
      = (errsWrap (some e), (os_Rename live backup w).2) := by
    rw [restartService_eq]; simp only [h1]
  exact ⟨by rw [hrs, hw], by rw [hrs]; exact os_Rename_log _ _ _,
    by rw [hrs]; exact os_Rename_fs_of_fail _ _ _ e h1⟩

/-- C4 at the sample world with the first rename refused (errno 13). -/
theorem first_rename_failure_is_terminal_witness :
    (substituteWithRecovery "sn.exe" "sn.old.exe" "sn.v2.exe" (sampleWorld [some 13])).1
      = (false, some (Error.wrap (Error.link "rename" "sn.exe" "sn.old.exe" 13))) ∧
    (substituteWithRecovery "sn.exe" "sn.old.exe" "sn.v2.exe" (sampleWorld [some 13])).2.log
      = (sampleWorld [some 13]).log ++ [Event.rename "sn.exe" "sn.old.exe"] ∧
    (substituteWithRecovery "sn.exe" "sn.old.exe" "sn.v2.exe" (sampleWorld [some 13])).2.fs
      = (sampleWorld [some 13]).fs ∧
    ∀ service : String,
      (restartService service "sn.exe" "sn.v2.exe" "sn.old.exe" (sampleWorld [some 13])).1
        = some (Error.wrap (Error.link "rename" "sn.exe" "sn.old.exe" 13)) ∧
      (restartService service "sn.exe" "sn.v2.exe" "sn.old.exe" (sampleWorld [some 13])).2.log
        = (sampleWorld [some 13]).log ++ [Event.rename "sn.exe" "sn.old.exe"] ∧
      (restartService service "sn.exe" "sn.v2.exe" "sn.old.exe" (sampleWorld [some 13])).2.fs
        = (sampleWorld [some 13]).fs :=
  first_rename_failure_is_terminal "sn.exe" "sn.old.exe" "sn.v2.exe" (sampleWorld [some 13])
    (Error.link "rename" "sn.exe" "sn.old.exe" 13) rfl

/-! ## C5: recovered = true -/

/-- C5. substituteWithRecovery returns recovered = true exactly when the first
rename succeeded, the staged-to-live rename failed and the restore rename
succeeded; then the returned error is the wrapped error of the staged-to-live
rename, hence not nil, and the live path holds what it held before the call. -/
theorem recovered_iff_restored (live backup staged : Path) (w : World) :
    ((substituteWithRecovery live backup staged w).1.1 = true ↔
      ((os_Rename live backup w).1 = none ∧
       (os_Rename staged live (os_Rename live backup w).2).1 ≠ none ∧
       (os_Rename backup live (os_Rename staged live (os_Rename live backup w).2).2).1 = none)) ∧
    ((substituteWithRecovery live backup staged w).1.1 = true →
      (∃ e2, (os_Rename staged live (os_Rename live backup w).2).1 = some e2 ∧
        (substituteWithRecovery live backup staged w).1.2 = some (Error.wrap e2)) ∧
      (substituteWithRecovery live backup staged w).1.2 ≠ none ∧
      (substituteWithRecovery live backup staged w).2.fs live = w.fs live) := by
  have hiff : (substituteWithRecovery live backup staged w).1.1 = true ↔
      ((os_Rename live backup w).1 = none ∧
       (os_Rename staged live (os_Rename live backup w).2).1 ≠ none ∧
       (os_Rename backup live (os_Rename staged live (os_Rename live backup w).2).2).1
         = none) := by
    rw [substituteWithRecovery_eq]
    rcases h1 : (os_Rename live backup w).1 with _ | e1
    · rcases h2 : (os_Rename staged live (os_Rename live backup w).2).1 with _ | e2
      · simp
      · rcases h3 : (os_Rename backup live
            (os_Rename staged live (os_Rename live backup w).2).2).1 with _ | e3 <;> simp
    · simp
  refine ⟨hiff, fun hrec => ?_⟩
  obtain ⟨h1, h2, h3⟩ := hiff.mp hrec
  obtain ⟨e2, he2⟩ := Option.ne_none_iff_exists'.mp h2
  have hw : errsWrap (some e2) = some (Error.wrap e2) := by
    unfold os_Rename at he2
    split at he2 <;> simp at he2 <;> subst he2 <;> rfl
  have hsub : substituteWithRecovery live backup staged w
      = ((true, errsWrap (some e2)),
          (os_Rename backup live (os_Rename staged live (os_Rename live backup w).2).2).2) := by
    rw [substituteWithRecovery_eq]; simp only [h1, he2, h3]
  refine ⟨⟨e2, he2, by rw [hsub, hw]⟩, by rw [hsub, hw]; exact Option.some_ne_none _, ?_⟩
  rw [hsub]
  show (os_Rename backup live
    (os_Rename staged live (os_Rename live backup w).2).2).2.fs live = w.fs live
  rw [os_Rename_new_of_ok _ _ _ h3, os_Rename_fs_of_fail _ _ _ e2 he2,
    os_Rename_new_of_ok _ _ _ h1]

/-- C5 at the sample world with the second rename refused (errno 13): the old
binary is back and the error of the refused rename is returned. -/
theorem recovered_iff_restored_witness :
    (∃ e2, (os_Rename "sn.v2.exe" "sn.exe"
          (os_Rename "sn.exe" "sn.old.exe" (sampleWorld [none, some 13])).2).1 = some e2 ∧
      (substituteWithRecovery "sn.exe" "sn.old.exe" "sn.v2.exe"
          (sampleWorld [none, some 13])).1.2 = some (Error.wrap e2)) ∧
    (substituteWithRecovery "sn.exe" "sn.old.exe" "sn.v2.exe"
        (sampleWorld [none, some 13])).1.2 ≠ none ∧
    (substituteWithRecovery "sn.exe" "sn.old.exe" "sn.v2.exe"
        (sampleWorld [none, some 13])).2.fs "sn.exe" = (sampleWorld [none, some 13]).fs "sn.exe" :=
  (recovered_iff_restored "sn.exe" "sn.old.exe" "sn.v2.exe" (sampleWorld [none, some 13])).2 rfl

/-! ## C6: the swap and the restore both fail -/

/-- C6. When, after a first rename that succeeded, the staged-to-live rename
fails with e2 and the restore rename fails with e3, substituteWithRecovery
returns recovered = false and the group of both errors, e2 then e3. -/
theorem double_failure_combines_errors (live backup staged : Path) (w : World) (e2 e3 : Error)
    (h1 : (os_Rename live backup w).1 = none)
    (h2 : (os_Rename staged live (os_Rename live backup w).2).1 = some e2)
    (h3 : (os_Rename backup live (os_Rename staged live (os_Rename live backup w).2).2).1
      = some e3) :
    (substituteWithRecovery live backup staged w).1 = (false, some (Error.group [e2, e3])) := by
  rw [substituteWithRecovery_eq]
  simp only [h1, h2, h3]
  rfl

/-- C6 at the sample world with the second and third renames refused (errno 13
and errno 5). -/
theorem double_failure_combines_errors_witness :
    (substituteWithRecovery "sn.exe" "sn.old.exe" "sn.v2.exe"
        (sampleWorld [none, some 13, some 5])).1
      = (false, some (Error.group [Error.link "rename" "sn.v2.exe" "sn.exe" 13,
          Error.link "rename" "sn.old.exe" "sn.exe" 5])) :=
  double_failure_combines_errors "sn.exe" "sn.old.exe" "sn.v2.exe"
    (sampleWorld [none, some 13, some 5]) _ _ rfl rfl rfl

/-! ## C7: the rollback law -/

/-- A removal that succeeds empties the path and leaves the others alone. -/
theorem os_Remove_fs_of_ok (a : Path) (w : World) (h : (os_Remove a w).1 = none) :
    (os_Remove a w).2.fs = fun p => if p = a then none else w.fs p := by
  unfold os_Remove at h ⊢
  split <;> simp_all [World.record]

/-- C7, as stated, fails: in the sample world, with the second rename refused
and the restore let through, substituteWithRecovery returns recovered = true
with the staged file sn.v2.exe still in place; and the restartService of
restart.go, whose removal of the staged file is refused as well, also returns
with the staged file in place. -/
theorem rollback_staged_counterexample :
    (substituteWithRecovery "sn.exe" "sn.old.exe" "sn.v2.exe"
        (sampleWorld [none, some 13])).1.1 = true ∧
    (substituteWithRecovery "sn.exe" "sn.old.exe" "sn.v2.exe"
        (sampleWorld [none, some 13])).2.fs "sn.v2.exe" = some "new" ∧
    (restartService "storagenode" "sn.exe" "sn.v2.exe" "sn.old.exe"
        (sampleWorld [none, some 13, none, some 13])).2.fs "sn.exe" = some "old" ∧
    (restartService "storagenode" "sn.exe" "sn.v2.exe" "sn.old.exe"
        (sampleWorld [none, some 13, none, some 13])).2.fs "sn.v2.exe" = some "new" := by
  decide

/-- C7, amended. When the first rename succeeds, the staged-to-live rename
fails and the restore rename succeeds, substituteWithRecovery returns with the
original binary at the live path and leaves the staged path as it was (staged
being a path of its own); the restartService of restart.go returns with the
original binary at the live path and, when its removal of the staged file
succeeds, with no file at the staged path. -/
theorem rollback_law (live backup staged : Path) (w : World) (e2 : Error)
    (hSL : staged ≠ live)
    (h1 : (os_Rename live backup w).1 = none)
    (h2 : (os_Rename staged live (os_Rename live backup w).2).1 = some e2)
    (h3 : (os_Rename backup live (os_Rename staged live (os_Rename live backup w).2).2).1
      = none) :
    (substituteWithRecovery live backup staged w).2.fs live = w.fs live ∧
    (staged ≠ backup → (substituteWithRecovery live backup staged w).2.fs staged = w.fs staged) ∧
    ∀ service : String,
      (restartService service live staged backup w).2.fs live = w.fs live ∧
      ((os_Remove staged
          (os_Rename backup live (os_Rename staged live (os_Rename live backup w).2).2).2).1 = none →
        (restartService service live staged backup w).2.fs staged = none) := by
  have hsub : (substituteWithRecovery live backup staged w).2
      = (os_Rename backup live (os_Rename staged live (os_Rename live backup w).2).2).2 := by
    rw [substituteWithRecovery_eq]; simp only [h1, h2, h3]
  have hlive : (os_Rename backup live
      (os_Rename staged live (os_Rename live backup w).2).2).2.fs live = w.fs live := by
    rw [os_Rename_new_of_ok _ _ _ h3, os_Rename_fs_of_fail _ _ _ e2 h2,
      os_Rename_new_of_ok _ _ _ h1]
  refine ⟨by rw [hsub]; exact hlive, fun hSB => ?_, fun service => ?_⟩
  · rw [hsub, os_Rename_other_of_ok _ _ _ _ hSB hSL h3, os_Rename_fs_of_fail _ _ _ e2 h2,
      os_Rename_other_of_ok _ _ _ _ hSL hSB h1]
  · have hrs : (restartService service live staged backup w).2
        = (os_Remove staged
            (os_Rename backup live (os_Rename staged live (os_Rename live backup w).2).2).2).2 := by
      rw [restartService_eq]; simp only [h1, h2]
    rw [hrs]
    constructor
    · rcases h4 : (os_Remove staged
          (os_Rename backup live (os_Rename staged live (os_Rename live backup w).2).2).2).1
        with _ | e4
      · rw [os_Remove_fs_of_ok _ _ h4]
        simp only [Ne.symm hSL, if_false]
        exact hlive
      · have : (os_Remove staged
            (os_Rename backup live (os_Rename staged live (os_Rename live backup w).2).2).2).2.fs
            = (os_Rename backup live
                (os_Rename staged live (os_Rename live backup w).2).2).2.fs := by
          revert h4
          unfold os_Remove
          split <;> simp [World.record]
        rw [this]; exact hlive
    · intro h4
      rw [os_Remove_fs_of_ok _ _ h4]
      simp

/-- C7, amended, at the sample world with the second rename refused: the old
binary is back at sn.exe, substituteWithRecovery leaves sn.v2.exe alone and
restartService removes it. -/
theorem rollback_law_witness :
    (substituteWithRecovery "sn.exe" "sn.old.exe" "sn.v2.exe"
        (sampleWorld [none, some 13])).2.fs "sn.exe" = (sampleWorld [none, some 13]).fs "sn.exe" ∧
    (substituteWithRecovery "sn.exe" "sn.old.exe" "sn.v2.exe"
        (sampleWorld [none, some 13])).2.fs "sn.v2.exe"
      = (sampleWorld [none, some 13]).fs "sn.v2.exe" ∧
    (restartService "storagenode" "sn.exe" "sn.v2.exe" "sn.old.exe"
        (sampleWorld [none, some 13])).2.fs "sn.exe" = (sampleWorld [none, some 13]).fs "sn.exe" ∧
    (restartService "storagenode" "sn.exe" "sn.v2.exe" "sn.old.exe"
        (sampleWorld [none, some 13])).2.fs "sn.v2.exe" = none :=
  have h := rollback_law "sn.exe" "sn.old.exe" "sn.v2.exe" (sampleWorld [none, some 13])
    (Error.link "rename" "sn.v2.exe" "sn.exe" 13) (by decide) rfl rfl rfl
  ⟨h.1, h.2.1 (by decide), (h.2.2 "storagenode").1, (h.2.2 "storagenode").2 rfl⟩

/-! ## Lemmas on `update` -/

theorem os_Remove_log (a : Path) (w : World) :
    (os_Remove a w).2.log = w.log ++ [Event.remove a] := by
  unfold os_Remove
  split <;> rfl

theorem downloadBinary_log (d : Deps) (url : String) (target : Path) (w : World) :
    (downloadBinary d url target w).2.log = w.log ++ [Event.download url target] := by
  unfold downloadBinary
  split <;> rfl

/-- The version compared with itself gives 0. -/
theorem SemVer.Compare_self (v : SemVer) : v.Compare v = 0 := by
  simp [SemVer.Compare]

/-- The restartService of restart.go keeps the log of the calls before it. -/
theorem restartService_keepsLog : KeepsLog restartService := by
  intro service t n b w
  rw [restartService_eq]
  rcases h1 : (os_Rename t b w).1 with _ | e1
  · rcases h2 : (os_Rename n t (os_Rename t b w).2).1 with _ | e2
    · simp only [os_Rename_log, List.append_assoc]
      exact List.prefix_append _ _
    · simp only [os_Remove_log, os_Rename_log, List.append_assoc]
      exact List.prefix_append _ _
  · simp only [os_Rename_log]
    exact List.prefix_append _ _

/-- The result of update when the version check declines. -/
theorem update_of_up_to_date (d : Deps) (restart : Restart) (serviceName : String)
    (binaryLocation : Path) (ver : Process) (w : World) (current suggested : SemVer)
    (hs : d.semVer ver.suggested = .ok suggested)
    (hc : currentVersionOf d serviceName binaryLocation w = .ok current)
    (hge : current.Compare suggested ≥ 0) :
    update d restart serviceName binaryLocation ver w
      = (none, w.note (.info (serviceName ++ " version is up to date"))) := by
  unfold update
  simp only [hs, hc, hge, if_true]

/-- The result of update when the rollout check declines. -/
theorem update_of_not_rolled_out (d : Deps) (restart : Restart) (serviceName : String)
    (binaryLocation : Path) (ver : Process) (w : World) (current suggested : SemVer)
    (hs : d.semVer ver.suggested = .ok suggested)
    (hc : currentVersionOf d serviceName binaryLocation w = .ok current)
    (hlt : current.Compare suggested < 0)
    (hr : d.shouldUpdate ver.rollout d.nodeID = false) :
    update d restart serviceName binaryLocation ver w
      = (none, (w.note .rolloutCheck).note (.info ("New " ++ serviceName
          ++ " version available but not rolled out to this nodeID yet"))) := by
  unfold update
  simp only [hs, hc, not_le.mpr hlt, hr, if_false, Bool.not_false, if_true]

/-- The log of update when both checks pass: the rollout check, the download,
and what follows. -/
theorem update_log_of_proceed (d : Deps) (restart : Restart) (serviceName : String)
    (binaryLocation : Path) (ver : Process) (w : World) (current suggested : SemVer)
    (hs : d.semVer ver.suggested = .ok suggested)
    (hc : currentVersionOf d serviceName binaryLocation w = .ok current)
    (hlt : current.Compare suggested < 0)
    (hr : d.shouldUpdate ver.rollout d.nodeID = true)
    (hk : KeepsLog restart) :
    w.log ++ [Event.rolloutCheck,
        Event.download (d.parseDownloadURL ver.suggested.url)
          (d.prependExtension binaryLocation ver.suggested.version)]
      <+: (update d restart serviceName binaryLocation ver w).2.log := by
  unfold update
  simp only [hs, hc, not_le.mpr hlt, hr, Bool.not_true, Bool.false_eq_true, if_false]
  have hdl := downloadBinary_log d (d.parseDownloadURL ver.suggested.url)
    (d.prependExtension binaryLocation ver.suggested.version) (w.note .rolloutCheck)
  have hdl2 : (downloadBinary d (d.parseDownloadURL ver.suggested.url)
      (d.prependExtension binaryLocation ver.suggested.version) (w.note .rolloutCheck)).2.log
      = w.log ++ [Event.rolloutCheck,
        Event.download (d.parseDownloadURL ver.suggested.url)
          (d.prependExtension binaryLocation ver.suggested.version)] := by
    rw [hdl]; simp [World.note]
  rcases hd : downloadBinary d (d.parseDownloadURL ver.suggested.url)
      (d.prependExtension binaryLocation ver.suggested.version) (w.note .rolloutCheck)
    with ⟨_ | derr, w2⟩
  · rw [hd] at hdl2
    simp only at hdl2 ⊢
    rcases hb : d.binaryVersion w2.fs (d.prependExtension binaryLocation ver.suggested.version)
      with berr | downloaded
    · simp only [os_Remove_log, hdl2]
      exact List.prefix_append _ _
    · simp only
      split
      · simp only [os_Remove_log, hdl2]
        exact List.prefix_append _ _
      · have hk1 := hk serviceName binaryLocation
          (d.prependExtension binaryLocation ver.suggested.version)
          (if serviceName = updaterServiceName then d.prependExtension binaryLocation "old"
            else d.prependExtension binaryLocation ("old." ++ current.String))
          (w2.note (.info ("Restarting service " ++ serviceName)))
        have hpre : w.log ++ [Event.rolloutCheck,
            Event.download (d.parseDownloadURL ver.suggested.url)
              (d.prependExtension binaryLocation ver.suggested.version)]
            <+: (w2.note (.info ("Restarting service " ++ serviceName))).log := by
          rw [← hdl2]
          exact List.prefix_append _ _
        have hall := hpre.trans hk1
        split
        · next rerr w4 heq =>
          rw [heq] at hall
          exact hall
        · next w4 heq =>
          rw [heq] at hall
          exact hall.trans (List.prefix_append _ _)
  · rw [hd] at hdl2
    simp only at hdl2 ⊢
    rw [hdl2]

/-! ## C8: the version gate -/

/-- C8. Whatever the current and the suggested version are, update goes past
the version check (the rollout check is the next thing it does) exactly when
current.Compare(suggested) is negative; when the two versions are equal the
comparison gives 0 and update does not go past the check. -/
theorem version_gate (d : Deps) (restart : Restart) (serviceName : String)
    (binaryLocation : Path) (ver : Process) (w : World) (current suggested : SemVer)
    (hs : d.semVer ver.suggested = .ok suggested)
    (hc : currentVersionOf d serviceName binaryLocation w = .ok current)
    (hk : KeepsLog restart) :
    (pastVersionCheck w (update d restart serviceName binaryLocation ver w).2
      ↔ current.Compare suggested < 0) ∧
    (current = suggested →
      current.Compare suggested = 0 ∧
      ¬ pastVersionCheck w (update d restart serviceName binaryLocation ver w).2) := by
  have hiff : pastVersionCheck w (update d restart serviceName binaryLocation ver w).2
      ↔ current.Compare suggested < 0 := by
    unfold pastVersionCheck
    constructor
    · intro hp
      by_contra hge
      rw [update_of_up_to_date d restart serviceName binaryLocation ver w current suggested
        hs hc (not_lt.mp hge)] at hp
      simp [World.note, List.prefix_append_right_inj] at hp
    · intro hlt
      rcases hr : d.shouldUpdate ver.rollout d.nodeID with _ | _
      · rw [update_of_not_rolled_out d restart serviceName binaryLocation ver w current suggested
          hs hc hlt hr]
        simp [World.note]
      · have h := update_log_of_proceed d restart serviceName binaryLocation ver w current
          suggested hs hc hlt hr hk
        refine List.IsPrefix.trans ?_ h
        simp [List.prefix_append_right_inj]
  refine ⟨hiff, fun heq => ?_⟩
  have h0 : current.Compare suggested = 0 := by rw [heq]; exact SemVer.Compare_self _
  exact ⟨h0, fun hp => by have := hiff.mp hp; omega⟩

/-- C8 at the sample environment: the storage node at 1.2.0 with 1.3.0
suggested goes past the version check. -/
theorem version_gate_witness :
    pastVersionCheck (sampleWorld [])
      (update sampleDeps restartService "storagenode" "sn.exe" (sampleProcess [255])
        (sampleWorld [])).2 :=
  (version_gate sampleDeps restartService "storagenode" "sn.exe" (sampleProcess [255])
    (sampleWorld []) ⟨1, 2, 0⟩ ⟨1, 3, 0⟩ rfl rfl restartService_keepsLog).1.mpr (by decide)

/-! ## C9: a declined update -/

/-- C9. When the current version equals the suggested one or is newer, or when
version.ShouldUpdate(rollout, nodeID) is false, update returns nil; it has made
no OS call (no decision of the OS is used up, no file-system state is added),
the events it logged contain no download, rename or removal, and the file
system is as it was. -/
theorem declined_update_is_noop (d : Deps) (restart : Restart) (serviceName : String)
    (binaryLocation : Path) (ver : Process) (w : World) (current suggested : SemVer)
    (hs : d.semVer ver.suggested = .ok suggested)
    (hc : currentVersionOf d serviceName binaryLocation w = .ok current)
    (hdecl : current = suggested ∨ 0 < current.Compare suggested ∨
      d.shouldUpdate ver.rollout d.nodeID = false) :
    (update d restart serviceName binaryLocation ver w).1 = none ∧
    (update d restart serviceName binaryLocation ver w).2.fs = w.fs ∧
    (update d restart serviceName binaryLocation ver w).2.faults = w.faults ∧
    (update d restart serviceName binaryLocation ver w).2.hist = w.hist ∧
    ∃ evs, (update d restart serviceName binaryLocation ver w).2.log = w.log ++ evs ∧
      ∀ e ∈ evs, e.isFileOp = false := by
  by_cases hge : current.Compare suggested ≥ 0
  · rw [update_of_up_to_date d restart serviceName binaryLocation ver w current suggested
      hs hc hge]
    refine ⟨rfl, rfl, rfl, rfl, [.info (serviceName ++ " version is up to date")], rfl, ?_⟩
    intro e he
    rw [List.mem_singleton] at he
    rw [he]; rfl
  · have hlt : current.Compare suggested < 0 := not_le.mp hge
    have hr : d.shouldUpdate ver.rollout d.nodeID = false := by
      rcases hdecl with heq | hgt | hr
      · rw [heq, SemVer.Compare_self] at hlt
        exact absurd hlt (by decide)
      · omega
      · exact hr
    rw [update_of_not_rolled_out d restart serviceName binaryLocation ver w current suggested
      hs hc hlt hr]
    refine ⟨rfl, rfl, rfl, rfl, [.rolloutCheck, .info ("New " ++ serviceName
      ++ " version available but not rolled out to this nodeID yet")], ?_, ?_⟩
    · simp [World.note]
    · intro e he
      simp only [List.mem_cons, List.mem_singleton, List.not_mem_nil, or_false] at he
      rcases he with rfl | rfl <;> rfl

/-- C9 at the sample environment, where the storage node already runs the
suggested 1.2.0. -/
theorem declined_update_is_noop_witness :
    (update sampleDeps restartService "storagenode" "sn.exe" sampleProcessSame
      (sampleWorld [])).1 = none ∧
    (update sampleDeps restartService "storagenode" "sn.exe" sampleProcessSame
      (sampleWorld [])).2.fs = (sampleWorld []).fs ∧
    (update sampleDeps restartService "storagenode" "sn.exe" sampleProcessSame
      (sampleWorld [])).2.faults = (sampleWorld []).faults ∧
    (update sampleDeps restartService "storagenode" "sn.exe" sampleProcessSame
      (sampleWorld [])).2.hist = (sampleWorld []).hist ∧
    ∃ evs, (update sampleDeps restartService "storagenode" "sn.exe" sampleProcessSame
        (sampleWorld [])).2.log = (sampleWorld []).log ++ evs ∧
      ∀ e ∈ evs, e.isFileOp = false :=
  declined_update_is_noop sampleDeps restartService "storagenode" "sn.exe" sampleProcessSame
    (sampleWorld []) ⟨1, 2, 0⟩ ⟨1, 2, 0⟩ rfl rfl (Or.inl rfl)

/-! ## C10: the decision is a function of four inputs -/

/-- C10. Two calls of update that agree on the current version, the suggested
version, the rollout and the node identity (and use the same
version.ShouldUpdate) take the same decision, whatever else differs between
them: the service, the paths, the URL, the file system, the OS and the
restartService.  The decision to go on to the download is taken exactly when
the comparison is negative and version.ShouldUpdate holds. -/
theorem rollout_determinism (d1 d2 : Deps) (restart1 restart2 : Restart)
    (service1 service2 : String) (bin1 bin2 : Path) (ver1 ver2 : Process) (w1 w2 : World)
    (current suggested : SemVer)
    (hfun : d1.shouldUpdate = d2.shouldUpdate) (hid : d1.nodeID = d2.nodeID)
    (hroll : ver1.rollout = ver2.rollout)
    (hs1 : d1.semVer ver1.suggested = .ok suggested)
    (hs2 : d2.semVer ver2.suggested = .ok suggested)
    (hc1 : currentVersionOf d1 service1 bin1 w1 = .ok current)
    (hc2 : currentVersionOf d2 service2 bin2 w2 = .ok current)
    (hk1 : KeepsLog restart1) (hk2 : KeepsLog restart2) :
    (proceeded w1 (update d1 restart1 service1 bin1 ver1 w1).2
      ↔ proceeded w2 (update d2 restart2 service2 bin2 ver2 w2).2) ∧
    (proceeded w1 (update d1 restart1 service1 bin1 ver1 w1).2
      ↔ (current.Compare suggested < 0 ∧ d1.shouldUpdate ver1.rollout d1.nodeID = true)) := by
  have key : ∀ (d : Deps) (restart : Restart) (service : String) (bin : Path) (ver : Process)
      (w : World), d.semVer ver.suggested = .ok suggested →
      currentVersionOf d service bin w = .ok current → KeepsLog restart →
      (proceeded w (update d restart service bin ver w).2
        ↔ (current.Compare suggested < 0 ∧ d.shouldUpdate ver.rollout d.nodeID = true)) := by
    intro d restart service bin ver w hs hc hk
    unfold proceeded
    constructor
    · rintro ⟨url, target, hp⟩
      by_cases hge : current.Compare suggested ≥ 0
      · rw [update_of_up_to_date d restart service bin ver w current suggested hs hc hge] at hp
        simp [World.note, List.prefix_append_right_inj] at hp
      · have hlt : current.Compare suggested < 0 := not_le.mp hge
        refine ⟨hlt, ?_⟩
        rcases hr : d.shouldUpdate ver.rollout d.nodeID with _ | _
        · rw [update_of_not_rolled_out d restart service bin ver w current suggested
            hs hc hlt hr] at hp
          simp [World.note, List.prefix_append_right_inj] at hp
        · rfl
    · rintro ⟨hlt, hr⟩
      exact ⟨_, _, update_log_of_proceed d restart service bin ver w current suggested
        hs hc hlt hr hk⟩
  have h1 := key d1 restart1 service1 bin1 ver1 w1 hs1 hc1 hk1
  have h2 := key d2 restart2 service2 bin2 ver2 w2 hs2 hc2 hk2
  refine ⟨?_, h1⟩
  rw [h1, h2, hfun, hid, hroll]

/-- C10 at the sample environment: the storage node on an untouched file system
and on one where the OS refuses every call take the same decision. -/
theorem rollout_determinism_witness :
    (proceeded (sampleWorld [])
        (update sampleDeps restartService "storagenode" "sn.exe" (sampleProcess [255])
          (sampleWorld [])).2
      ↔ proceeded (sampleWorld [some 13, some 13])
        (update sampleDeps (fun _ _ _ _ w => (none, w)) "storagenode" "sn.exe"
          (sampleProcess [255]) (sampleWorld [some 13, some 13])).2) :=
  (rollout_determinism sampleDeps sampleDeps restartService (fun _ _ _ _ w => (none, w))
    "storagenode" "storagenode" "sn.exe" "sn.exe" (sampleProcess [255]) (sampleProcess [255])
    (sampleWorld []) (sampleWorld [some 13, some 13]) ⟨1, 2, 0⟩ ⟨1, 3, 0⟩
    rfl rfl rfl rfl rfl rfl rfl restartService_keepsLog
    (fun _ _ _ _ _ => List.prefix_refl _)).1

/-! ## Lemmas on the service manager, the context and the clock -/

@[simp] theorem mgr_Connect_fs (w : World) : (mgr_Connect w).2.fs = w.fs := rfl

@[simp] theorem mgr_OpenService_fs (n : String) (w : World) :
    (mgr_OpenService n w).2.fs = w.fs := rfl

@[simp] theorem srvc_Close_fs (w : World) : (srvc_Close w).2.fs = w.fs := rfl

@[simp] theorem mgr_Disconnect_fs (w : World) : (mgr_Disconnect w).2.fs = w.fs := rfl

@[simp] theorem srvc_Query_fs (w : World) : (srvc_Query w).2.fs = w.fs := rfl

@[simp] theorem srvc_Control_fs (c : Cmd) (w : World) : (srvc_Control c w).2.fs = w.fs := rfl

@[simp] theorem srvc_Start_fs (w : World) : (srvc_Start w).2.fs = w.fs := rfl

@[simp] theorem ctx_Err_fs (w : World) : (ctx_Err w).2.fs = w.fs := rfl

@[simp] theorem time_Now_fs (w : World) : (time_Now w).2.fs = w.fs := rfl

@[simp] theorem mgr_Connect_log (w : World) :
    (mgr_Connect w).2.log = w.log ++ [Event.connect w.nextMgr] := rfl

@[simp] theorem mgr_OpenService_log (n : String) (w : World) :
    (mgr_OpenService n w).2.log = w.log ++ [Event.openService n w.nextMgr] := rfl

@[simp] theorem srvc_Close_log (w : World) :
    (srvc_Close w).2.log = w.log ++ [Event.close w.nextMgr] := rfl

@[simp] theorem mgr_Disconnect_log (w : World) :
    (mgr_Disconnect w).2.log = w.log ++ [Event.disconnect w.nextMgr] := rfl

@[simp] theorem srvc_Query_log (w : World) :
    (srvc_Query w).2.log = w.log ++ [Event.query w.nextReply] := rfl

@[simp] theorem srvc_Control_log (c : Cmd) (w : World) :
    (srvc_Control c w).2.log = w.log ++ [Event.control c w.nextReply] := rfl

@[simp] theorem srvc_Start_log (w : World) :
    (srvc_Start w).2.log = w.log ++ [Event.start w.nextStart] := rfl

@[simp] theorem ctx_Err_log (w : World) :
    (ctx_Err w).2.log = w.log ++ [Event.ctxErr w.nextCancel] := rfl

@[simp] theorem time_Now_log (w : World) :
    (time_Now w).2.log = w.log ++ [Event.now w.clock.head?] := rfl

@[simp] theorem ctx_Err_clock (w : World) : (ctx_Err w).2.clock = w.clock := rfl

@[simp] theorem srvc_Query_clock (w : World) : (srvc_Query w).2.clock = w.clock := rfl

@[simp] theorem srvc_Control_clock (c : Cmd) (w : World) :
    (srvc_Control c w).2.clock = w.clock := rfl

@[simp] theorem time_Now_clock (w : World) : (time_Now w).2.clock = w.clock.tail := rfl

@[simp] theorem time_Now_reading (w : World) : (time_Now w).1 = w.clock.head? := rfl

/-- What a look at the context returns. -/
theorem ctx_Err_result (w : World) :
    (ctx_Err w).1 = if w.nextCancel then some Error.canceled else none := rfl

/-- A query that answers a status has logged that status. -/
theorem srvc_Query_ok (w : World) (s : SvcState) (h : (srvc_Query w).1 = .ok s) :
    w.nextReply = .ok s := by
  unfold srvc_Query at h
  cases hr : w.nextReply with
  | ok s2 => simp [hr, SvcReply.result] at h; rw [h]
  | fail e => simp [hr, SvcReply.result] at h

/-- A control that answers a status has logged that status. -/
theorem srvc_Control_ok (c : Cmd) (w : World) (s : SvcState)
    (h : (srvc_Control c w).1 = .ok s) : w.nextReply = .ok s := by
  unfold srvc_Control at h
  cases hr : w.nextReply with
  | ok s2 => simp [hr, SvcReply.result] at h; rw [h]
  | fail e => simp [hr, SvcReply.result] at h

/-- A query that fails has logged the failure. -/
theorem srvc_Query_error (w : World) (e : Error) (h : (srvc_Query w).1 = .error e) :
    ∃ errno, w.nextReply = .fail errno := by
  unfold srvc_Query at h
  cases hr : w.nextReply with
  | ok s2 => simp [hr, SvcReply.result] at h
  | fail errno => exact ⟨errno, rfl⟩

/-- The clock is past the deadline once its readings are used up. -/
theorem timeBefore_none (timeout : Option Nat) : timeBefore timeout none = true := by
  cases timeout <;> rfl

/-- The unfolding of one round of the polling loop. -/
theorem pollLoop_succ (state : SvcState) (timeout : Option Nat) (fuel : Nat)
    (status : SvcState) (w : World) :
    pollLoop state timeout (fuel + 1) status w =
      if status = state then (none, w)
      else if w.nextCancel = true then (some Error.canceled, (ctx_Err w).2)
      else if timeBefore timeout w.clock.head? = true then
        (some (.msg "timeout"), (time_Now (ctx_Err w).2).2)
      else
        match (srvc_Query (time_Now (ctx_Err w).2).2).1 with
        | .error err => (some err, (srvc_Query (time_Now (ctx_Err w).2).2).2)
        | .ok status2 =>
          pollLoop state timeout fuel status2 (srvc_Query (time_Now (ctx_Err w).2).2).2 := by
  rw [pollLoop]
  by_cases hs : status = state
  · simp [hs]
  · simp only [hs, if_false]
    by_cases hc : w.nextCancel = true
    · simp [ctx_Err, hc]
    · simp only [hc, if_false]
      have hc2 : (ctx_Err w) = (none, (ctx_Err w).2) := by
        simp [ctx_Err, hc]
      rw [hc2]
      simp only [time_Now_reading, ctx_Err_clock]
      by_cases hb : timeBefore timeout w.clock.head? = true
      · simp [hb]
      · simp only [hb, if_false]
        rcases hq : srvc_Query (time_Now (ctx_Err w).2).2 with ⟨_ | _, w2⟩ <;> simp [hb]

/-- The polling loop leaves the file system alone. -/
theorem pollLoop_fs (state : SvcState) (timeout : Option Nat) (fuel : Nat) :
    ∀ (status : SvcState) (w : World), (pollLoop state timeout fuel status w).2.fs = w.fs := by
  induction fuel with
  | zero => intro status w; rfl
  | succ n ih =>
    intro status w
    rw [pollLoop_succ]
    split
    · rfl
    · split
      · rfl
      · split
        · rfl
        · split
          · rfl
          · rw [ih]; rfl

/-- The queries of a polling loop that went on after a failed deadline test
found a reading of the clock: the clock has one reading less. -/
theorem clock_of_not_before (timeout : Option Nat) (w : World)
    (hb : ¬ timeBefore timeout w.clock.head? = true) :
    w.clock.tail.length + 1 = w.clock.length := by
  cases hcl : w.clock with
  | nil => rw [hcl] at hb; exact absurd (timeBefore_none timeout) hb
  | cons t rest => simp

/-- With more fuel than the clock has readings the polling loop does not
depend on the fuel. -/
theorem pollLoop_fuel (state : SvcState) (timeout : Option Nat) (fuel : Nat) :
    ∀ (status : SvcState) (w : World), w.clock.length < fuel →
      pollLoop state timeout fuel status w
        = pollLoop state timeout (w.clock.length + 1) status w := by
  induction fuel with
  | zero => intro status w h; exact absurd h (Nat.not_lt_zero _)
  | succ n ih =>
    intro status w h
    rw [pollLoop_succ, pollLoop_succ]
    by_cases hs : status = state
    · simp [hs]
    · by_cases hc : w.nextCancel = true
      · simp [hs, hc]
      · by_cases hb : timeBefore timeout w.clock.head? = true
        · simp [hs, hc, hb]
        · simp only [hs, hc, hb, if_false]
          have hlen := clock_of_not_before timeout w hb
          rcases hq : (srvc_Query (time_Now (ctx_Err w).2).2).1 with e | s2
          · rfl
          · simp only
            have hcl : (srvc_Query (time_Now (ctx_Err w).2).2).2.clock.length + 1
                = w.clock.length := by simpa using hlen
            rw [ih s2 _ (by omega), hcl]

/-- The events of the polling loop are looks at the context and at the clock
and queries; no status seen before the last one is the awaited one; and a nil
result means the last status seen is the awaited one. -/
theorem pollLoop_events (state : SvcState) (timeout : Option Nat) (fuel : Nat) :
    ∀ (status : SvcState) (w : World),
      ∃ polls, (pollLoop state timeout fuel status w).2.log = w.log ++ polls ∧
        (∀ e ∈ polls, e.isPoll = true) ∧
        (∀ s ∈ (status :: observed polls).dropLast, s ≠ state) ∧
        ((pollLoop state timeout fuel status w).1 = none →
          (status :: observed polls).getLast? = some state) := by
  induction fuel with
  | zero =>
    intro status w
    exact ⟨[], by simp [pollLoop], by simp, by simp [observed], by simp [pollLoop]⟩
  | succ n ih =>
    intro status w
    rw [pollLoop_succ]
    by_cases hs : status = state
    · exact ⟨[], by simp [hs], by simp, by simp [observed], by simp [hs, observed]⟩
    · by_cases hc : w.nextCancel = true
      · exact ⟨[.ctxErr w.nextCancel], by simp [hs, hc], by simp [Event.isPoll],
          by simp [observed], by simp [hs, hc]⟩
      · by_cases hb : timeBefore timeout w.clock.head? = true
        · exact ⟨[.ctxErr w.nextCancel, .now w.clock.head?], by simp [hs, hc, hb],
            by simp [Event.isPoll], by simp [observed], by simp [hs, hc, hb]⟩
        · simp only [hs, hc, hb, if_false]
          rcases hq : (srvc_Query (time_Now (ctx_Err w).2).2).1 with e | s2
          · obtain ⟨errno, he⟩ := srvc_Query_error _ e hq
            refine ⟨[.ctxErr w.nextCancel, .now w.clock.head?, .query (.fail errno)], ?_,
              by simp [Event.isPoll], by simp [observed], by simp⟩
            simp [he]
          · have hr := srvc_Query_ok _ s2 hq
            obtain ⟨polls, hlog, hpoll, hdrop, hlast⟩ :=
              ih s2 (srvc_Query (time_Now (ctx_Err w).2).2).2
            refine ⟨[.ctxErr w.nextCancel, .now w.clock.head?, .query (.ok s2)] ++ polls,
              ?_, ?_, ?_, ?_⟩
            · show (pollLoop state timeout n s2 _).2.log = _
              rw [hlog]
              simp [hr]
            · intro e he
              simp only [List.mem_append, List.mem_cons, List.mem_singleton,
                List.not_mem_nil, or_false] at he
              rcases he with (rfl | rfl | rfl) | he
              · rfl
              · rfl
              · rfl
              · exact hpoll e he
            · intro s hmem
              have hobs : observed ([Event.ctxErr w.nextCancel, Event.now w.clock.head?,
                  Event.query (SvcReply.ok s2)] ++ polls) = s2 :: observed polls := by
                simp [observed]
              rw [hobs, List.dropLast_cons₂] at hmem
              rcases List.mem_cons.mp hmem with rfl | hmem
              · exact hs
              · exact hdrop s hmem
            · intro hnil
              have hobs : observed ([Event.ctxErr w.nextCancel, Event.now w.clock.head?,
                  Event.query (SvcReply.ok s2)] ++ polls) = s2 :: observed polls := by
                simp [observed]
              rw [hobs, List.getLast?_cons_cons]
              exact hlast hnil

/-- The events of the polling loop, round by round: rounds in which the context
is live, the clock is not past the deadline and the service is queried, and then
nothing more (the awaited status was seen, or the query failed), or a look that
finds the context canceled, or a reading past the deadline.  The result says
which. -/
theorem pollLoop_shape (state : SvcState) (timeout : Option Nat) (fuel : Nat) :
    ∀ (status : SvcState) (w : World), w.clock.length < fuel →
      ∃ rounds tail,
        (pollLoop state timeout fuel status w).2.log = w.log ++ pollRounds rounds ++ tail ∧
        (∀ tr ∈ rounds, timeBefore timeout tr.1 = false) ∧
        ((tail = [] ∧ ((pollLoop state timeout fuel status w).1 = none ∨
            ∃ errno, (pollLoop state timeout fuel status w).1
              = some (Error.errno "Query" errno))) ∨
         (tail = [Event.ctxErr true] ∧
            (pollLoop state timeout fuel status w).1 = some Error.canceled) ∨
         (∃ t, tail = [Event.ctxErr false, Event.now t] ∧ timeBefore timeout t = true ∧
            (pollLoop state timeout fuel status w).1 = some (Error.msg "timeout"))) := by
  induction fuel with
  | zero => intro status w h; exact absurd h (Nat.not_lt_zero _)
  | succ n ih =>
    intro status w hfuel
    rw [pollLoop_succ]
    by_cases hs : status = state
    · exact ⟨[], [], by simp [hs, pollRounds], by simp, Or.inl ⟨rfl, Or.inl (by simp [hs])⟩⟩
    · by_cases hc : w.nextCancel = true
      · exact ⟨[], [.ctxErr true], by simp [hs, hc, pollRounds], by simp,
          Or.inr (Or.inl ⟨rfl, by simp [hs, hc]⟩)⟩
      · have hcf : w.nextCancel = false := by simpa using hc
        by_cases hb : timeBefore timeout w.clock.head? = true
        · exact ⟨[], [.ctxErr false, .now w.clock.head?],
            by simp [hs, hc, hb, hcf, pollRounds], by simp,
            Or.inr (Or.inr ⟨w.clock.head?, rfl, hb, by simp [hs, hc, hb]⟩)⟩
        · have hbf : timeBefore timeout w.clock.head? = false := by simpa using hb
          simp only [hs, hc, hb, if_false]
          have hlen := clock_of_not_before timeout w hb
          rcases hq : (srvc_Query (time_Now (ctx_Err w).2).2).1 with e | s2
          · obtain ⟨errno, he⟩ := srvc_Query_error _ e hq
            have herr : e = Error.errno "Query" errno := by
              have h2 : (srvc_Query (time_Now (ctx_Err w).2).2).1
                  = (SvcReply.fail errno).result "Query" := by
                unfold srvc_Query; rw [he]
              rw [hq] at h2
              simpa [SvcReply.result] using h2
            refine ⟨[(w.clock.head?, .fail errno)], [], ?_, ?_, Or.inl ⟨rfl, Or.inr ⟨errno, ?_⟩⟩⟩
            · simp [he, hcf, pollRounds]
            · simpa using hbf
            · simp [herr]
          · have hr := srvc_Query_ok _ s2 hq
            have hcl : (srvc_Query (time_Now (ctx_Err w).2).2).2.clock.length + 1
                = w.clock.length := by simpa using hlen
            obtain ⟨rounds, tail, hlog, hrounds, hres⟩ :=
              ih s2 (srvc_Query (time_Now (ctx_Err w).2).2).2 (by omega)
            refine ⟨(w.clock.head?, .ok s2) :: rounds, tail, ?_, ?_, hres⟩
            · show (pollLoop state timeout n s2 _).2.log = _
              rw [hlog]
              simp [hr, hcf, pollRounds]
            · intro tr htr
              rcases List.mem_cons.mp htr with rfl | htr
              · exact hbf
              · exact hrounds tr htr

/-- Function serviceControl in terms of the result of its `Control` call. -/
theorem serviceControl_eq (cmd : Cmd) (state : SvcState) (timeout : Option Nat) (w : World) :
    serviceControl cmd state timeout w =
      match (srvc_Control cmd w).1 with
      | .error err => (some err, (srvc_Control cmd w).2)
      | .ok status =>
        pollLoop state timeout ((srvc_Control cmd w).2.clock.length + 1) status
          (srvc_Control cmd w).2 := by
  unfold serviceControl
  rcases h : srvc_Control cmd w with ⟨_ | _, w1⟩ <;> rfl

/-- Function serviceWaitForState in terms of the result of its first `Query`. -/
theorem serviceWaitForState_eq (state : SvcState) (timeout : Option Nat) (w : World) :
    serviceWaitForState state timeout w =
      match (srvc_Query w).1 with
      | .error err => (some err, (srvc_Query w).2)
      | .ok status =>
        pollLoop state timeout ((srvc_Query w).2.clock.length + 1) status (srvc_Query w).2 := by
  unfold serviceWaitForState
  rcases h : srvc_Query w with ⟨_ | _, w1⟩ <;> rfl

/-- The stop phase in terms of the result of its `Query`. -/
theorem stopService_eq (w : World) :
    stopService w =
      match (srvc_Query w).1 with
      | .error err => (some err, (srvc_Query w).2)
      | .ok status =>
        if status ≠ .Stopped ∧ status ≠ .StopPending then
          serviceControl .Stop .Stopped (timeAdd (time_Now (srvc_Query w).2).1 (second * 10))
            (time_Now (srvc_Query w).2).2
        else if status = .StopPending then
          serviceWaitForState .Stopped (timeAdd (time_Now (srvc_Query w).2).1 (second * 10))
            (time_Now (srvc_Query w).2).2
        else (none, (srvc_Query w).2) := by
  unfold stopService
  rcases h : srvc_Query w with ⟨_ | _, w1⟩ <;> rfl

theorem serviceControl_fs (cmd : Cmd) (state : SvcState) (timeout : Option Nat) (w : World) :
    (serviceControl cmd state timeout w).2.fs = w.fs := by
  rw [serviceControl_eq]
  split
  · rfl
  · rw [pollLoop_fs]; rfl

theorem serviceWaitForState_fs (state : SvcState) (timeout : Option Nat) (w : World) :
    (serviceWaitForState state timeout w).2.fs = w.fs := by
  rw [serviceWaitForState_eq]
  split
  · rfl
  · rw [pollLoop_fs]; rfl

/-- The stop phase leaves the file system alone. -/
theorem stopService_fs (w : World) : (stopService w).2.fs = w.fs := by
  rw [stopService_eq]
  split
  · rfl
  · split
    · rw [serviceControl_fs]; rfl
    · split
      · rw [serviceWaitForState_fs]; rfl
      · rfl

/-- The events of the polling loop are events of the stop phase. -/
theorem isStopPhase_of_isPoll (e : Event) (h : e.isPoll = true) : e.isStopPhase = true := by
  cases e <;> simp_all [Event.isPoll, Event.isStopPhase]

/-- The stop phase only queries, controls and looks at the context and the
clock. -/
theorem stopService_events (w : World) :
    ∃ evs, (stopService w).2.log = w.log ++ evs ∧ ∀ e ∈ evs, e.isStopPhase = true := by
  rw [stopService_eq]
  split
  · exact ⟨[.query w.nextReply], rfl, by simp [Event.isStopPhase, Event.isPoll]⟩
  · next status hq =>
    split
    · rw [serviceControl_eq]
      split
      · exact ⟨[.query w.nextReply, .now (srvc_Query w).2.clock.head?,
          .control .Stop (time_Now (srvc_Query w).2).2.nextReply], by simp,
          by simp [Event.isStopPhase, Event.isPoll]⟩
      · next s1 hc =>
        obtain ⟨polls, hlog, hpoll, _, _⟩ := pollLoop_events .Stopped
          (timeAdd (time_Now (srvc_Query w).2).1 (second * 10))
          ((srvc_Control .Stop (time_Now (srvc_Query w).2).2).2.clock.length + 1) s1
          (srvc_Control .Stop (time_Now (srvc_Query w).2).2).2
        refine ⟨[.query w.nextReply, .now (srvc_Query w).2.clock.head?,
          .control .Stop (time_Now (srvc_Query w).2).2.nextReply] ++ polls, ?_, ?_⟩
        · rw [hlog]; simp
        · intro e he
          simp only [List.mem_append, List.mem_cons, List.mem_singleton,
            List.not_mem_nil, or_false] at he
          rcases he with (rfl | rfl | rfl) | he
          · rfl
          · rfl
          · rfl
          · exact isStopPhase_of_isPoll e (hpoll e he)
    · split
      · rw [serviceWaitForState_eq]
        split
        · exact ⟨[.query w.nextReply, .now (srvc_Query w).2.clock.head?,
            .query (time_Now (srvc_Query w).2).2.nextReply], by simp,
            by simp [Event.isStopPhase, Event.isPoll]⟩
        · next s1 hc =>
          obtain ⟨polls, hlog, hpoll, _, _⟩ := pollLoop_events .Stopped
            (timeAdd (time_Now (srvc_Query w).2).1 (second * 10))
            ((srvc_Query (time_Now (srvc_Query w).2).2).2.clock.length + 1) s1
            (srvc_Query (time_Now (srvc_Query w).2).2).2
          refine ⟨[.query w.nextReply, .now (srvc_Query w).2.clock.head?,
            .query (time_Now (srvc_Query w).2).2.nextReply] ++ polls, ?_, ?_⟩
          · rw [hlog]; simp
          · intro e he
            simp only [List.mem_append, List.mem_cons, List.mem_singleton,
              List.not_mem_nil, or_false] at he
            rcases he with (rfl | rfl | rfl) | he
            · rfl
            · rfl
            · rfl
            · exact isStopPhase_of_isPoll e (hpoll e he)
      · exact ⟨[.query w.nextReply], rfl, by simp [Event.isStopPhase, Event.isPoll]⟩

/-- One attempt of the start loop: the look at the context, then `Start`. -/
theorem startAttempt_eq (w : World) :
    startAttempt w =
      if w.nextCancel = true then ((true, some Error.canceled), (ctx_Err w).2)
      else ((false, (srvc_Start (ctx_Err w).2).1), (srvc_Start (ctx_Err w).2).2) := by
  unfold startAttempt
  by_cases hc : w.nextCancel = true <;> simp [ctx_Err, hc]

/-- One round of the start loop. -/
theorem retryFrom_succ (count : Nat) (prev : Option Error) (w : World) :
    retryFrom startAttempt (count + 1) prev w =
      if w.nextCancel = true then (some Error.canceled, (ctx_Err w).2)
      else
        match (ctx_Err w).2.nextStart with
        | none => (none, (srvc_Start (ctx_Err w).2).2)
        | some errno =>
          retryFrom startAttempt count (some (Error.errno "Start" errno))
            (srvc_Start (ctx_Err w).2).2 := by
  rw [retryFrom, startAttempt_eq]
  by_cases hc : w.nextCancel = true
  · simp [hc]
  · simp only [hc, if_false]
    rcases hst : (ctx_Err w).2.nextStart with _ | errno <;> simp [srvc_Start, hst]

/-- The start loop leaves the file system alone. -/
theorem retryFrom_fs (count : Nat) :
    ∀ (prev : Option Error) (w : World), (retryFrom startAttempt count prev w).2.fs = w.fs := by
  induction count with
  | zero => intro prev w; rfl
  | succ n ih =>
    intro prev w
    rw [retryFrom_succ]
    split
    · rfl
    · split
      · rfl
      · rw [ih]; rfl

/-- The events of the start loop, attempt by attempt: attempts in which the
context is live and `Start` is called, all but the last of them failing, and
then nothing more, or a look that finds the context canceled, with which the
loop ends on the error of the context. -/
theorem retryFrom_shape (count : Nat) :
    ∀ (prev : Option Error) (w : World),
      ∃ rs tail,
        (retryFrom startAttempt count prev w).2.log = w.log ++ startRounds rs ++ tail ∧
        rs.length ≤ count ∧ (∀ r ∈ rs.dropLast, r ≠ none) ∧
        (tail = [] ∨
          (tail = [Event.ctxErr true] ∧ rs.length < count ∧ (∀ r ∈ rs, r ≠ none) ∧
            (retryFrom startAttempt count prev w).1 = some Error.canceled)) := by
  induction count with
  | zero =>
    intro prev w
    exact ⟨[], [], by simp [retryFrom, startRounds], by simp, by simp, Or.inl rfl⟩
  | succ n ih =>
    intro prev w
    rw [retryFrom_succ]
    by_cases hc : w.nextCancel = true
    · exact ⟨[], [.ctxErr true], by simp [hc, startRounds], by simp, by simp,
        Or.inr ⟨rfl, by simp, by simp, by simp [hc]⟩⟩
    · have hcf : w.nextCancel = false := by simpa using hc
      rw [if_neg hc]
      rcases hst : (ctx_Err w).2.nextStart with _ | errno
      · exact ⟨[none], [], by simp [hcf, hst, startRounds], by simp, by simp, Or.inl rfl⟩
      · simp only
        obtain ⟨rs, tail, hlog, hlen, hfail, htail⟩ :=
          ih (some (Error.errno "Start" errno)) (srvc_Start (ctx_Err w).2).2
        refine ⟨some errno :: rs, tail, ?_, by simpa using hlen, ?_, ?_⟩
        · rw [hlog]; simp [hcf, hst, startRounds]
        · intro r hr
          cases rs with
          | nil => simp at hr
          | cons r2 rest =>
            rw [List.dropLast_cons₂] at hr
            rcases List.mem_cons.mp hr with rfl | hr
            · simp
            · exact hfail r hr
        · rcases htail with h | ⟨h1, h2, h3, h4⟩
          · exact Or.inl h
          · refine Or.inr ⟨h1, by simpa using h2, ?_, h4⟩
            intro r hr
            rcases List.mem_cons.mp hr with rfl | hr
            · simp
            · exact h3 r hr

/-- The renames leave the scripts of the service manager, of the context and of
the clock alone. -/
theorem os_Rename_frame (a b : Path) (w : World) :
    (os_Rename a b w).2.starts = w.starts ∧ (os_Rename a b w).2.cancel = w.cancel ∧
    (os_Rename a b w).2.mgr = w.mgr ∧ (os_Rename a b w).2.svc = w.svc ∧
    (os_Rename a b w).2.clock = w.clock := by
  unfold os_Rename
  split <;> exact ⟨rfl, rfl, rfl, rfl, rfl⟩

/-- The substitution leaves the scripts of `Start` and of the context alone. -/
theorem substituteWithRecovery_frame (t b n : Path) (w : World) :
    (substituteWithRecovery t b n w).2.starts = w.starts ∧
    (substituteWithRecovery t b n w).2.cancel = w.cancel := by
  rw [substituteWithRecovery_eq]
  rcases h1 : (os_Rename t b w).1 with _ | e1
  · rcases h2 : (os_Rename n t (os_Rename t b w).2).1 with _ | e2
    · simp only
      exact ⟨by rw [(os_Rename_frame _ _ _).1, (os_Rename_frame _ _ _).1],
        by rw [(os_Rename_frame _ _ _).2.1, (os_Rename_frame _ _ _).2.1]⟩
    · rcases h3 : (os_Rename b t (os_Rename n t (os_Rename t b w).2).2).1 with _ | e3 <;>
        simp only <;>
        exact ⟨by rw [(os_Rename_frame _ _ _).1, (os_Rename_frame _ _ _).1,
            (os_Rename_frame _ _ _).1],
          by rw [(os_Rename_frame _ _ _).2.1, (os_Rename_frame _ _ _).2.1,
            (os_Rename_frame _ _ _).2.1]⟩
  · simp only
    exact ⟨(os_Rename_frame _ _ _).1, (os_Rename_frame _ _ _).2.1⟩

/-- The substitution and start phase in terms of the results of its calls. -/
theorem swapAndStart_eq (t n b : Path) (w : World) :
    swapAndStart t n b w =
      match (substituteWithRecovery t b n w).1 with
      | (recovered, some err) =>
        if recovered = true then
          (errsCombine [errsWrap (some err), (srvc_Start (substituteWithRecovery t b n w).2).1,
              (os_Remove n (srvc_Start (substituteWithRecovery t b n w).2).2).1],
            (os_Remove n (srvc_Start (substituteWithRecovery t b n w).2).2).2)
        else failAndRemove err n (substituteWithRecovery t b n w).2
      | (_, none) =>
        match (retry 2 startAttempt (substituteWithRecovery t b n w).2).1 with
        | some err =>
          match (os_Rename b t (retry 2 startAttempt (substituteWithRecovery t b n w).2).2).1 with
          | some rerr =>
            (errsCombine [some err, some rerr],
              (os_Rename b t (retry 2 startAttempt (substituteWithRecovery t b n w).2).2).2)
          | none =>
            (errsCombine [some err,
                (srvc_Start
                  (os_Rename b t (retry 2 startAttempt (substituteWithRecovery t b n w).2).2).2).1],
              (srvc_Start
                (os_Rename b t (retry 2 startAttempt (substituteWithRecovery t b n w).2).2).2).2)
        | none => (none, (retry 2 startAttempt (substituteWithRecovery t b n w).2).2) := by
  unfold swapAndStart
  rcases hs : substituteWithRecovery t b n w with ⟨⟨recovered, _ | err⟩, w1⟩
  · simp only
    rcases hr : retry 2 startAttempt w1 with ⟨_ | err, w2⟩
    · rfl
    · simp only
      rcases h3 : os_Rename b t w2 with ⟨_ | rerr, w3⟩ <;> rfl
  · rfl

/-- Function restartService of restart_windows.go once the manager is
connected and the service open, in terms of the result of the stop phase. -/
theorem Windows.restartService_of_open (service : String) (t n b : Path) (w : World)
    (hconn : (mgr_Connect w).1 = none)
    (hopen : (mgr_OpenService service (mgr_Connect w).2).1 = none) :
    Windows.restartService service t n b w =
      match (stopService (atStop service w)).1 with
      | some err =>
        ((failAndRemove err n (atSwap service w)).1,
          (mgr_Disconnect (srvc_Close (failAndRemove err n (atSwap service w)).2).2).2)
      | none =>
        ((swapAndStart t n b (atSwap service w)).1,
          (mgr_Disconnect (srvc_Close (swapAndStart t n b (atSwap service w)).2).2).2) := by
  unfold Windows.restartService atSwap atStop
  rcases h1 : mgr_Connect w with ⟨_ | e1, w1⟩
  · rw [h1] at hopen
    simp only at hopen ⊢
    rcases h2 : mgr_OpenService service w1 with ⟨_ | e2, w2⟩
    · simp only
      rcases h3 : stopService w2 with ⟨_ | e3, w3⟩ <;> rfl
    · rw [h2] at hopen
      exact absurd hopen (by simp)
  · rw [h1] at hconn
    exact absurd hconn (by simp)

/-- The world at the start of the stop phase has the file system of the start. -/
theorem atStop_fs (service : String) (w : World) : (atStop service w).fs = w.fs := rfl

/-- The world at the start of the substitution has the file system of the start. -/
theorem atSwap_fs (service : String) (w : World) : (atSwap service w).fs = w.fs := by
  unfold atSwap
  rw [stopService_fs]; rfl

/-! ## C11: a downloaded binary of the wrong version -/

/-- The comparison gives 0 exactly for equal versions. -/
theorem SemVer.Compare_eq_zero_iff (a b : SemVer) : a.Compare b = 0 ↔ a = b := by
  constructor
  · intro h
    obtain ⟨a1, a2, a3⟩ := a
    obtain ⟨b1, b2, b3⟩ := b
    simp only [SemVer.Compare] at h
    simp only [SemVer.mk.injEq]
    split_ifs at h <;> omega
  · rintro rfl
    exact SemVer.Compare_self _

/-- A combination whose first error is not nil is not nil. -/
theorem errsCombine_ne_none (e : Error) (rest : List (Option Error)) :
    errsCombine (some e :: rest) ≠ none := by
  unfold errsCombine
  simp only [List.filterMap_cons, id]
  split <;> simp_all

/-- A download writes to its target only. -/
theorem downloadBinary_other (d : Deps) (url : String) (t p : Path) (w : World) (hp : p ≠ t) :
    (downloadBinary d url t w).2.fs p = w.fs p := by
  unfold downloadBinary
  split <;> simp [World.record, hp]

/-- A removal leaves the other paths alone. -/
theorem os_Remove_other (a p : Path) (w : World) (hp : p ≠ a) :
    (os_Remove a w).2.fs p = w.fs p := by
  unfold os_Remove
  split <;> simp [World.record, hp]

/-- A removal that the OS lets through leaves no file at the path. -/
theorem os_Remove_gone (a : Path) (w : World) (h : w.nextFault = none) :
    (os_Remove a w).2.fs a = none := by
  unfold os_Remove
  split <;> simp_all [World.record]

/-- The result of update when the downloaded binary reports another version
than the suggested one. -/
theorem update_of_mismatch (d : Deps) (restart : Restart) (serviceName : String)
    (binaryLocation : Path) (ver : Process) (w : World) (current suggested downloaded : SemVer)
    (hs : d.semVer ver.suggested = .ok suggested)
    (hc : currentVersionOf d serviceName binaryLocation w = .ok current)
    (hlt : current.Compare suggested < 0)
    (hr : d.shouldUpdate ver.rollout d.nodeID = true)
    (hdl : (afterDownload d binaryLocation ver (w.note .rolloutCheck)).1 = none)
    (hbv : d.binaryVersion (afterDownload d binaryLocation ver (w.note .rolloutCheck)).2.fs
      (stagedPath d binaryLocation ver) = .ok downloaded)
    (hne : downloaded ≠ suggested) :
    update d restart serviceName binaryLocation ver w =
      (errsCombine [some (Error.msg ("invalid version downloaded: wants "
            ++ suggested.String ++ " got " ++ downloaded.String)),
          (os_Remove (stagedPath d binaryLocation ver)
            (afterDownload d binaryLocation ver (w.note .rolloutCheck)).2).1],
        (os_Remove (stagedPath d binaryLocation ver)
          (afterDownload d binaryLocation ver (w.note .rolloutCheck)).2).2) := by
  have hcmp : suggested.Compare downloaded ≠ 0 := fun h =>
    hne ((SemVer.Compare_eq_zero_iff _ _).mp h).symm
  unfold afterDownload stagedPath at hdl hbv ⊢
  unfold update
  simp only [hs, hc, not_le.mpr hlt, hr, Bool.not_true, Bool.false_eq_true, if_false]
  rcases hd : downloadBinary d (d.parseDownloadURL ver.suggested.url)
      (d.prependExtension binaryLocation ver.suggested.version) (w.note .rolloutCheck)
    with ⟨_ | derr, w2⟩
  · rw [hd] at hbv
    simp only at hbv ⊢
    rw [hbv]
    simp only [hcmp, ne_eq, not_false_eq_true, if_true]
  · rw [hd] at hdl
    exact absurd hdl (by simp)

/-- The result of updateSelf when the downloaded binary reports another
version than the suggested one. -/
theorem updateSelf_of_mismatch (d : SelfDeps) (binaryLocation : Path) (ver : Process)
    (w : World) (suggested downloaded : SemVer) (reason : String)
    (hs : d.semVer ver.suggested = .ok suggested)
    (hgo : d.shouldUpdateVersion d.buildVersion d.nodeID ver = .ok (true, reason))
    (hdl : (afterDownload d.toDeps binaryLocation ver w).1 = none)
    (hbv : d.binaryVersion (afterDownload d.toDeps binaryLocation ver w).2.fs
      (stagedPath d.toDeps binaryLocation ver) = .ok downloaded)
    (hne : downloaded ≠ suggested) :
    updateSelf d binaryLocation ver w =
      (errsCombine [some (Error.msg ("invalid version downloaded: wants "
            ++ suggested.String ++ " got " ++ downloaded.String)),
          (os_Remove (stagedPath d.toDeps binaryLocation ver)
            (afterDownload d.toDeps binaryLocation ver w).2).1],
        (os_Remove (stagedPath d.toDeps binaryLocation ver)
          (afterDownload d.toDeps binaryLocation ver w).2).2) := by
  have hcmp : suggested.Compare downloaded ≠ 0 := fun h =>
    hne ((SemVer.Compare_eq_zero_iff _ _).mp h).symm
  unfold afterDownload stagedPath at hdl hbv ⊢
  unfold updateSelf
  simp only [hs, hgo, Bool.not_true, Bool.false_eq_true, if_false]
  rcases hd : downloadBinary d.toDeps (d.parseDownloadURL ver.suggested.url)
      (d.prependExtension binaryLocation ver.suggested.version) w with ⟨_ | derr, w2⟩
  · rw [hd] at hbv
    simp only at hbv ⊢
    rw [hbv]
    simp only [hcmp, ne_eq, not_false_eq_true, if_true]
  · rw [hd] at hdl
    exact absurd hdl (by simp)

/-- C11. When the binary that update, or updateSelf, has downloaded reports a
version other than the suggested one, the function returns an error; after the
download its only call is the removal of the staged file (no rename, no
restartService: the result is the same whatever restartService is linked in;
no process is spawned by updateSelf); the live binary is as it was, the staged
path being another path; and the staged file is gone unless the OS refuses the
removal. -/
theorem version_mismatch_is_rejected (d : Deps) (ds : SelfDeps) (restart : Restart)
    (serviceName : String) (binaryLocation : Path) (ver : Process) (w : World)
    (current suggested downloaded : SemVer) (reason : String) :
    (d.semVer ver.suggested = .ok suggested →
      currentVersionOf d serviceName binaryLocation w = .ok current →
      current.Compare suggested < 0 →
      d.shouldUpdate ver.rollout d.nodeID = true →
      (afterDownload d binaryLocation ver (w.note .rolloutCheck)).1 = none →
      d.binaryVersion (afterDownload d binaryLocation ver (w.note .rolloutCheck)).2.fs
        (stagedPath d binaryLocation ver) = .ok downloaded →
      downloaded ≠ suggested →
      stagedPath d binaryLocation ver ≠ binaryLocation →
        (update d restart serviceName binaryLocation ver w).1 ≠ none ∧
        (update d restart serviceName binaryLocation ver w).2.log
          = w.log ++ [Event.rolloutCheck,
              Event.download (d.parseDownloadURL ver.suggested.url)
                (stagedPath d binaryLocation ver),
              Event.remove (stagedPath d binaryLocation ver)] ∧
        (∀ other : Restart, update d other serviceName binaryLocation ver w
          = update d restart serviceName binaryLocation ver w) ∧
        (update d restart serviceName binaryLocation ver w).2.fs binaryLocation
          = w.fs binaryLocation ∧
        ((afterDownload d binaryLocation ver (w.note .rolloutCheck)).2.nextFault = none →
          (update d restart serviceName binaryLocation ver w).2.fs
            (stagedPath d binaryLocation ver) = none)) ∧
    (ds.semVer ver.suggested = .ok suggested →
      ds.shouldUpdateVersion ds.buildVersion ds.nodeID ver = .ok (true, reason) →
      (afterDownload ds.toDeps binaryLocation ver w).1 = none →
      ds.binaryVersion (afterDownload ds.toDeps binaryLocation ver w).2.fs
        (stagedPath ds.toDeps binaryLocation ver) = .ok downloaded →
      downloaded ≠ suggested →
      stagedPath ds.toDeps binaryLocation ver ≠ binaryLocation →
        (updateSelf ds binaryLocation ver w).1 ≠ none ∧
        (updateSelf ds binaryLocation ver w).2.log
          = w.log ++ [Event.download (ds.parseDownloadURL ver.suggested.url)
                (stagedPath ds.toDeps binaryLocation ver),
              Event.remove (stagedPath ds.toDeps binaryLocation ver)] ∧
        (updateSelf ds binaryLocation ver w).2.fs binaryLocation = w.fs binaryLocation ∧
        ((afterDownload ds.toDeps binaryLocation ver w).2.nextFault = none →
          (updateSelf ds binaryLocation ver w).2.fs
            (stagedPath ds.toDeps binaryLocation ver) = none)) := by
  constructor
  · intro hs hc hlt hr hdl hbv hne hpath
    have hu := fun r : Restart => update_of_mismatch d r serviceName binaryLocation ver w
      current suggested downloaded hs hc hlt hr hdl hbv hne
    refine ⟨?_, ?_, fun other => by rw [hu other, hu restart], ?_, ?_⟩
    · rw [hu restart]; exact errsCombine_ne_none _ _
    · rw [hu restart]
      simp [os_Remove_log, afterDownload, downloadBinary_log, World.note]
    · rw [hu restart]
      show (os_Remove _ _).2.fs binaryLocation = _
      rw [os_Remove_other _ _ _ (Ne.symm hpath)]
      unfold afterDownload
      rw [downloadBinary_other _ _ _ _ _ (Ne.symm hpath)]
      rfl
    · intro hf
      rw [hu restart]
      exact os_Remove_gone _ _ hf
  · intro hs hgo hdl hbv hne hpath
    have hu := updateSelf_of_mismatch ds binaryLocation ver w suggested downloaded reason
      hs hgo hdl hbv hne
    refine ⟨?_, ?_, ?_, ?_⟩
    · rw [hu]; exact errsCombine_ne_none _ _
    · rw [hu]
      simp [os_Remove_log, afterDownload, downloadBinary_log]
    · rw [hu]
      show (os_Remove _ _).2.fs binaryLocation = _
      rw [os_Remove_other _ _ _ (Ne.symm hpath)]
      unfold afterDownload
      rw [downloadBinary_other _ _ _ _ _ (Ne.symm hpath)]
    · intro hf
      rw [hu]
      exact os_Remove_gone _ _ hf

/-- C11 at the sample environment whose server serves a binary that reports
1.2.9 where 1.3.0 is suggested: for update on the storage node and for
updateSelf on the updater. -/
theorem version_mismatch_is_rejected_witness :
    ((update sampleBadDeps restartService "storagenode" "sn.exe" (sampleProcess [255])
        (sampleWorld [])).1 ≠ none ∧
      (update sampleBadDeps restartService "storagenode" "sn.exe" (sampleProcess [255])
        (sampleWorld [])).2.fs "sn.exe" = (sampleWorld []).fs "sn.exe" ∧
      (update sampleBadDeps restartService "storagenode" "sn.exe" (sampleProcess [255])
        (sampleWorld [])).2.fs "sn.v1.3.0.exe" = none) ∧
    ((updateSelf sampleSelfDeps "up.exe" (sampleProcess [255]) (sampleWorld [])).1 ≠ none ∧
      (updateSelf sampleSelfDeps "up.exe" (sampleProcess [255]) (sampleWorld [])).2.fs "up.exe"
        = (sampleWorld []).fs "up.exe" ∧
      (updateSelf sampleSelfDeps "up.exe" (sampleProcess [255]) (sampleWorld [])).2.fs
        "up.exe.v1.3.0" = none) :=
  have h := version_mismatch_is_rejected sampleBadDeps sampleSelfDeps restartService
    "storagenode" "sn.exe" (sampleProcess [255]) (sampleWorld []) ⟨1, 2, 0⟩ ⟨1, 3, 0⟩ ⟨1, 2, 9⟩
    "up to date"
  have h1 := h.1 rfl rfl (by decide) rfl rfl rfl (by decide) (by decide)
  have h2 := (version_mismatch_is_rejected sampleBadDeps sampleSelfDeps restartService
    "storagenode" "up.exe" (sampleProcess [255]) (sampleWorld []) ⟨1, 2, 0⟩ ⟨1, 3, 0⟩ ⟨1, 2, 9⟩
    "up to date").2 rfl rfl rfl rfl (by decide) (by decide)
  ⟨⟨h1.1, h1.2.2.2.1, h1.2.2.2.2 rfl⟩, ⟨h2.1, h2.2.2.1, h2.2.2.2 rfl⟩⟩

/-! ## C12: the successful cycle of the Windows restartService -/

/-- The substitution when both renames succeed, between three different
files: the result, and what the live and the backup path hold afterwards. -/
theorem substituteWithRecovery_of_ok (live backup staged : Path) (w : World)
    (hLB : live ≠ backup) (hSB : staged ≠ backup)
    (h1 : (os_Rename live backup w).1 = none)
    (h2 : (os_Rename staged live (os_Rename live backup w).2).1 = none) :
    substituteWithRecovery live backup staged w
      = ((false, none), (os_Rename staged live (os_Rename live backup w).2).2) ∧
    (os_Rename staged live (os_Rename live backup w).2).2.fs live = w.fs staged ∧
    (os_Rename staged live (os_Rename live backup w).2).2.fs backup = w.fs live := by
  have hSL : staged ≠ live := by
    intro h
    obtain ⟨c, hc, _⟩ := os_Rename_fs_of_ok _ _ _ h2
    rw [h, os_Rename_old_of_ok _ _ _ hLB h1] at hc
    exact Option.noConfusion hc
  refine ⟨by rw [substituteWithRecovery_eq]; simp only [h1, h2], ?_, ?_⟩
  · rw [os_Rename_new_of_ok _ _ _ h2, os_Rename_other_of_ok _ _ _ _ hSL hSB h1]
  · rw [os_Rename_other_of_ok _ _ _ _ (Ne.symm hSB) (Ne.symm hLB) h2,
      os_Rename_new_of_ok _ _ _ h1]

/-- Function retry leaves the file system alone when it runs the start
attempts. -/
theorem retry_fs (count : Nat) (w : World) : (retry count startAttempt w).2.fs = w.fs :=
  retryFrom_fs count none w

/-- The events since a world, when the log has grown by them. -/
theorem eventsSince_of_log (w out : World) (evs : List Event) (h : out.log = w.log ++ evs) :
    eventsSince w out = evs := by
  unfold eventsSince
  rw [h]
  exact List.drop_left _ _

/-- A start loop that ends without error has ended on a `Start` that
succeeded (or had no round to run and no error to begin with). -/
theorem retryFrom_none (count : Nat) :
    ∀ (prev : Option Error) (w : World), (retryFrom startAttempt count prev w).1 = none →
      (count = 0 ∧ prev = none) ∨
      ∃ pre, (retryFrom startAttempt count prev w).2.log = w.log ++ pre ++ [Event.start none] := by
  induction count with
  | zero =>
    intro prev w h
    exact Or.inl ⟨rfl, h⟩
  | succ n ih =>
    intro prev w h
    right
    rw [retryFrom_succ] at h ⊢
    by_cases hc : w.nextCancel = true
    · rw [if_pos hc] at h
      exact absurd h (by simp)
    · rw [if_neg hc] at h ⊢
      rcases hst : (ctx_Err w).2.nextStart with _ | errno
      · exact ⟨[.ctxErr w.nextCancel], by simp [hst]⟩
      · rw [hst] at h
        simp only at h ⊢
        rcases ih _ _ h with ⟨_, hprev⟩ | ⟨pre, hpre⟩
        · exact absurd hprev (by simp)
        · exact ⟨[.ctxErr w.nextCancel, .start (some errno)] ++ pre, by rw [hpre]; simp [hst]⟩

/-- C12. In the restartService of restart_windows.go, between three different
files: when the manager connects, the service opens, the stop phase succeeds,
both renames of the substitution succeed and the start loop ends without error
(a Start succeeded within the attempts), restartService returns nil, the live
path holds what was staged and the backup path holds the previous live binary. -/
theorem successful_cycle (service : String) (live staged backup : Path) (w : World)
    (hLB : live ≠ backup) (hSB : staged ≠ backup)
    (hconn : (mgr_Connect w).1 = none)
    (hopen : (mgr_OpenService service (mgr_Connect w).2).1 = none)
    (hstop : (stopService (atStop service w)).1 = none)
    (h1 : (os_Rename live backup (atSwap service w)).1 = none)
    (h2 : (os_Rename staged live (os_Rename live backup (atSwap service w)).2).1 = none)
    (hstart : (retry 2 startAttempt
      (os_Rename staged live (os_Rename live backup (atSwap service w)).2).2).1 = none) :
    (Windows.restartService service live staged backup w).1 = none ∧
    (Windows.restartService service live staged backup w).2.fs live = w.fs staged ∧
    (Windows.restartService service live staged backup w).2.fs backup = w.fs live ∧
    (∃ c, w.fs live = some c) ∧
    Event.start none ∈ eventsSince (atSwap service w)
      (Windows.restartService service live staged backup w).2 := by
  obtain ⟨hsub, hl, hb⟩ := substituteWithRecovery_of_ok live backup staged (atSwap service w)
    hLB hSB h1 h2
  have hsw : swapAndStart live staged backup (atSwap service w)
      = (none, (retry 2 startAttempt
          (os_Rename staged live (os_Rename live backup (atSwap service w)).2).2).2) := by
    rw [swapAndStart_eq, hsub]
    simp only [hstart]
  have hres : Windows.restartService service live staged backup w
      = (none, (mgr_Disconnect (srvc_Close (retry 2 startAttempt
          (os_Rename staged live (os_Rename live backup (atSwap service w)).2).2).2).2).2) := by
    rw [Windows.restartService_of_open service live staged backup w hconn hopen]
    simp only [hstop, hsw]
  rw [hres]
  refine ⟨rfl, ?_, ?_, ?_, ?_⟩
  · simp only [mgr_Disconnect_fs, srvc_Close_fs, retry_fs]
    rw [hl, atSwap_fs]
  · simp only [mgr_Disconnect_fs, srvc_Close_fs, retry_fs]
    rw [hb, atSwap_fs]
  · obtain ⟨c, hc, _⟩ := os_Rename_fs_of_ok _ _ _ h1
    rw [atSwap_fs] at hc
    exact ⟨c, hc⟩
  · rcases retryFrom_none 2 none _ hstart with ⟨h0, _⟩ | ⟨pre, hpre⟩
    · exact absurd h0 (by decide)
    · have hlog : (mgr_Disconnect (srvc_Close (retry 2 startAttempt
          (os_Rename staged live (os_Rename live backup (atSwap service w)).2).2).2).2).2.log
          = (atSwap service w).log ++ ([Event.rename live backup, Event.rename staged live]
              ++ pre ++ [Event.start none]
              ++ [Event.close (retry 2 startAttempt (os_Rename staged live
                    (os_Rename live backup (atSwap service w)).2).2).2.nextMgr,
                  Event.disconnect (srvc_Close (retry 2 startAttempt (os_Rename staged live
                    (os_Rename live backup (atSwap service w)).2).2).2).2.nextMgr]) := by
        simp only [mgr_Disconnect_log, srvc_Close_log]
        unfold retry
        rw [hpre, os_Rename_log, os_Rename_log]
        simp
      rw [eventsSince_of_log _ _ _ hlog]
      simp

/-- C12 at the sample service, running at first and stopped after two
polls, with every call let through. -/
theorem successful_cycle_witness :
    (Windows.restartService "storagenode" "sn.exe" "sn.v2.exe" "sn.old.exe"
      (sampleService [.ok .Running, .ok .StopPending, .ok .Stopped] [] [] [])).1 = none ∧
    (Windows.restartService "storagenode" "sn.exe" "sn.v2.exe" "sn.old.exe"
      (sampleService [.ok .Running, .ok .StopPending, .ok .Stopped] [] [] [])).2.fs "sn.exe"
      = (sampleService [.ok .Running, .ok .StopPending, .ok .Stopped] [] [] []).fs "sn.v2.exe" ∧
    (Windows.restartService "storagenode" "sn.exe" "sn.v2.exe" "sn.old.exe"
      (sampleService [.ok .Running, .ok .StopPending, .ok .Stopped] [] [] [])).2.fs "sn.old.exe"
      = (sampleService [.ok .Running, .ok .StopPending, .ok .Stopped] [] [] []).fs "sn.exe" :=
  have h := successful_cycle "storagenode" "sn.exe" "sn.v2.exe" "sn.old.exe"
    (sampleService [.ok .Running, .ok .StopPending, .ok .Stopped] [] [] [])
    (by decide) (by decide) rfl rfl rfl rfl rfl rfl
  ⟨h.1, h.2.1, h.2.2.1⟩

/-! ## C13: the stop step -/

/-- Among events of the polling loop there is no `Control`. -/
theorem controlCount_of_isPoll (l : List Event) (h : ∀ e ∈ l, e.isPoll = true) :
    controlCount l = 0 := by
  unfold controlCount
  rw [List.length_eq_zero, List.filter_eq_nil_iff]
  intro e he
  have := h e he
  cases e <;> simp_all [Event.isPoll]

/-- A control that fails has logged the failure. -/
theorem srvc_Control_error (c : Cmd) (w : World) (e : Error)
    (h : (srvc_Control c w).1 = .error e) : ∃ errno, w.nextReply = .fail errno := by
  unfold srvc_Control at h
  cases hr : w.nextReply with
  | ok s2 => simp [hr, SvcReply.result] at h
  | fail errno => exact ⟨errno, rfl⟩

/-- The stop step from a service that is neither stopped nor stopping: the
clock is read, Stop is sent once, and the rest is polling. -/
theorem stopService_of_running (w : World) (s : SvcState) (hq : (srvc_Query w).1 = .ok s)
    (h1 : s ≠ .Stopped) (h2 : s ≠ .StopPending) :
    ∃ t r polls,
      eventsSince w (stopService w).2
        = Event.query (.ok s) :: Event.now t :: Event.control .Stop r :: polls ∧
      (∀ e ∈ polls, e.isPoll = true) ∧
      (∀ x ∈ (observed (eventsSince w (stopService w).2)).dropLast, x ≠ .Stopped) ∧
      ((stopService w).1 = none →
        (observed (eventsSince w (stopService w).2)).getLast? = some .Stopped) := by
  have hr := srvc_Query_ok w s hq
  rw [stopService_eq, hq]
  simp only [h1, h2, ne_eq, not_false_eq_true, and_self, if_true]
  rw [serviceControl_eq]
  rcases hc : (srvc_Control .Stop (time_Now (srvc_Query w).2).2).1 with e | s1
  · obtain ⟨errno, he⟩ := srvc_Control_error _ _ e hc
    have hlog : (srvc_Control .Stop (time_Now (srvc_Query w).2).2).2.log
        = w.log ++ [.query (.ok s), .now w.clock.head?, .control .Stop (.fail errno)] := by
      simp [hr, he]
    refine ⟨w.clock.head?, .fail errno, [], ?_, by simp, ?_, by simp⟩
    · exact eventsSince_of_log _ _ _ hlog
    · simp only
      rw [eventsSince_of_log _ _ _ hlog]
      simp [observed]
  · have hrc := srvc_Control_ok _ _ s1 hc
    obtain ⟨polls, hlog, hpoll, hdrop, hlast⟩ := pollLoop_events .Stopped
      (timeAdd (time_Now (srvc_Query w).2).1 (second * 10))
      ((srvc_Control .Stop (time_Now (srvc_Query w).2).2).2.clock.length + 1) s1
      (srvc_Control .Stop (time_Now (srvc_Query w).2).2).2
    have hlog2 : (pollLoop .Stopped (timeAdd (time_Now (srvc_Query w).2).1 (second * 10))
        ((srvc_Control .Stop (time_Now (srvc_Query w).2).2).2.clock.length + 1) s1
        (srvc_Control .Stop (time_Now (srvc_Query w).2).2).2).2.log
        = w.log ++ (Event.query (.ok s) :: Event.now w.clock.head?
            :: Event.control .Stop (.ok s1) :: polls) := by
      rw [hlog]; simp [hr, hrc]
    have hobs : observed (Event.query (.ok s) :: Event.now w.clock.head?
        :: Event.control .Stop (.ok s1) :: polls) = s :: s1 :: observed polls := by
      simp [observed]
    simp only
    rw [eventsSince_of_log _ _ _ hlog2, hobs]
    refine ⟨w.clock.head?, .ok s1, polls, rfl, hpoll, ?_, ?_⟩
    · intro x hx
      rw [List.dropLast_cons₂] at hx
      rcases List.mem_cons.mp hx with rfl | hx
      · exact h1
      · exact hdrop x hx
    · intro hnil
      rw [List.getLast?_cons_cons]
      exact hlast hnil

/-- The stop step from a service that is stopping: the clock is read and the
rest is polling, without any `Control`. -/
theorem stopService_of_stopPending (w : World)
    (hq : (srvc_Query w).1 = .ok .StopPending) :
    ∃ t polls,
      eventsSince w (stopService w).2
        = Event.query (.ok .StopPending) :: Event.now t :: polls ∧
      (∀ e ∈ polls, e.isPoll = true) ∧
      (∀ x ∈ (observed (eventsSince w (stopService w).2)).dropLast, x ≠ .Stopped) ∧
      ((stopService w).1 = none →
        (observed (eventsSince w (stopService w).2)).getLast? = some .Stopped) := by
  have hr := srvc_Query_ok w _ hq
  rw [stopService_eq, hq]
  simp only [ne_eq, not_true_eq_false, and_false, if_false, if_true]
  rw [serviceWaitForState_eq]
  rcases hc : (srvc_Query (time_Now (srvc_Query w).2).2).1 with e | s1
  · obtain ⟨errno, he⟩ := srvc_Query_error _ e hc
    have hlog : (srvc_Query (time_Now (srvc_Query w).2).2).2.log
        = w.log ++ [.query (.ok .StopPending), .now w.clock.head?, .query (.fail errno)] := by
      simp [hr, he]
    refine ⟨w.clock.head?, [.query (.fail errno)], ?_, by simp [Event.isPoll], ?_, by simp⟩
    · exact eventsSince_of_log _ _ _ hlog
    · simp only
      rw [eventsSince_of_log _ _ _ hlog]
      simp [observed]
  · have hrc := srvc_Query_ok _ s1 hc
    obtain ⟨polls, hlog, hpoll, hdrop, hlast⟩ := pollLoop_events .Stopped
      (timeAdd (time_Now (srvc_Query w).2).1 (second * 10))
      ((srvc_Query (time_Now (srvc_Query w).2).2).2.clock.length + 1) s1
      (srvc_Query (time_Now (srvc_Query w).2).2).2
    have hlog2 : (pollLoop .Stopped (timeAdd (time_Now (srvc_Query w).2).1 (second * 10))
        ((srvc_Query (time_Now (srvc_Query w).2).2).2.clock.length + 1) s1
        (srvc_Query (time_Now (srvc_Query w).2).2).2).2.log
        = w.log ++ (Event.query (.ok .StopPending) :: Event.now w.clock.head?
            :: Event.query (.ok s1) :: polls) := by
      rw [hlog]; simp [hr, hrc]
    have hobs : observed (Event.query (.ok .StopPending) :: Event.now w.clock.head?
        :: Event.query (.ok s1) :: polls) = .StopPending :: s1 :: observed polls := by
      simp [observed]
    simp only
    rw [eventsSince_of_log _ _ _ hlog2, hobs]
    refine ⟨w.clock.head?, Event.query (.ok s1) :: polls, rfl, ?_, ?_, ?_⟩
    · intro e he
      rcases List.mem_cons.mp he with rfl | he
      · rfl
      · exact hpoll e he
    · intro x hx
      rw [List.dropLast_cons₂] at hx
      rcases List.mem_cons.mp hx with rfl | hx
      · decide
      · exact hdrop x hx
    · intro hnil
      rw [List.getLast?_cons_cons]
      exact hlast hnil

/-- C13. The stop step of restartService, for the state s the first query
reports.  If s is neither Stopped nor StopPending, the clock is read, Stop is
sent, and every later event is a look at the context, a reading of the clock or
a query: Stop is sent exactly once.  If s is StopPending, the clock is read and
every later event is of that polling kind: Stop is not sent.  In both cases no
status seen before the last one is Stopped, and the step succeeds only when the
last status seen is Stopped.  If s is Stopped, the step succeeds at once and the
query is its only event. -/
theorem stop_step (w : World) (s : SvcState) (hq : (srvc_Query w).1 = .ok s) :
    (s ≠ .Stopped → s ≠ .StopPending →
      (∃ t r polls,
        eventsSince w (stopService w).2
          = Event.query (.ok s) :: Event.now t :: Event.control .Stop r :: polls ∧
        (∀ e ∈ polls, e.isPoll = true)) ∧
      controlCount (eventsSince w (stopService w).2) = 1 ∧
      (∀ x ∈ (observed (eventsSince w (stopService w).2)).dropLast, x ≠ .Stopped) ∧
      ((stopService w).1 = none →
        (observed (eventsSince w (stopService w).2)).getLast? = some .Stopped)) ∧
    (s = .StopPending →
      (∃ t polls,
        eventsSince w (stopService w).2 = Event.query (.ok s) :: Event.now t :: polls ∧
        (∀ e ∈ polls, e.isPoll = true)) ∧
      controlCount (eventsSince w (stopService w).2) = 0 ∧
      (∀ x ∈ (observed (eventsSince w (stopService w).2)).dropLast, x ≠ .Stopped) ∧
      ((stopService w).1 = none →
        (observed (eventsSince w (stopService w).2)).getLast? = some .Stopped)) ∧
    (s = .Stopped →
      stopService w = (none, (srvc_Query w).2) ∧
      eventsSince w (stopService w).2 = [Event.query (.ok s)]) := by
  refine ⟨fun h1 h2 => ?_, fun h => ?_, fun h => ?_⟩
  · obtain ⟨t, r, polls, hev, hpoll, hdrop, hlast⟩ := stopService_of_running w s hq h1 h2
    refine ⟨⟨t, r, polls, hev, hpoll⟩, ?_, hdrop, hlast⟩
    rw [hev]
    have h0 := controlCount_of_isPoll polls hpoll
    unfold controlCount at h0 ⊢
    simp [List.filter_cons, h0]
  · subst h
    obtain ⟨t, polls, hev, hpoll, hdrop, hlast⟩ := stopService_of_stopPending w hq
    refine ⟨⟨t, polls, hev, hpoll⟩, ?_, hdrop, hlast⟩
    rw [hev]
    have h0 := controlCount_of_isPoll polls hpoll
    unfold controlCount at h0 ⊢
    simp [List.filter_cons, h0]
  · subst h
    have hr := srvc_Query_ok w _ hq
    have heq : stopService w = (none, (srvc_Query w).2) := by
      rw [stopService_eq, hq]
      simp
    refine ⟨heq, ?_⟩
    rw [heq]
    exact eventsSince_of_log _ _ _ (by simp [hr])

/-- C13 at the sample service: running, Stop is sent once and two polls see it
stopped; stopping, no Stop is sent; stopped, nothing is done. -/
theorem stop_step_witness :
    controlCount (eventsSince (sampleService [.ok .Running, .ok .StopPending, .ok .Stopped] [] [] [])
      (stopService (sampleService [.ok .Running, .ok .StopPending, .ok .Stopped] [] [] [])).2)
      = 1 ∧
    controlCount (eventsSince (sampleService [.ok .StopPending, .ok .Stopped] [] [] [])
      (stopService (sampleService [.ok .StopPending, .ok .Stopped] [] [] [])).2) = 0 ∧
    eventsSince (sampleService [.ok .Stopped] [] [] [])
      (stopService (sampleService [.ok .Stopped] [] [] [])).2 = [Event.query (.ok .Stopped)] :=
  ⟨((stop_step (sampleService [.ok .Running, .ok .StopPending, .ok .Stopped] [] [] [])
      .Running rfl).1 (by decide) (by decide)).2.1,
    ((stop_step (sampleService [.ok .StopPending, .ok .Stopped] [] [] [])
      .StopPending rfl).2.1 rfl).2.1,
    ((stop_step (sampleService [.ok .Stopped] [] [] []) .Stopped rfl).2.2 rfl).2⟩

/-! ## C14: the stop phase fails -/

/-- Wrapping an error gives an error. -/
theorem errsWrap_some (e : Error) : ∃ e2, errsWrap (some e) = some e2 := by
  cases e <;> exact ⟨_, rfl⟩

/-- The log at the start of the substitution: the connection, the opening of
the service, and events of the stop phase. -/
theorem atSwap_log (service : String) (w : World) :
    ∃ evs, (atSwap service w).log
        = w.log ++ (Event.connect w.nextMgr
            :: Event.openService service (mgr_Connect w).2.nextMgr :: evs) ∧
      ∀ e ∈ evs, e.isStopPhase = true := by
  obtain ⟨evs, hlog, hev⟩ := stopService_events (atStop service w)
  refine ⟨evs, ?_, hev⟩
  unfold atSwap
  rw [hlog]
  unfold atStop
  simp

/-- C14. When the manager is connected and the service open but the stop phase
of restartService fails (the deadline passed, the context was canceled, or the
service manager returned an error), restartService returns an error; from
beginning to end it issues no rename; after the stop phase its events are the
removal of the staged file and the deferred Close and Disconnect; the live
binary, at another path than the staged one, is as it was; and the staged file
is gone unless the OS refuses the removal. -/
theorem stop_failure (service : String) (live staged backup : Path) (w : World) (err : Error)
    (hSL : staged ≠ live)
    (hconn : (mgr_Connect w).1 = none)
    (hopen : (mgr_OpenService service (mgr_Connect w).2).1 = none)
    (hstop : (stopService (atStop service w)).1 = some err) :
    (Windows.restartService service live staged backup w).1 ≠ none ∧
    (∀ a b, Event.rename a b ∉
      eventsSince w (Windows.restartService service live staged backup w).2) ∧
    (∃ c d, eventsSince (atSwap service w)
        (Windows.restartService service live staged backup w).2
      = [Event.remove staged, Event.close c, Event.disconnect d]) ∧
    (Windows.restartService service live staged backup w).2.fs live = w.fs live ∧
    ((atSwap service w).nextFault = none →
      (Windows.restartService service live staged backup w).2.fs staged = none) := by
  have hres : Windows.restartService service live staged backup w
      = ((failAndRemove err staged (atSwap service w)).1,
          (mgr_Disconnect (srvc_Close (failAndRemove err staged (atSwap service w)).2).2).2) := by
    rw [Windows.restartService_of_open service live staged backup w hconn hopen]
    simp only [hstop]
  have hlog : (mgr_Disconnect (srvc_Close (failAndRemove err staged (atSwap service w)).2).2).2.log
      = (atSwap service w).log ++ [Event.remove staged,
          Event.close (os_Remove staged (atSwap service w)).2.nextMgr,
          Event.disconnect (srvc_Close (os_Remove staged (atSwap service w)).2).2.nextMgr] := by
    simp [failAndRemove, os_Remove_log]
  rw [hres]
  refine ⟨?_, ?_, ⟨_, _, eventsSince_of_log _ _ _ hlog⟩, ?_, ?_⟩
  · obtain ⟨e2, he2⟩ := errsWrap_some err
    show errsCombine _ ≠ none
    rw [he2]
    exact errsCombine_ne_none _ _
  · intro a b hmem
    obtain ⟨evs, hsw, hev⟩ := atSwap_log service w
    have hall : (mgr_Disconnect
        (srvc_Close (failAndRemove err staged (atSwap service w)).2).2).2.log
        = w.log ++ (Event.connect w.nextMgr
            :: Event.openService service (mgr_Connect w).2.nextMgr :: evs
            ++ [Event.remove staged,
              Event.close (os_Remove staged (atSwap service w)).2.nextMgr,
              Event.disconnect
                (srvc_Close (os_Remove staged (atSwap service w)).2).2.nextMgr]) := by
      rw [hlog, hsw]; simp
    rw [eventsSince_of_log _ _ _ hall] at hmem
    simp only [List.cons_append, List.mem_cons, List.mem_append, List.mem_singleton,
      List.not_mem_nil, or_false, reduceCtorEq, false_or] at hmem
    have := hev _ hmem
    simp [Event.isStopPhase, Event.isPoll] at this
  · show (mgr_Disconnect (srvc_Close (os_Remove staged (atSwap service w)).2).2).2.fs live = _
    simp only [mgr_Disconnect_fs, srvc_Close_fs]
    rw [os_Remove_other _ _ _ (Ne.symm hSL), atSwap_fs]
  · intro hf
    show (mgr_Disconnect (srvc_Close (os_Remove staged (atSwap service w)).2).2).2.fs staged = _
    simp only [mgr_Disconnect_fs, srvc_Close_fs]
    exact os_Remove_gone _ _ hf

/-- C14 at the sample service that keeps stopping while the clock runs past the
deadline of ten seconds: a timeout, no rename, the staged file removed. -/
theorem stop_failure_witness :
    (Windows.restartService "storagenode" "sn.exe" "sn.v2.exe" "sn.old.exe"
      (sampleLate [.ok .Running, .ok .StopPending] [])).1 ≠ none ∧
    (Windows.restartService "storagenode" "sn.exe" "sn.v2.exe" "sn.old.exe"
      (sampleLate [.ok .Running, .ok .StopPending] [])).2.fs "sn.exe"
      = (sampleLate [.ok .Running, .ok .StopPending] []).fs "sn.exe" ∧
    (Windows.restartService "storagenode" "sn.exe" "sn.v2.exe" "sn.old.exe"
      (sampleLate [.ok .Running, .ok .StopPending] [])).2.fs "sn.v2.exe" = none :=
  have h := stop_failure "storagenode" "sn.exe" "sn.v2.exe" "sn.old.exe"
    (sampleLate [.ok .Running, .ok .StopPending] []) (Error.msg "timeout")
    (by decide) rfl rfl rfl
  ⟨h.1, h.2.2.2.1, h.2.2.2.2 rfl⟩

/-! ## Counting the `Start` calls -/

theorem startCount_append (l1 l2 : List Event) :
    startCount (l1 ++ l2) = startCount l1 + startCount l2 := by
  unfold startCount
  rw [List.filter_append, List.length_append]

/-- Events of the stop phase are no `Start`. -/
theorem startCount_of_isStopPhase (l : List Event) (h : ∀ e ∈ l, e.isStopPhase = true) :
    startCount l = 0 := by
  unfold startCount
  rw [List.length_eq_zero, List.filter_eq_nil_iff]
  intro e he
  have := h e he
  cases e <;> simp_all [Event.isStopPhase, Event.isPoll]

/-- File-system calls are no `Start`. -/
theorem startCount_of_isFileOp (l : List Event) (h : ∀ e ∈ l, e.isFileOp = true) :
    startCount l = 0 := by
  unfold startCount
  rw [List.length_eq_zero, List.filter_eq_nil_iff]
  intro e he
  have := h e he
  cases e <;> simp_all [Event.isFileOp]

/-- The events of the substitution are its renames. -/
theorem substituteWithRecovery_events (t b n : Path) (w : World) :
    ∃ evs, (substituteWithRecovery t b n w).2.log = w.log ++ evs ∧
      ∀ e ∈ evs, e.isFileOp = true := by
  rw [substituteWithRecovery_eq]
  rcases h1 : (os_Rename t b w).1 with _ | e1
  · rcases h2 : (os_Rename n t (os_Rename t b w).2).1 with _ | e2
    · exact ⟨[.rename t b, .rename n t], by simp [os_Rename_log], by simp [Event.isFileOp]⟩
    · rcases h3 : (os_Rename b t (os_Rename n t (os_Rename t b w).2).2).1 with _ | e3 <;>
        exact ⟨[.rename t b, .rename n t, .rename b t], by simp [os_Rename_log],
          by simp [Event.isFileOp]⟩
  · exact ⟨[.rename t b], by simp [os_Rename_log], by simp [Event.isFileOp]⟩

/-- The `Start` calls of a run of restartService are those after its stop
phase. -/
theorem startCount_since_atSwap (service : String) (w out : World) (tail : List Event)
    (h : out.log = (atSwap service w).log ++ tail) :
    startCount (eventsSince w out) = startCount tail := by
  obtain ⟨evs, hsw, hev⟩ := atSwap_log service w
  have hall : out.log = w.log ++ ((Event.connect w.nextMgr
      :: Event.openService service (mgr_Connect w).2.nextMgr :: evs) ++ tail) := by
    rw [h, hsw]; simp
  rw [eventsSince_of_log _ _ _ hall, startCount_append]
  have h0 : startCount (Event.connect w.nextMgr
      :: Event.openService service (mgr_Connect w).2.nextMgr :: evs) = 0 := by
    have := startCount_of_isStopPhase evs hev
    unfold startCount at this ⊢
    simp [List.filter_cons, this]
  rw [h0, Nat.zero_add]

/-- Wrapping the error of a rename wraps it once. -/
theorem errsWrap_of_rename (a b : Path) (w : World) (e : Error)
    (h : (os_Rename a b w).1 = some e) : errsWrap (some e) = some (Error.wrap e) := by
  unfold os_Rename at h
  split at h <;> simp at h <;> subst h <;> rfl

/-- A substitution that reports recovered = true returns a wrapped error. -/
theorem substituteWithRecovery_recovered (t b n : Path) (w : World) (err : Error)
    (h : (substituteWithRecovery t b n w).1 = (true, some err)) :
    ∃ e2, err = Error.wrap e2 := by
  rw [substituteWithRecovery_eq] at h
  rcases h1 : (os_Rename t b w).1 with _ | e1
  · rw [h1] at h
    rcases h2 : (os_Rename n t (os_Rename t b w).2).1 with _ | e2
    · rw [h2] at h; simp at h
    · rw [h2] at h
      rcases h3 : (os_Rename b t (os_Rename n t (os_Rename t b w).2).2).1 with _ | e3
      · rw [h3] at h
        simp only [Prod.mk.injEq, true_and] at h
        rw [errsWrap_of_rename _ _ _ _ h2] at h
        exact ⟨e2, (Option.some.inj h).symm⟩
      · rw [h3] at h; simp at h
  · rw [h1] at h; simp at h

/-! ## C15: the substitution recovered -/

/-- C15, as stated, fails: with the service stopped, the staged-to-live rename
refused and the old binary restored, restartService returns the substitution
error when the best-effort Start succeeds, but the group of the substitution
error and the error of Start when that Start fails: the error returned depends
on the outcome of Start. -/
theorem recovered_error_counterexample :
    (substituteWithRecovery "sn.exe" "sn.old.exe" "sn.v2.exe"
      (atSwap "storagenode" (sampleService [.ok .Stopped] [some 5] [none, some 13] []))).1
      = (true, some (Error.wrap (Error.link "rename" "sn.v2.exe" "sn.exe" 13))) ∧
    (Windows.restartService "storagenode" "sn.exe" "sn.v2.exe" "sn.old.exe"
      (sampleService [.ok .Stopped] [none] [none, some 13] [])).1
      = some (Error.wrap (Error.link "rename" "sn.v2.exe" "sn.exe" 13)) ∧
    (Windows.restartService "storagenode" "sn.exe" "sn.v2.exe" "sn.old.exe"
      (sampleService [.ok .Stopped] [some 5] [none, some 13] [])).1
      = some (Error.group [Error.wrap (Error.link "rename" "sn.v2.exe" "sn.exe" 13),
          Error.errno "Start" 5]) ∧
    (Windows.restartService "storagenode" "sn.exe" "sn.v2.exe" "sn.old.exe"
      (sampleService [.ok .Stopped] [some 5] [none, some 13] [])).1
      ≠ some (Error.wrap (Error.link "rename" "sn.v2.exe" "sn.exe" 13)) := by
  refine ⟨rfl, rfl, rfl, ?_⟩
  intro h
  have h2 : (Windows.restartService "storagenode" "sn.exe" "sn.v2.exe" "sn.old.exe"
      (sampleService [.ok .Stopped] [some 5] [none, some 13] [])).1
      = some (Error.group [Error.wrap (Error.link "rename" "sn.v2.exe" "sn.exe" 13),
          Error.errno "Start" 5]) := rfl
  rw [h2] at h
  cases h

/-- C15, amended. When substituteWithRecovery reports recovered = true with
the error err, restartService issues Start exactly once, then removes the
staged file, and returns the combination of err, the error of that Start and
the error of the removal: err itself when both succeed, the group of err and
the Start error when Start fails and the removal succeeds; never nil. -/
theorem recovered_restart (service : String) (live staged backup : Path) (w : World)
    (err : Error)
    (hconn : (mgr_Connect w).1 = none)
    (hopen : (mgr_OpenService service (mgr_Connect w).2).1 = none)
    (hstop : (stopService (atStop service w)).1 = none)
    (hrec : (substituteWithRecovery live backup staged (atSwap service w)).1
      = (true, some err)) :
    (Windows.restartService service live staged backup w).1
      = errsCombine [some err,
          (srvc_Start (substituteWithRecovery live backup staged (atSwap service w)).2).1,
          (os_Remove staged
            (srvc_Start (substituteWithRecovery live backup staged (atSwap service w)).2).2).1] ∧
    (Windows.restartService service live staged backup w).1 ≠ none ∧
    ((srvc_Start (substituteWithRecovery live backup staged (atSwap service w)).2).1 = none →
      (os_Remove staged
        (srvc_Start (substituteWithRecovery live backup staged (atSwap service w)).2).2).1 = none →
      (Windows.restartService service live staged backup w).1 = some err) ∧
    (∀ e, (srvc_Start (substituteWithRecovery live backup staged (atSwap service w)).2).1
        = some e →
      (os_Remove staged
        (srvc_Start (substituteWithRecovery live backup staged (atSwap service w)).2).2).1 = none →
      (Windows.restartService service live staged backup w).1 = some (Error.group [err, e])) ∧
    startCount (eventsSince w (Windows.restartService service live staged backup w).2) = 1 ∧
    (∃ r c d, eventsSince (substituteWithRecovery live backup staged (atSwap service w)).2
        (Windows.restartService service live staged backup w).2
      = [Event.start r, Event.remove staged, Event.close c, Event.disconnect d]) := by
  obtain ⟨e2, he2⟩ := substituteWithRecovery_recovered _ _ _ _ _ hrec
  have hw : errsWrap (some err) = some err := by rw [he2]; rfl
  have hsw : swapAndStart live staged backup (atSwap service w)
      = (errsCombine [some err,
            (srvc_Start (substituteWithRecovery live backup staged (atSwap service w)).2).1,
            (os_Remove staged (srvc_Start
              (substituteWithRecovery live backup staged (atSwap service w)).2).2).1],
          (os_Remove staged (srvc_Start
            (substituteWithRecovery live backup staged (atSwap service w)).2).2).2) := by
    rw [swapAndStart_eq, hrec]
    simp only [if_true, hw]
  have hres : Windows.restartService service live staged backup w
      = (errsCombine [some err,
            (srvc_Start (substituteWithRecovery live backup staged (atSwap service w)).2).1,
            (os_Remove staged (srvc_Start
              (substituteWithRecovery live backup staged (atSwap service w)).2).2).1],
          (mgr_Disconnect (srvc_Close (os_Remove staged (srvc_Start
            (substituteWithRecovery live backup staged (atSwap service w)).2).2).2).2).2) := by
    rw [Windows.restartService_of_open service live staged backup w hconn hopen]
    simp only [hstop, hsw]
  have hlog : (mgr_Disconnect (srvc_Close (os_Remove staged (srvc_Start
      (substituteWithRecovery live backup staged (atSwap service w)).2).2).2).2).2.log
      = (substituteWithRecovery live backup staged (atSwap service w)).2.log
        ++ [Event.start (substituteWithRecovery live backup staged (atSwap service w)).2.nextStart,
          Event.remove staged,
          Event.close (os_Remove staged (srvc_Start
            (substituteWithRecovery live backup staged (atSwap service w)).2).2).2.nextMgr,
          Event.disconnect (srvc_Close (os_Remove staged (srvc_Start
            (substituteWithRecovery live backup staged (atSwap service w)).2).2).2).2.nextMgr] := by
    simp [os_Remove_log]
  rw [hres]
  refine ⟨rfl, errsCombine_ne_none _ _, ?_, ?_, ?_, ⟨_, _, _, eventsSince_of_log _ _ _ hlog⟩⟩
  · intro h1 h2
    show errsCombine _ = _
    rw [h1, h2]; rfl
  · intro e h1 h2
    show errsCombine _ = _
    rw [h1, h2]; rfl
  · obtain ⟨evs, hsub, hev⟩ := substituteWithRecovery_events live backup staged (atSwap service w)
    rw [hsub, List.append_assoc] at hlog
    rw [startCount_since_atSwap service w _ _ hlog, startCount_append,
      startCount_of_isFileOp evs hev]
    simp [startCount, List.filter_cons]

/-- C15, amended, at the sample service with the staged-to-live rename refused
and a Start that fails with errno 5. -/
theorem recovered_restart_witness :
    (Windows.restartService "storagenode" "sn.exe" "sn.v2.exe" "sn.old.exe"
      (sampleService [.ok .Stopped] [some 5] [none, some 13] [])).1
      = some (Error.group [Error.wrap (Error.link "rename" "sn.v2.exe" "sn.exe" 13),
          Error.errno "Start" 5]) ∧
    startCount (eventsSince (sampleService [.ok .Stopped] [some 5] [none, some 13] [])
      (Windows.restartService "storagenode" "sn.exe" "sn.v2.exe" "sn.old.exe"
        (sampleService [.ok .Stopped] [some 5] [none, some 13] [])).2) = 1 :=
  have h := recovered_restart "storagenode" "sn.exe" "sn.v2.exe" "sn.old.exe"
    (sampleService [.ok .Stopped] [some 5] [none, some 13] [])
    (Error.wrap (Error.link "rename" "sn.v2.exe" "sn.exe" 13)) rfl rfl rfl rfl
  ⟨h.2.2.2.1 _ rfl rfl, h.2.2.2.2.1⟩

/-! ## C16: the substitution failed without recovery -/

/-- C16. When substituteWithRecovery returns the error err with recovered =
false, restartService removes the staged file and returns the wrapped err, alone
or, when the removal fails too, in a group with the error of the removal; the
result is not nil, and from beginning to end restartService issues no Start. -/
theorem unrecoverable_substitution (service : String) (live staged backup : Path) (w : World)
    (err : Error)
    (hconn : (mgr_Connect w).1 = none)
    (hopen : (mgr_OpenService service (mgr_Connect w).2).1 = none)
    (hstop : (stopService (atStop service w)).1 = none)
    (hun : (substituteWithRecovery live backup staged (atSwap service w)).1
      = (false, some err)) :
    (∃ e2, errsWrap (some err) = some e2 ∧
      ((Windows.restartService service live staged backup w).1 = some e2 ∨
        ∃ re, (Windows.restartService service live staged backup w).1
          = some (Error.group [e2, re]))) ∧
    (Windows.restartService service live staged backup w).1 ≠ none ∧
    startCount (eventsSince w (Windows.restartService service live staged backup w).2) = 0 ∧
    (∃ c d, eventsSince (substituteWithRecovery live backup staged (atSwap service w)).2
        (Windows.restartService service live staged backup w).2
      = [Event.remove staged, Event.close c, Event.disconnect d]) := by
  have hsw : swapAndStart live staged backup (atSwap service w)
      = failAndRemove err staged
          (substituteWithRecovery live backup staged (atSwap service w)).2 := by
    rw [swapAndStart_eq, hun]
    simp
  have hres : Windows.restartService service live staged backup w
      = ((failAndRemove err staged
            (substituteWithRecovery live backup staged (atSwap service w)).2).1,
          (mgr_Disconnect (srvc_Close (failAndRemove err staged
            (substituteWithRecovery live backup staged (atSwap service w)).2).2).2).2) := by
    rw [Windows.restartService_of_open service live staged backup w hconn hopen]
    simp only [hstop, hsw]
  have hlog : (mgr_Disconnect (srvc_Close (failAndRemove err staged
      (substituteWithRecovery live backup staged (atSwap service w)).2).2).2).2.log
      = (substituteWithRecovery live backup staged (atSwap service w)).2.log
        ++ [Event.remove staged,
          Event.close (os_Remove staged
            (substituteWithRecovery live backup staged (atSwap service w)).2).2.nextMgr,
          Event.disconnect (srvc_Close (os_Remove staged
            (substituteWithRecovery live backup staged (atSwap service w)).2).2).2.nextMgr] := by
    simp [failAndRemove, os_Remove_log]
  obtain ⟨e2, he2⟩ := errsWrap_some err
  rw [hres]
  refine ⟨⟨e2, he2, ?_⟩, ?_, ?_, ⟨_, _, eventsSince_of_log _ _ _ hlog⟩⟩
  · show errsCombine _ = _ ∨ ∃ re, errsCombine _ = _
    rw [he2]
    rcases (os_Remove staged
      (substituteWithRecovery live backup staged (atSwap service w)).2).1 with _ | re
    · exact Or.inl rfl
    · exact Or.inr ⟨re, rfl⟩
  · show errsCombine _ ≠ none
    rw [he2]
    exact errsCombine_ne_none _ _
  · obtain ⟨evs, hsub, hev⟩ := substituteWithRecovery_events live backup staged (atSwap service w)
    rw [hsub, List.append_assoc] at hlog
    rw [startCount_since_atSwap service w _ _ hlog, startCount_append,
      startCount_of_isFileOp evs hev]
    simp [startCount, List.filter_cons]

/-- C16 at the sample service with the staged-to-live rename and the restore
rename both refused. -/
theorem unrecoverable_substitution_witness :
    (Windows.restartService "storagenode" "sn.exe" "sn.v2.exe" "sn.old.exe"
      (sampleService [.ok .Stopped] [] [none, some 13, some 5] [])).1 ≠ none ∧
    startCount (eventsSince (sampleService [.ok .Stopped] [] [none, some 13, some 5] [])
      (Windows.restartService "storagenode" "sn.exe" "sn.v2.exe" "sn.old.exe"
        (sampleService [.ok .Stopped] [] [none, some 13, some 5] [])).2) = 0 :=
  have h := unrecoverable_substitution "storagenode" "sn.exe" "sn.v2.exe" "sn.old.exe"
    (sampleService [.ok .Stopped] [] [none, some 13, some 5] [])
    (Error.group [Error.link "rename" "sn.v2.exe" "sn.exe" 13,
      Error.link "rename" "sn.old.exe" "sn.exe" 5]) rfl rfl rfl rfl
  ⟨h.2.1, h.2.2.1⟩

/-! ## C17: Start fails twice after the swap -/

/-- The start loop when the context is live at both looks and both `Start`
calls fail: it returns the error of the second one after these four events. -/
theorem retry_two_failures (w : World) (e1 e2 : Nat) (rest : List (Option Nat))
    (hc : ∀ b ∈ w.cancel.take 2, b = false)
    (hs : w.starts = some e1 :: some e2 :: rest) :
    (retry 2 startAttempt w).1 = some (Error.errno "Start" e2) ∧
    (retry 2 startAttempt w).2.log
      = w.log ++ [Event.ctxErr false, Event.start (some e1), Event.ctxErr false,
          Event.start (some e2)] ∧
    (retry 2 startAttempt w).2.faults = w.faults ∧
    (retry 2 startAttempt w).2.starts = rest := by
  have hc1 : w.nextCancel = false := by
    unfold World.nextCancel
    cases hcl : w.cancel with
    | nil => rfl
    | cons b bs => rw [hcl] at hc; exact hc b (by simp)
  have hc2 : (srvc_Start (ctx_Err w).2).2.nextCancel = false := by
    show World.nextCancel { (ctx_Err w).2 with starts := _, log := _ } = false
    unfold World.nextCancel ctx_Err
    simp only
    cases hcl : w.cancel with
    | nil => rfl
    | cons b bs =>
      cases bs with
      | nil => rfl
      | cons b2 bs2 => rw [hcl] at hc; exact hc b2 (by simp)
  have hs1 : (ctx_Err w).2.nextStart = some e1 := by
    unfold World.nextStart ctx_Err
    simp [hs]
  have hs2 : (ctx_Err (srvc_Start (ctx_Err w).2).2).2.nextStart = some e2 := by
    unfold World.nextStart ctx_Err srvc_Start
    simp [hs]
  have hret : retry 2 startAttempt w
      = (some (Error.errno "Start" e2),
          (srvc_Start (ctx_Err (srvc_Start (ctx_Err w).2).2).2).2) := by
    unfold retry
    rw [retryFrom_succ, if_neg (by simp [hc1]), hs1]
    simp only
    rw [retryFrom_succ, if_neg (by simp [hc2]), hs2]
    simp only [retryFrom]
  rw [hret]
  refine ⟨rfl, ?_, rfl, ?_⟩
  · simp [hc1, hc2, hs1, hs2]
  · simp [srvc_Start, ctx_Err, hs]

/-- C17, as stated, fails: with the service stopped, the swap done and Start
failing twice, the restore rename is refused by the OS; restartService then
returns without a third Start: two Start calls in all. -/
theorem third_start_counterexample :
    (os_Rename "sn.old.exe" "sn.exe" (afterStarts "sn.exe" "sn.v2.exe" "sn.old.exe"
      (atSwap "storagenode"
        (sampleService [.ok .Stopped] [some 5, some 6] [none, none, some 13] [])))).1
      = some (Error.link "rename" "sn.old.exe" "sn.exe" 13) ∧
    Event.rename "sn.old.exe" "sn.exe" ∈
      eventsSince (sampleService [.ok .Stopped] [some 5, some 6] [none, none, some 13] [])
        (Windows.restartService "storagenode" "sn.exe" "sn.v2.exe" "sn.old.exe"
          (sampleService [.ok .Stopped] [some 5, some 6] [none, none, some 13] [])).2 ∧
    startCount
      (eventsSince (sampleService [.ok .Stopped] [some 5, some 6] [none, none, some 13] [])
        (Windows.restartService "storagenode" "sn.exe" "sn.v2.exe" "sn.old.exe"
          (sampleService [.ok .Stopped] [some 5, some 6] [none, none, some 13] [])).2) = 2 := by
  refine ⟨rfl, ?_, ?_⟩ <;> decide

/-- C17, amended. After a successful swap between three different files,
with the context live at both looks and Start failing twice, restartService
renames backup to live.  When that rename succeeds it calls Start once more, the
third Start call in all, the live path holds the pre-update binary, and the
result is an error.  When that rename fails no further Start is called, two in
all, and the result is the group of the second Start error and the rename
error. -/
theorem start_failure_fallback (service : String) (live staged backup : Path) (w : World)
    (e1 e2 : Nat) (rest : List (Option Nat))
    (hLB : live ≠ backup) (hSB : staged ≠ backup)
    (hconn : (mgr_Connect w).1 = none)
    (hopen : (mgr_OpenService service (mgr_Connect w).2).1 = none)
    (hstop : (stopService (atStop service w)).1 = none)
    (h1 : (os_Rename live backup (atSwap service w)).1 = none)
    (h2 : (os_Rename staged live (os_Rename live backup (atSwap service w)).2).1 = none)
    (hc : ∀ b ∈ (atSwap service w).cancel.take 2, b = false)
    (hs : (atSwap service w).starts = some e1 :: some e2 :: rest) :
    ((os_Rename backup live (afterStarts live staged backup (atSwap service w))).1 = none →
      startCount (eventsSince w (Windows.restartService service live staged backup w).2) = 3 ∧
      (∃ r c d, eventsSince (atSwap service w)
          (Windows.restartService service live staged backup w).2
        = [Event.rename live backup, Event.rename staged live,
            Event.ctxErr false, Event.start (some e1),
            Event.ctxErr false, Event.start (some e2),
            Event.rename backup live, Event.start r, Event.close c, Event.disconnect d]) ∧
      (Windows.restartService service live staged backup w).2.fs live = w.fs live ∧
      (Windows.restartService service live staged backup w).1 ≠ none) ∧
    (∀ rerr,
      (os_Rename backup live (afterStarts live staged backup (atSwap service w))).1
        = some rerr →
      startCount (eventsSince w (Windows.restartService service live staged backup w).2) = 2 ∧
      (∃ c d, eventsSince (atSwap service w)
          (Windows.restartService service live staged backup w).2
        = [Event.rename live backup, Event.rename staged live,
            Event.ctxErr false, Event.start (some e1),
            Event.ctxErr false, Event.start (some e2),
            Event.rename backup live, Event.close c, Event.disconnect d]) ∧
      (Windows.restartService service live staged backup w).1
        = some (Error.group [Error.errno "Start" e2, rerr])) := by
  obtain ⟨hsub, _, hb⟩ := substituteWithRecovery_of_ok live backup staged (atSwap service w)
    hLB hSB h1 h2
  have hc4 : ∀ b ∈ (afterSwap live staged backup (atSwap service w)).cancel.take 2,
      b = false := by
    unfold afterSwap
    rw [(os_Rename_frame _ _ _).2.1, (os_Rename_frame _ _ _).2.1]
    exact hc
  have hs4 : (afterSwap live staged backup (atSwap service w)).starts
      = some e1 :: some e2 :: rest := by
    unfold afterSwap
    rw [(os_Rename_frame _ _ _).1, (os_Rename_frame _ _ _).1]
    exact hs
  obtain ⟨hret, hrlog, _, _⟩ :=
    retry_two_failures (afterSwap live staged backup (atSwap service w)) e1 e2 rest hc4 hs4
  have hlog5 : (afterStarts live staged backup (atSwap service w)).log
      = (atSwap service w).log ++ [Event.rename live backup, Event.rename staged live,
          Event.ctxErr false, Event.start (some e1),
          Event.ctxErr false, Event.start (some e2)] := by
    unfold afterStarts
    rw [hrlog]
    unfold afterSwap
    rw [os_Rename_log, os_Rename_log]
    simp
  have hfs5 : (afterStarts live staged backup (atSwap service w)).fs backup = w.fs live := by
    unfold afterStarts
    rw [retry_fs]
    unfold afterSwap
    rw [hb, atSwap_fs]
  have hsub2 : substituteWithRecovery live backup staged (atSwap service w)
      = ((false, none), afterSwap live staged backup (atSwap service w)) := hsub
  have hret2 : (retry 2 startAttempt (afterSwap live staged backup (atSwap service w))).1
      = some (Error.errno "Start" e2) := hret
  have hres := Windows.restartService_of_open service live staged backup w hconn hopen
  simp only [hstop] at hres
  constructor
  · intro h3
    have hsw : swapAndStart live staged backup (atSwap service w)
        = (errsCombine [some (Error.errno "Start" e2),
              (srvc_Start (os_Rename backup live
                (afterStarts live staged backup (atSwap service w))).2).1],
            (srvc_Start (os_Rename backup live
              (afterStarts live staged backup (atSwap service w))).2).2) := by
      rw [swapAndStart_eq, hsub2]
      simp only [hret2]
      unfold afterStarts at h3
      simp only [h3]
      rfl
    rw [hres, hsw]
    have hlog : (mgr_Disconnect (srvc_Close (srvc_Start (os_Rename backup live
        (afterStarts live staged backup (atSwap service w))).2).2).2).2.log
        = (atSwap service w).log ++ [Event.rename live backup, Event.rename staged live,
            Event.ctxErr false, Event.start (some e1),
            Event.ctxErr false, Event.start (some e2),
            Event.rename backup live,
            Event.start (os_Rename backup live
              (afterStarts live staged backup (atSwap service w))).2.nextStart,
            Event.close (srvc_Start (os_Rename backup live
              (afterStarts live staged backup (atSwap service w))).2).2.nextMgr,
            Event.disconnect (srvc_Close (srvc_Start (os_Rename backup live
              (afterStarts live staged backup (atSwap service w))).2).2).2.nextMgr] := by
      simp [os_Rename_log, hlog5]
    refine ⟨?_, ⟨_, _, _, eventsSince_of_log _ _ _ hlog⟩, ?_, errsCombine_ne_none _ _⟩
    · rw [startCount_since_atSwap service w _ _ hlog]
      simp [startCount, List.filter_cons]
    · simp only [mgr_Disconnect_fs, srvc_Close_fs, srvc_Start_fs]
      rw [os_Rename_new_of_ok _ _ _ h3, hfs5]
  · intro rerr h3
    have hsw : swapAndStart live staged backup (atSwap service w)
        = (errsCombine [some (Error.errno "Start" e2), some rerr],
            (os_Rename backup live
              (afterStarts live staged backup (atSwap service w))).2) := by
      rw [swapAndStart_eq, hsub2]
      simp only [hret2]
      unfold afterStarts at h3
      simp only [h3]
      rfl
    rw [hres, hsw]
    have hlog : (mgr_Disconnect (srvc_Close (os_Rename backup live
        (afterStarts live staged backup (atSwap service w))).2).2).2.log
        = (atSwap service w).log ++ [Event.rename live backup, Event.rename staged live,
            Event.ctxErr false, Event.start (some e1),
            Event.ctxErr false, Event.start (some e2),
            Event.rename backup live,
            Event.close (os_Rename backup live
              (afterStarts live staged backup (atSwap service w))).2.nextMgr,
            Event.disconnect (srvc_Close (os_Rename backup live
              (afterStarts live staged backup (atSwap service w))).2).2.nextMgr] := by
      simp [os_Rename_log, hlog5]
    refine ⟨?_, ⟨_, _, eventsSince_of_log _ _ _ hlog⟩, rfl⟩
    rw [startCount_since_atSwap service w _ _ hlog]
    simp [startCount, List.filter_cons]

/-- C17, amended, at the sample service where Start fails twice and the restore
rename is let through: a third Start, and the old binary at sn.exe. -/
theorem start_failure_fallback_witness :
    startCount (eventsSince (sampleService [.ok .Stopped] [some 5, some 6] [] [])
      (Windows.restartService "storagenode" "sn.exe" "sn.v2.exe" "sn.old.exe"
        (sampleService [.ok .Stopped] [some 5, some 6] [] [])).2) = 3 ∧
    (Windows.restartService "storagenode" "sn.exe" "sn.v2.exe" "sn.old.exe"
      (sampleService [.ok .Stopped] [some 5, some 6] [] [])).2.fs "sn.exe"
      = (sampleService [.ok .Stopped] [some 5, some 6] [] []).fs "sn.exe" :=
  have h := (start_failure_fallback "storagenode" "sn.exe" "sn.v2.exe" "sn.old.exe"
    (sampleService [.ok .Stopped] [some 5, some 6] [] []) 5 6 []
    (by decide) (by decide) rfl rfl rfl rfl rfl (by decide) rfl).1 rfl
  ⟨h.1, h.2.2.1⟩

/-! ## C18: the error returned when the start attempts fail -/

/-- C18. After a successful swap, when the start loop returns the error err
(every attempt failed), restartService returns an error, never nil: the group of
err and the rename error when the restore rename fails; err itself when the
restore rename succeeds and the final Start succeeds; the group of err and the
Start error when the final Start fails too. -/
theorem start_failure_is_reported (service : String) (live staged backup : Path) (w : World)
    (err : Error)
    (hconn : (mgr_Connect w).1 = none)
    (hopen : (mgr_OpenService service (mgr_Connect w).2).1 = none)
    (hstop : (stopService (atStop service w)).1 = none)
    (h1 : (os_Rename live backup (atSwap service w)).1 = none)
    (h2 : (os_Rename staged live (os_Rename live backup (atSwap service w)).2).1 = none)
    (hfail : (retry 2 startAttempt (afterSwap live staged backup (atSwap service w))).1
      = some err) :
    (Windows.restartService service live staged backup w).1 ≠ none ∧
    (∀ rerr,
      (os_Rename backup live (afterStarts live staged backup (atSwap service w))).1
        = some rerr →
      (Windows.restartService service live staged backup w).1
        = some (Error.group [err, rerr])) ∧
    ((os_Rename backup live (afterStarts live staged backup (atSwap service w))).1 = none →
      ((srvc_Start (os_Rename backup live
          (afterStarts live staged backup (atSwap service w))).2).1 = none →
        (Windows.restartService service live staged backup w).1 = some err) ∧
      (∀ e3, (srvc_Start (os_Rename backup live
          (afterStarts live staged backup (atSwap service w))).2).1 = some e3 →
        (Windows.restartService service live staged backup w).1
          = some (Error.group [err, e3]))) := by
  have hsub : substituteWithRecovery live backup staged (atSwap service w)
      = ((false, none), afterSwap live staged backup (atSwap service w)) := by
    rw [substituteWithRecovery_eq]
    simp only [h1, h2]
    rfl
  have hres := Windows.restartService_of_open service live staged backup w hconn hopen
  simp only [hstop] at hres
  have hsw := swapAndStart_eq live staged backup (atSwap service w)
  rw [hsub] at hsw
  simp only [hfail] at hsw
  rw [hres]
  rcases h3 : (os_Rename backup live (afterStarts live staged backup (atSwap service w))).1
    with _ | rerr
  · have h3b : (os_Rename backup live
        (retry 2 startAttempt (afterSwap live staged backup (atSwap service w))).2).1
        = none := h3
    simp only [h3b] at hsw
    rw [hsw]
    refine ⟨?_, fun rerr h => by simp at h, fun _ => ⟨?_, ?_⟩⟩
    · dsimp only
      exact errsCombine_ne_none _ _
    · intro h4
      show errsCombine _ = _
      have h4b : (srvc_Start (os_Rename backup live
          (retry 2 startAttempt (afterSwap live staged backup (atSwap service w))).2).2).1
          = none := h4
      rw [h4b]; rfl
    · intro e3 h4
      show errsCombine _ = _
      have h4b : (srvc_Start (os_Rename backup live
          (retry 2 startAttempt (afterSwap live staged backup (atSwap service w))).2).2).1
          = some e3 := h4
      rw [h4b]; rfl
  · have h3b : (os_Rename backup live
        (retry 2 startAttempt (afterSwap live staged backup (atSwap service w))).2).1
        = some rerr := h3
    simp only [h3b] at hsw
    rw [hsw]
    refine ⟨?_, fun r h => ?_, fun h => by simp at h⟩
    · dsimp only
      exact errsCombine_ne_none _ _
    · rw [Option.some.inj h]
      rfl

/-- C18 at the sample service where Start fails twice and then succeeds on
the restored binary: the error of the second Start is returned. -/
theorem start_failure_is_reported_witness :
    (Windows.restartService "storagenode" "sn.exe" "sn.v2.exe" "sn.old.exe"
      (sampleService [.ok .Stopped] [some 5, some 6] [] [])).1
      = some (Error.errno "Start" 6) :=
  ((start_failure_is_reported "storagenode" "sn.exe" "sn.v2.exe" "sn.old.exe"
    (sampleService [.ok .Stopped] [some 5, some 6] [] []) (Error.errno "Start" 6)
    rfl rfl rfl rfl rfl rfl).2.2 rfl).1 rfl

/-! ## C19: cancellation in the start loop -/

/-- C19. In the start loop of restartService, `retry` over the start attempt,
at every attempt (whatever the number of attempts left and the error so far):
when the context is found canceled, the loop returns the error of the context
at once, and that look is its only event, so Start is not called and no further
attempt is made; when the context is live, the look at the context is followed
by the Start call.  The events of a whole loop are attempts made of a look that
finds the context live and a Start, all but the last Start failing, possibly
ended by one look that finds the context canceled. -/
theorem start_loop_cancellation (count : Nat) (prev : Option Error) (w : World) :
    (w.nextCancel = true →
      retryFrom startAttempt (count + 1) prev w = (some Error.canceled, (ctx_Err w).2) ∧
      eventsSince w (retryFrom startAttempt (count + 1) prev w).2 = [Event.ctxErr true]) ∧
    (w.nextCancel = false →
      ∃ rest, eventsSince w (retryFrom startAttempt (count + 1) prev w).2
        = Event.ctxErr false :: Event.start (ctx_Err w).2.nextStart :: rest) ∧
    (∃ rs tail,
      eventsSince w (retry count startAttempt w).2 = startRounds rs ++ tail ∧
      rs.length ≤ count ∧ (∀ r ∈ rs.dropLast, r ≠ none) ∧
      (tail = [] ∨
        (tail = [Event.ctxErr true] ∧ rs.length < count ∧ (∀ r ∈ rs, r ≠ none) ∧
          (retry count startAttempt w).1 = some Error.canceled))) := by
  refine ⟨fun hc => ?_, fun hc => ?_, ?_⟩
  · have heq : retryFrom startAttempt (count + 1) prev w
        = (some Error.canceled, (ctx_Err w).2) := by
      rw [retryFrom_succ, if_pos hc]
    refine ⟨heq, ?_⟩
    rw [heq]
    exact eventsSince_of_log _ _ _ (by simp [hc])
  · rw [retryFrom_succ, if_neg (by simp [hc])]
    rcases hst : (ctx_Err w).2.nextStart with _ | errno
    · exact ⟨[], eventsSince_of_log _ _ _ (by simp [hc, hst])⟩
    · simp only
      obtain ⟨rs, tail, hlog, _⟩ := retryFrom_shape count
        (some (Error.errno "Start" errno)) (srvc_Start (ctx_Err w).2).2
      refine ⟨startRounds rs ++ tail, eventsSince_of_log _ _ _ ?_⟩
      rw [hlog]
      simp [hc, hst]
  · obtain ⟨rs, tail, hlog, hlen, hfail, htail⟩ := retryFrom_shape count none w
    refine ⟨rs, tail, eventsSince_of_log _ _ _ ?_, hlen, hfail, htail⟩
    unfold retry
    rw [hlog, List.append_assoc]

/-- C19 at the sample service with a context found canceled at the second
attempt, after a first Start that failed. -/
theorem start_loop_cancellation_witness :
    retryFrom startAttempt 1 (some (Error.errno "Start" 5))
        (srvc_Start (ctx_Err (sampleService [] [some 5, some 6] [] [false, true])).2).2
      = (some Error.canceled,
          (ctx_Err (srvc_Start
            (ctx_Err (sampleService [] [some 5, some 6] [] [false, true])).2).2).2) ∧
    eventsSince (srvc_Start (ctx_Err (sampleService [] [some 5, some 6] [] [false, true])).2).2
        (retryFrom startAttempt 1 (some (Error.errno "Start" 5))
          (srvc_Start (ctx_Err (sampleService [] [some 5, some 6] [] [false, true])).2).2).2
      = [Event.ctxErr true] :=
  (start_loop_cancellation 0 (some (Error.errno "Start" 5))
    (srvc_Start (ctx_Err (sampleService [] [some 5, some 6] [] [false, true])).2).2).1 rfl

/-! ## C20: the polling loop -/

/-- The polling loop as `serviceControl` and `serviceWaitForState` run it, from
the status their first call returned: its events round by round, how it ended,
and the last status seen when it returns nil. -/
theorem pollLoop_full (state : SvcState) (timeout : Option Nat) (status : SvcState)
    (w : World) :
    ∃ rounds tail,
      (pollLoop state timeout (w.clock.length + 1) status w).2.log
        = w.log ++ (pollRounds rounds ++ tail) ∧
      (∀ tr ∈ rounds, timeBefore timeout tr.1 = false) ∧
      ((tail = [] ∧ ((pollLoop state timeout (w.clock.length + 1) status w).1 = none ∨
          ∃ errno, (pollLoop state timeout (w.clock.length + 1) status w).1
            = some (Error.errno "Query" errno))) ∨
       (tail = [Event.ctxErr true] ∧
          (pollLoop state timeout (w.clock.length + 1) status w).1 = some Error.canceled) ∨
       (∃ t, tail = [Event.ctxErr false, Event.now t] ∧ timeBefore timeout t = true ∧
          (pollLoop state timeout (w.clock.length + 1) status w).1
            = some (Error.msg "timeout"))) ∧
      ((pollLoop state timeout (w.clock.length + 1) status w).1 = none →
        (status :: observed (pollRounds rounds ++ tail)).getLast? = some state) := by
  obtain ⟨rounds, tail, hlog, hrounds, hres⟩ :=
    pollLoop_shape state timeout (w.clock.length + 1) status w (Nat.lt_succ_self _)
  obtain ⟨polls, hlog2, _, _, hlast⟩ :=
    pollLoop_events state timeout (w.clock.length + 1) status w
  have heq : polls = pollRounds rounds ++ tail := by
    rw [hlog, List.append_assoc] at hlog2
    exact (List.append_cancel_left hlog2).symm
  refine ⟨rounds, tail, by rw [hlog, List.append_assoc], hrounds, hres, ?_⟩
  rw [← heq]
  exact hlast

/-- C20. The loop of serviceControl and serviceWaitForState, at every round
where the last status seen differs from the awaited one: a context found
canceled ends the loop on the error of the context, before the clock is read
and before any query; a clock found past the deadline ends it on a timeout
error, before any query; otherwise the query follows the look at the context
and the reading of the clock.  For each of the two functions, after its first
call the events are such rounds (context live, clock not past the deadline,
query), ended by nothing more, by a look that finds the context canceled (the
result is the error of the context) or by a reading past the deadline (the
result is a timeout); and the result is nil only when the last status seen is
the awaited one. -/
theorem polling_checks (cmd : Cmd) (state : SvcState) (timeout : Option Nat) (fuel : Nat)
    (status : SvcState) (w : World) :
    (status ≠ state →
      (w.nextCancel = true →
        pollLoop state timeout (fuel + 1) status w = (some Error.canceled, (ctx_Err w).2) ∧
        eventsSince w (pollLoop state timeout (fuel + 1) status w).2 = [Event.ctxErr true]) ∧
      (w.nextCancel = false → timeBefore timeout w.clock.head? = true →
        pollLoop state timeout (fuel + 1) status w
          = (some (Error.msg "timeout"), (time_Now (ctx_Err w).2).2) ∧
        eventsSince w (pollLoop state timeout (fuel + 1) status w).2
          = [Event.ctxErr false, Event.now w.clock.head?]) ∧
      (w.nextCancel = false → timeBefore timeout w.clock.head? = false →
        ∃ rest, eventsSince w (pollLoop state timeout (fuel + 1) status w).2
          = Event.ctxErr false :: Event.now w.clock.head?
            :: Event.query (time_Now (ctx_Err w).2).2.nextReply :: rest)) ∧
    ((srvc_Control cmd w).1 = .ok status →
      ∃ rounds tail,
        eventsSince w (serviceControl cmd state timeout w).2
          = Event.control cmd (.ok status) :: (pollRounds rounds ++ tail) ∧
        (∀ tr ∈ rounds, timeBefore timeout tr.1 = false) ∧
        ((tail = [] ∧ ((serviceControl cmd state timeout w).1 = none ∨
            ∃ errno, (serviceControl cmd state timeout w).1
              = some (Error.errno "Query" errno))) ∨
         (tail = [Event.ctxErr true] ∧
            (serviceControl cmd state timeout w).1 = some Error.canceled) ∨
         (∃ t, tail = [Event.ctxErr false, Event.now t] ∧ timeBefore timeout t = true ∧
            (serviceControl cmd state timeout w).1 = some (Error.msg "timeout"))) ∧
        ((serviceControl cmd state timeout w).1 = none →
          (observed (eventsSince w (serviceControl cmd state timeout w).2)).getLast?
            = some state)) ∧
    ((srvc_Query w).1 = .ok status →
      ∃ rounds tail,
        eventsSince w (serviceWaitForState state timeout w).2
          = Event.query (.ok status) :: (pollRounds rounds ++ tail) ∧
        (∀ tr ∈ rounds, timeBefore timeout tr.1 = false) ∧
        ((tail = [] ∧ ((serviceWaitForState state timeout w).1 = none ∨
            ∃ errno, (serviceWaitForState state timeout w).1
              = some (Error.errno "Query" errno))) ∨
         (tail = [Event.ctxErr true] ∧
            (serviceWaitForState state timeout w).1 = some Error.canceled) ∨
         (∃ t, tail = [Event.ctxErr false, Event.now t] ∧ timeBefore timeout t = true ∧
            (serviceWaitForState state timeout w).1 = some (Error.msg "timeout"))) ∧
        ((serviceWaitForState state timeout w).1 = none →
          (observed (eventsSince w (serviceWaitForState state timeout w).2)).getLast?
            = some state)) := by
  refine ⟨fun hs => ⟨fun hc => ?_, fun hc hb => ?_, fun hc hb => ?_⟩, fun hq => ?_, fun hq => ?_⟩
  · have heq : pollLoop state timeout (fuel + 1) status w
        = (some Error.canceled, (ctx_Err w).2) := by
      rw [pollLoop_succ, if_neg hs, if_pos hc]
    refine ⟨heq, ?_⟩
    rw [heq]
    exact eventsSince_of_log _ _ _ (by simp [hc])
  · have heq : pollLoop state timeout (fuel + 1) status w
        = (some (Error.msg "timeout"), (time_Now (ctx_Err w).2).2) := by
      rw [pollLoop_succ, if_neg hs, if_neg (by simp [hc]), if_pos hb]
    refine ⟨heq, ?_⟩
    rw [heq]
    exact eventsSince_of_log _ _ _ (by simp [hc])
  · rw [pollLoop_succ, if_neg hs, if_neg (by simp [hc]), if_neg (by simp [hb])]
    rcases hq : (srvc_Query (time_Now (ctx_Err w).2).2).1 with e | s2
    · exact ⟨[], eventsSince_of_log _ _ _ (by simp [hc])⟩
    · simp only
      obtain ⟨polls, hlog, _⟩ := pollLoop_events state timeout fuel s2
        (srvc_Query (time_Now (ctx_Err w).2).2).2
      refine ⟨polls, eventsSince_of_log _ _ _ ?_⟩
      rw [hlog]
      simp [hc]
  · have hr := srvc_Control_ok cmd w status hq
    obtain ⟨rounds, tail, hlog, hrounds, hres, hlast⟩ :=
      pollLoop_full state timeout status (srvc_Control cmd w).2
    have heq : serviceControl cmd state timeout w
        = pollLoop state timeout ((srvc_Control cmd w).2.clock.length + 1) status
            (srvc_Control cmd w).2 := by
      rw [serviceControl_eq, hq]
    have hev : eventsSince w (serviceControl cmd state timeout w).2
        = Event.control cmd (.ok status) :: (pollRounds rounds ++ tail) := by
      rw [heq]
      exact eventsSince_of_log _ _ _ (by rw [hlog]; simp [hr])
    rw [hev]
    rw [heq]
    refine ⟨rounds, tail, rfl, hrounds, hres, fun hnil => ?_⟩
    have := hlast hnil
    simpa [observed] using this
  · have hr := srvc_Query_ok w status hq
    obtain ⟨rounds, tail, hlog, hrounds, hres, hlast⟩ :=
      pollLoop_full state timeout status (srvc_Query w).2
    have heq : serviceWaitForState state timeout w
        = pollLoop state timeout ((srvc_Query w).2.clock.length + 1) status
            (srvc_Query w).2 := by
      rw [serviceWaitForState_eq, hq]
    have hev : eventsSince w (serviceWaitForState state timeout w).2
        = Event.query (.ok status) :: (pollRounds rounds ++ tail) := by
      rw [heq]
      exact eventsSince_of_log _ _ _ (by rw [hlog]; simp [hr])
    rw [hev]
    rw [heq]
    refine ⟨rounds, tail, rfl, hrounds, hres, fun hnil => ?_⟩
    have := hlast hnil
    simpa [observed] using this

/-- C20 at the sample service that is still stopping when the clock reads 11
seconds against a deadline of 10: the loop ends on a timeout after the look at
the context and the reading of the clock, without a query. -/
theorem polling_checks_witness :
    pollLoop .Stopped (some (second * 10)) 1 .StopPending
        (time_Now (sampleLate [.ok .StopPending] [])).2
      = (some (Error.msg "timeout"),
          (time_Now (ctx_Err (time_Now (sampleLate [.ok .StopPending] [])).2).2).2) ∧
    eventsSince (time_Now (sampleLate [.ok .StopPending] [])).2
        (pollLoop .Stopped (some (second * 10)) 1 .StopPending
          (time_Now (sampleLate [.ok .StopPending] [])).2).2
      = [Event.ctxErr false, Event.now (some (11 * second))] :=
  ((polling_checks .Stop .Stopped (some (second * 10)) 0 .StopPending
    (time_Now (sampleLate [.ok .StopPending] [])).2).1 (by decide)).2.1 rfl (by decide)

/-! ## C21: the cycle reports success -/

/-- C21. Whatever the version server answers and whatever the two update
attempts return, the cycle returns nil: the closure loopFunc of cmd.go and the
loopFunc of loop_windows.go. -/
theorem cycle_returns_nil (d : Deps) (ds : SelfDeps) (restart : Restart) (cfg : RunCfg)
    (args0 : Path) (all : Except Error AllProcesses) (w : World) :
    (loopFunc d restart cfg args0 all w).1 = none ∧
    (Windows.loopFunc ds restart cfg args0 all w).1 = none := by
  constructor
  · unfold loopFunc
    cases all <;> rfl
  · unfold Windows.loopFunc
    cases all <;> rfl

/-! ## C22: order and isolation of the two attempts -/

/-- Logging a failure leaves the file system alone. -/
theorem logIfError_fs (msg : String) (r : Option Error × World) :
    (logIfError msg r).fs = r.2.fs := by
  unfold logIfError
  split <;> rfl

/-- C22. When the version query succeeds, the cycle runs the update of the
managed service once and then, from the world that attempt left (with its
failure logged, if it failed), the update of the updater once: the final world
is the one the second attempt left, whatever the first attempt returned; a
failed attempt only adds its error message to the log.  When
the version query fails, no update is attempted: the cycle only logs, whatever
the environment of the updates is, and the file system is as it was. -/
theorem cycle_order_and_isolation (d : Deps) (ds : SelfDeps) (restart : Restart) (cfg : RunCfg)
    (args0 : Path) (w : World) :
    (∀ a : AllProcesses,
      (loopFunc d restart cfg args0 (.ok a) w).2
        = logIfError ("Error updating " ++ updaterServiceName)
            (update d restart updaterServiceName args0 a.storagenodeUpdater
              (logIfError ("Error updating " ++ cfg.serviceName)
                (update d restart cfg.serviceName cfg.binaryLocation a.storagenode
                  (w.note .versionQuery)))) ∧
      (Windows.loopFunc ds restart cfg args0 (.ok a) w).2
        = logIfError "Error updating service."
            (updateSelf ds args0 a.storagenodeUpdater
              (logIfError "Error updating service."
                (update ds.toDeps restart cfg.serviceName cfg.binaryLocation a.storagenode
                  ((w.note (.info "Downloading versions.")).note .versionQuery))))) ∧
    (∀ (msg : String) (r : Option Error × World),
      (logIfError msg r).fs = r.2.fs ∧
      (logIfError msg r).faults = r.2.faults ∧
      (r.1 = none → logIfError msg r = r.2) ∧
      (r.1 ≠ none → (logIfError msg r).log = r.2.log ++ [Event.logError msg])) ∧
    (∀ (e : Error),
      (loopFunc d restart cfg args0 (.error e) w).2.log
        = w.log ++ [Event.versionQuery, Event.logError "Error retrieving version info"] ∧
      (loopFunc d restart cfg args0 (.error e) w).2.fs = w.fs ∧
      (∀ (d2 : Deps) (restart2 : Restart),
        loopFunc d2 restart2 cfg args0 (.error e) w
          = loopFunc d restart cfg args0 (.error e) w) ∧
      (Windows.loopFunc ds restart cfg args0 (.error e) w).2.log
        = w.log ++ [Event.info "Downloading versions.", Event.versionQuery,
            Event.logError "Error retrieving version info."] ∧
      (Windows.loopFunc ds restart cfg args0 (.error e) w).2.fs = w.fs ∧
      (∀ (ds2 : SelfDeps) (restart2 : Restart),
        Windows.loopFunc ds2 restart2 cfg args0 (.error e) w
          = Windows.loopFunc ds restart cfg args0 (.error e) w)) := by
  refine ⟨fun a => ⟨rfl, rfl⟩, fun msg r => ?_, fun e => ?_⟩
  · refine ⟨logIfError_fs _ _, ?_, ?_, ?_⟩
    · unfold logIfError; split <;> rfl
    · intro h; unfold logIfError; rw [h]
    · intro h
      obtain ⟨e, he⟩ := Option.ne_none_iff_exists'.mp h
      unfold logIfError; rw [he]; rfl
  · refine ⟨?_, rfl, fun _ _ => rfl, ?_, rfl, fun _ _ => rfl⟩
    · simp [loopFunc, World.note]
    · simp [Windows.loopFunc, World.note]

/-- C22 at the sample environment, where the rename of the storage node is
refused: the failure is logged and the update of the updater still runs. -/
theorem cycle_order_and_isolation_witness :
    (loopFunc sampleDeps restartService sampleCfg "up.exe" (.ok sampleAll)
      (sampleWorld [none, some 13])).2.log
      = [Event.versionQuery, Event.rolloutCheck,
          Event.download "https://example.test/sn" "sn.v1.3.0.exe",
          Event.info "Restarting service storagenode",
          Event.rename "sn.exe" "sn.old.v1.2.0.exe",
          Event.logError "Error updating storagenode",
          Event.info "storagenode-updater version is up to date"] :=
  (congrArg World.log ((cycle_order_and_isolation sampleDeps sampleSelfDeps restartService
    sampleCfg "up.exe" (sampleWorld [none, some 13])).1 sampleAll).1).trans (by decide)

/-! ## C23: the schedule -/

/-- C23. The schedule as a function of the configured interval i: one cycle
and no scheduler when i is at most 0; the scheduler with one minute when i is
positive and under one minute; the scheduler with i when i is at least one
minute; so for positive i the scheduler runs with the larger of i and one
minute.  Ten seconds become one minute and 0 gives one cycle. -/
theorem schedule_of_interval (i : Int) :
    (i ≤ 0 → cmdRunSchedule i = .once) ∧
    (0 < i → i < minCheckInterval → cmdRunSchedule i = .cycle minCheckInterval) ∧
    (minCheckInterval ≤ i → cmdRunSchedule i = .cycle i) ∧
    (0 < i → cmdRunSchedule i = .cycle (max i minCheckInterval)) ∧
    cmdRunSchedule (10 * second) = .cycle (60 * second) ∧
    cmdRunSchedule 0 = .once := by
  have hmin : (0 : Int) < minCheckInterval := by decide
  refine ⟨fun h => ?_, fun h1 h2 => ?_, fun h => ?_, fun h => ?_, by decide, by decide⟩
  · simp [cmdRunSchedule, h]
  · simp [cmdRunSchedule, not_le.mpr h1, h2]
  · have h0 : ¬ i ≤ 0 := by omega
    have h1 : ¬ i < minCheckInterval := by omega
    simp [cmdRunSchedule, h0, h1]
  · have h0 : ¬ i ≤ 0 := by omega
    by_cases h1 : i < minCheckInterval
    · simp [cmdRunSchedule, h0, h1, max_eq_right (le_of_lt h1)]
    · simp [cmdRunSchedule, h0, h1, max_eq_left (not_lt.mp h1)]

/-- C23 at an interval of 30 seconds. -/
theorem schedule_of_interval_witness :
    cmdRunSchedule (30 * second) = .cycle minCheckInterval :=
  (schedule_of_interval (30 * second)).2.1 (by decide) (by decide)

/-! ## C24: restartService without a service manager and the substitution -/

/-- C24. For three different paths and every pattern of failures, the
restartService of restart.go and substituteWithRecovery leave the same content
at the live and at the backup path, and the one returns an error exactly when
the other does. -/
theorem standalone_refines_substitute (service : String) (live staged backup : Path)
    (w : World) (hSL : staged ≠ live) (hSB : staged ≠ backup) :
    (restartService service live staged backup w).2.fs live
      = (substituteWithRecovery live backup staged w).2.fs live ∧
    (restartService service live staged backup w).2.fs backup
      = (substituteWithRecovery live backup staged w).2.fs backup ∧
    ((restartService service live staged backup w).1 = none ↔
      (substituteWithRecovery live backup staged w).1.2 = none) := by
  rw [restartService_eq, substituteWithRecovery_eq]
  rcases h1 : (os_Rename live backup w).1 with _ | e1
  · rcases h2 : (os_Rename staged live (os_Rename live backup w).2).1 with _ | e2
    · exact ⟨rfl, rfl, Iff.rfl⟩
    · have hne : errsCombine [some e2,
          (os_Rename backup live (os_Rename staged live (os_Rename live backup w).2).2).1,
          (os_Remove staged (os_Rename backup live
            (os_Rename staged live (os_Rename live backup w).2).2).2).1] ≠ none :=
        errsCombine_ne_none _ _
      rcases h3 : (os_Rename backup live
          (os_Rename staged live (os_Rename live backup w).2).2).1 with _ | e3
      · refine ⟨?_, ?_, ?_⟩
        · exact os_Remove_other _ _ _ (Ne.symm hSL)
        · exact os_Remove_other _ _ _ (Ne.symm hSB)
        · rw [h3] at hne
          simp only
          rw [errsWrap_of_rename _ _ _ _ h2]
          exact ⟨fun h => absurd h hne, fun h => by simp at h⟩
      · refine ⟨?_, ?_, ?_⟩
        · exact os_Remove_other _ _ _ (Ne.symm hSL)
        · exact os_Remove_other _ _ _ (Ne.symm hSB)
        · rw [h3] at hne
          simp only
          exact ⟨fun h => absurd h hne, fun h => absurd h (errsCombine_ne_none _ _)⟩
  · exact ⟨rfl, rfl, Iff.rfl⟩

/-- C24 at the sample world with the staged-to-live rename refused. -/
theorem standalone_refines_substitute_witness :
    (restartService "storagenode" "sn.exe" "sn.v2.exe" "sn.old.exe"
        (sampleWorld [none, some 13])).2.fs "sn.exe"
      = (substituteWithRecovery "sn.exe" "sn.old.exe" "sn.v2.exe"
          (sampleWorld [none, some 13])).2.fs "sn.exe" ∧
    (restartService "storagenode" "sn.exe" "sn.v2.exe" "sn.old.exe"
        (sampleWorld [none, some 13])).2.fs "sn.old.exe"
      = (substituteWithRecovery "sn.exe" "sn.old.exe" "sn.v2.exe"
          (sampleWorld [none, some 13])).2.fs "sn.old.exe" :=
  have h := standalone_refines_substitute "storagenode" "sn.exe" "sn.v2.exe" "sn.old.exe"
    (sampleWorld [none, some 13]) (by decide) (by decide)
  ⟨h.1, h.2.1⟩

/-! ## C29: fileExists -/

/-- C29: the code at the failing input.  When `os.Stat` fails with another
error than not-exist, here a refused access, it returns no file information,
and fileExists panics on `info.Mode()` instead of returning false.  On the other
outcomes it does what the claim says: false for a missing file, and for a file
that was found whether it is a regular one. -/
theorem fileExists_panics_on_other_errors (filename : Path) (info : FileInfo) :
    fileExists (none, some (Error.path "stat" filename EACCES))
      = .error "invalid memory address or nil pointer dereference" ∧
    fileExists (none, some (Error.path "stat" filename ENOENT)) = .ok false ∧
    fileExists (some info, none) = .ok info.isRegular := by
  refine ⟨rfl, rfl, rfl⟩

/-! ## C30: TransactionIDList.String -/

/-- The joined ids of a list with a head and a non-empty rest. -/
theorem joinIds_cons (sep : String) (a : TransactionID) (rest : List TransactionID)
    (h : rest ≠ []) : joinIds sep (a :: rest) = a ++ sep ++ joinIds sep rest := by
  cases rest with
  | nil => exact absurd rfl h
  | cons b r => rfl

/-- The loop of TransactionIDList.String over the middle ids, followed by the
last id, from what the builder holds. -/
theorem foldl_middle (mid : List TransactionID) :
    ∀ (acc z : String),
      (mid.foldl (fun b id => (b ++ id) ++ "|") acc) ++ z = acc ++ joinIds "|" (mid ++ [z]) := by
  induction mid with
  | nil => intro acc z; rfl
  | cons m rest ih =>
    intro acc z
    rw [List.foldl_cons, ih, List.cons_append, joinIds_cons _ _ _ (by simp)]
    simp only [String.append_assoc]

/-- The joined ids are what `strings.Join` gives. -/
theorem joinIds_eq_intercalate (sep : String) (list : List TransactionID) :
    joinIds sep list = sep.intercalate list := by
  have hgo : ∀ (l : List String) (acc : String),
      String.intercalate.go acc sep l = acc ++ (if l = [] then "" else sep ++ joinIds sep l) := by
    intro l
    induction l with
    | nil => intro acc; simp [String.intercalate.go]
    | cons a rest ih =>
      intro acc
      rw [String.intercalate.go, ih]
      by_cases hr : rest = []
      · subst hr
        simp [joinIds, String.append_assoc]
      · rw [joinIds_cons _ _ _ hr]
        simp [hr, String.append_assoc]
  cases list with
  | nil => rfl
  | cons a rest =>
    rw [String.intercalate, hgo]
    by_cases hr : rest = []
    · subst hr; simp [joinIds]
    · rw [joinIds_cons _ _ _ hr]
      simp [hr, String.append_assoc]

/-- C30. For every list of ids TransactionIDList.String is the ids joined with
"|": the ids in order with one "|" between consecutive ids and none at the
start or the end, which is what strings.Join gives; the empty list gives "" and
a list of one id gives that id. -/
theorem transaction_ids_joined (list : List TransactionID) (id : TransactionID) :
    TransactionIDList.String list = joinIds "|" list ∧
    TransactionIDList.String list = "|".intercalate list ∧
    TransactionIDList.String [] = "" ∧
    TransactionIDList.String [id] = id := by
  have hjoin : TransactionIDList.String list = joinIds "|" list := by
    cases list with
    | nil => rfl
    | cons a rest =>
      rcases List.eq_nil_or_concat rest with hr | ⟨mid, z, hr⟩
      · subst hr; rfl
      · rw [List.concat_eq_append] at hr
        subst hr
        have hlen : (a :: (mid ++ [z])).length = mid.length + 2 := by simp
        unfold TransactionIDList.String
        rw [hlen]
        simp only [Nat.add_eq_zero, OfNat.ofNat_ne_zero, and_false, if_false,
          Nat.reduceEqDiff, List.headD_cons, Nat.add_one_sub_one, Nat.reduceAdd]
        have htake : ((a :: (mid ++ [z])).take (mid.length + 1)).drop 1 = mid := by
          simp [List.take_append_eq_append_take]
        have hlast : (a :: (mid ++ [z])).getLastD "" = z := by
          rw [← List.cons_append, List.getLastD_concat]
        rw [htake, hlast, foldl_middle, joinIds_cons _ _ _ (by simp)]
        simp [String.append_assoc]
  exact ⟨hjoin, by rw [hjoin, joinIds_eq_intercalate], rfl, rfl⟩

/-! ## C25: the backup path -/

/-- The digit characters of the numbers under ten are not dots. -/
theorem digitChar_ne_dot (d : Nat) (h : d < 10) : Nat.digitChar d ≠ '.' := by
  interval_cases d <;> decide

theorem digitChar_inj (a b : Nat) (ha : a < 10) (hb : b < 10)
    (h : Nat.digitChar a = Nat.digitChar b) : a = b := by
  interval_cases a <;> interval_cases b <;> first | rfl | (exact absurd h (by decide))

theorem toDigitsCore_append (fuel : Nat) :
    ∀ (n : Nat) (ds : List Char),
      Nat.toDigitsCore 10 fuel n ds = Nat.toDigitsCore 10 fuel n [] ++ ds := by
  induction fuel with
  | zero => intro n ds; rfl
  | succ k ih =>
    intro n ds
    simp only [Nat.toDigitsCore]
    split
    · rfl
    · rw [ih (n / 10) (Nat.digitChar (n % 10) :: ds), ih (n / 10) [Nat.digitChar (n % 10)]]
      simp

theorem toDigitsCore_fuel (f1 : Nat) :
    ∀ (f2 n : Nat) (ds : List Char), n < f1 → n < f2 →
      Nat.toDigitsCore 10 f1 n ds = Nat.toDigitsCore 10 f2 n ds := by
  induction f1 with
  | zero => intro f2 n ds h; exact absurd h (Nat.not_lt_zero _)
  | succ k ih =>
    intro f2 n ds h1 h2
    cases f2 with
    | zero => exact absurd h2 (Nat.not_lt_zero _)
    | succ m =>
      simp only [Nat.toDigitsCore]
      split
      · rfl
      · next hne =>
        have hlt : n / 10 < n := Nat.div_lt_self (by omega) (by decide)
        exact ih m (n / 10) _ (by omega) (by omega)

theorem toDigits_small (n : Nat) (h : n < 10) : Nat.toDigits 10 n = [Nat.digitChar n] := by
  unfold Nat.toDigits
  simp only [Nat.toDigitsCore]
  have h0 : n / 10 = 0 := by omega
  have h1 : n % 10 = n := by omega
  simp [h0, h1]

theorem toDigits_big (n : Nat) (h : 10 ≤ n) :
    Nat.toDigits 10 n = Nat.toDigits 10 (n / 10) ++ [Nat.digitChar (n % 10)] := by
  have h0 : n / 10 ≠ 0 := by omega
  have hlt : n / 10 < n := Nat.div_lt_self (by omega) (by decide)
  have hL : Nat.toDigitsCore 10 (n + 1) n []
      = Nat.toDigitsCore 10 n (n / 10) [Nat.digitChar (n % 10)] := by
    rw [Nat.toDigitsCore]
    simp only [h0, if_false]
  unfold Nat.toDigits
  rw [hL, toDigitsCore_append,
    toDigitsCore_fuel n (n / 10 + 1) (n / 10) [] hlt (Nat.lt_succ_self _)]

theorem toDigits_ne_nil (n : Nat) : Nat.toDigits 10 n ≠ [] := by
  by_cases h : n < 10
  · rw [toDigits_small n h]; simp
  · rw [toDigits_big n (by omega)]; simp

theorem toDigits_no_dot (n : Nat) : ∀ c ∈ Nat.toDigits 10 n, c ≠ '.' := by
  induction n using Nat.strong_induction_on with
  | _ n ih =>
    by_cases h : n < 10
    · rw [toDigits_small n h]
      intro c hc
      rw [List.mem_singleton] at hc
      rw [hc]; exact digitChar_ne_dot n h
    · rw [toDigits_big n (by omega)]
      intro c hc
      rcases List.mem_append.mp hc with hc | hc
      · exact ih (n / 10) (Nat.div_lt_self (by omega) (by decide)) c hc
      · rw [List.mem_singleton] at hc
        rw [hc]; exact digitChar_ne_dot _ (Nat.mod_lt _ (by decide))

theorem toDigits_injective (n : Nat) : ∀ m, Nat.toDigits 10 n = Nat.toDigits 10 m → n = m := by
  induction n using Nat.strong_induction_on with
  | _ n ih =>
    intro m h
    by_cases hn : n < 10
    · by_cases hm : m < 10
      · rw [toDigits_small n hn, toDigits_small m hm] at h
        exact digitChar_inj n m hn hm (by simpa using h)
      · rw [toDigits_small n hn, toDigits_big m (by omega)] at h
        have hl := congrArg List.length h
        have := List.length_pos.mpr (toDigits_ne_nil (m / 10))
        simp only [List.length_append, List.length_cons, List.length_nil] at hl
        omega
    · by_cases hm : m < 10
      · rw [toDigits_big n (by omega), toDigits_small m hm] at h
        have hl := congrArg List.length h
        have := List.length_pos.mpr (toDigits_ne_nil (n / 10))
        simp only [List.length_append, List.length_cons, List.length_nil] at hl
        omega
      · rw [toDigits_big n (by omega), toDigits_big m (by omega)] at h
        have h2 := List.append_inj' h rfl
        have hq := ih (n / 10) (Nat.div_lt_self (by omega) (by decide)) (m / 10) h2.1
        have hr := digitChar_inj (n % 10) (m % 10) (Nat.mod_lt _ (by decide))
          (Nat.mod_lt _ (by decide)) (by simpa using h2.2)
        omega

theorem split_at_dot (l1 : List Char) :
    ∀ (l2 r1 r2 : List Char), (∀ c ∈ l1, c ≠ '.') → (∀ c ∈ l2, c ≠ '.') →
      l1 ++ '.' :: r1 = l2 ++ '.' :: r2 → l1 = l2 ∧ r1 = r2 := by
  induction l1 with
  | nil =>
    intro l2 r1 r2 _ h2 h
    cases l2 with
    | nil => simpa using h
    | cons c l2 =>
      simp only [List.nil_append, List.cons_append, List.cons.injEq] at h
      exact absurd h.1.symm (h2 c (by simp))
  | cons a l1 ih =>
    intro l2 r1 r2 h1 h2 h
    cases l2 with
    | nil =>
      simp only [List.nil_append, List.cons_append, List.cons.injEq] at h
      exact absurd h.1 (h1 a (by simp))
    | cons c l2 =>
      simp only [List.cons_append, List.cons.injEq] at h
      obtain ⟨hl, hr⟩ := ih l2 r1 r2 (fun x hx => h1 x (by simp [hx]))
        (fun x hx => h2 x (by simp [hx])) h.2
      exact ⟨by rw [h.1, hl], hr⟩

/-- Appending to the same string is injective. -/
theorem string_append_left_cancel (a s1 s2 : String) (h : a ++ s1 = a ++ s2) : s1 = s2 := by
  have hd := congrArg String.data h
  simp only [String.data_append] at hd
  exact String.ext (List.append_cancel_left hd)

/-- Different versions are written differently. -/
theorem semVerString_injective (a b : SemVer) (h : a.String = b.String) : a = b := by
  obtain ⟨a1, a2, a3⟩ := a
  obtain ⟨b1, b2, b3⟩ := b
  have hd := congrArg String.data h
  simp only [SemVer.String, String.data_append] at hd
  have hv : ("v" : String).data = ['v'] := rfl
  have hdot : ("." : String).data = ['.'] := rfl
  have hn : ∀ n : Nat, (toString n).data = Nat.toDigits 10 n := fun _ => rfl
  simp only [hv, hdot, hn, List.append_assoc, List.singleton_append, List.cons_append,
    List.nil_append, List.cons.injEq, true_and] at hd
  obtain ⟨h1, hrest⟩ := split_at_dot _ _ _ _ (toDigits_no_dot a1) (toDigits_no_dot b1) hd
  obtain ⟨h2, h3⟩ := split_at_dot _ _ _ _ (toDigits_no_dot a2) (toDigits_no_dot b2) hrest
  rw [toDigits_injective a1 b1 h1, toDigits_injective a2 b2 h2, toDigits_injective a3 b3 h3]

/-- The result of update once the downloaded binary is verified: what
restartService returns on the live path, the staged path and the backup path,
wrapped. -/
theorem update_of_verified (d : Deps) (restart : Restart) (serviceName : String)
    (binaryLocation : Path) (ver : Process) (w : World) (current suggested : SemVer)
    (hs : d.semVer ver.suggested = .ok suggested)
    (hc : currentVersionOf d serviceName binaryLocation w = .ok current)
    (hlt : current.Compare suggested < 0)
    (hr : d.shouldUpdate ver.rollout d.nodeID = true)
    (hdl : (afterDownload d binaryLocation ver (w.note .rolloutCheck)).1 = none)
    (hbv : d.binaryVersion (afterDownload d binaryLocation ver (w.note .rolloutCheck)).2.fs
      (stagedPath d binaryLocation ver) = .ok suggested) :
    update d restart serviceName binaryLocation ver w =
      match restart serviceName binaryLocation (stagedPath d binaryLocation ver)
        (backupPathOf d serviceName binaryLocation current)
        ((afterDownload d binaryLocation ver (w.note .rolloutCheck)).2.note
          (.info ("Restarting service " ++ serviceName))) with
      | (some err, w4) => (errsWrap (some err), w4)
      | (none, w4) =>
        (none, w4.note (.info ("Service " ++ serviceName ++ " restarted successfully"))) := by
  unfold afterDownload stagedPath at hdl hbv ⊢
  unfold backupPathOf
  unfold update
  simp only [hs, hc, not_le.mpr hlt, hr, Bool.not_true, Bool.false_eq_true, if_false]
  rcases hd : downloadBinary d (d.parseDownloadURL ver.suggested.url)
      (d.prependExtension binaryLocation ver.suggested.version) (w.note .rolloutCheck)
    with ⟨_ | derr, w2⟩
  · rw [hd] at hbv
    simp only at hbv ⊢
    rw [hbv]
    simp only [SemVer.Compare_self, ne_eq, not_true_eq_false, if_false]
  · rw [hd] at hdl
    exact absurd hdl (by simp)

/-- C25. The backup path update gives to restartService, once the downloaded
binary is verified, is backupPathOf: for the updater itself
prependExtension(binaryLocation, "old"), the same for every current version;
for another service prependExtension(binaryLocation, "old." + currentVersion),
so that two different current versions give two different backup paths,
prependExtension giving different paths for different extensions. -/
theorem backup_path_naming (d : Deps) (restart : Restart) (serviceName : String)
    (binaryLocation : Path) (ver : Process) (w : World) (current suggested v1 v2 : SemVer) :
    (d.semVer ver.suggested = .ok suggested →
      currentVersionOf d serviceName binaryLocation w = .ok current →
      current.Compare suggested < 0 →
      d.shouldUpdate ver.rollout d.nodeID = true →
      (afterDownload d binaryLocation ver (w.note .rolloutCheck)).1 = none →
      d.binaryVersion (afterDownload d binaryLocation ver (w.note .rolloutCheck)).2.fs
        (stagedPath d binaryLocation ver) = .ok suggested →
      update d restart serviceName binaryLocation ver w =
        match restart serviceName binaryLocation (stagedPath d binaryLocation ver)
          (backupPathOf d serviceName binaryLocation current)
          ((afterDownload d binaryLocation ver (w.note .rolloutCheck)).2.note
            (.info ("Restarting service " ++ serviceName))) with
        | (some err, w4) => (errsWrap (some err), w4)
        | (none, w4) =>
          (none, w4.note (.info ("Service " ++ serviceName ++ " restarted successfully")))) ∧
    backupPathOf d updaterServiceName binaryLocation v1 = d.prependExtension binaryLocation "old" ∧
    backupPathOf d updaterServiceName binaryLocation v1
      = backupPathOf d updaterServiceName binaryLocation v2 ∧
    (serviceName ≠ updaterServiceName →
      backupPathOf d serviceName binaryLocation v1
        = d.prependExtension binaryLocation ("old." ++ v1.String)) ∧
    (serviceName ≠ updaterServiceName →
      Function.Injective (d.prependExtension binaryLocation) → v1 ≠ v2 →
      backupPathOf d serviceName binaryLocation v1
        ≠ backupPathOf d serviceName binaryLocation v2) := by
  refine ⟨fun hs hc hlt hr hdl hbv => update_of_verified d restart serviceName binaryLocation
    ver w current suggested hs hc hlt hr hdl hbv, ?_, ?_, fun hne => ?_, fun hne hinj hv => ?_⟩
  · simp [backupPathOf]
  · simp [backupPathOf]
  · simp [backupPathOf, hne]
  · simp only [backupPathOf, hne, if_false]
    intro h
    exact hv (semVerString_injective _ _ (string_append_left_cancel _ _ _ (hinj h)))

/-- C25 at the sample environment: the update of the storage node from 1.2.0
renames sn.exe to the backup path stamped with that version. -/
theorem backup_path_naming_witness :
    backupPathOf sampleDeps "storagenode" "sn.exe" ⟨1, 2, 0⟩
      = sampleDeps.prependExtension "sn.exe" ("old." ++ SemVer.String ⟨1, 2, 0⟩) ∧
    Event.rename "sn.exe" "sn.old.v1.2.0.exe" ∈
      (update sampleDeps restartService "storagenode" "sn.exe" (sampleProcess [255])
        (sampleWorld [])).2.log :=
  have h := backup_path_naming sampleDeps restartService "storagenode" "sn.exe"
    (sampleProcess [255]) (sampleWorld []) ⟨1, 2, 0⟩ ⟨1, 3, 0⟩ ⟨1, 2, 0⟩ ⟨1, 2, 1⟩
  ⟨h.2.2.2.1 (by decide),
    (congrArg (fun r => Event.rename "sn.exe" "sn.old.v1.2.0.exe" ∈ r.2.log)
      (h.1 rfl rfl (by decide) rfl rfl rfl)).mpr (by decide)⟩

/-! ## C26: the restart sub-command -/

/-- The events of restartSelf: the one spawn of the updater binary. -/
theorem restartSelf_log (bin newbin : Path) (w : World) :
    (restartSelf bin newbin w).2.log = w.log ++ [Event.spawn bin ["restart-service",
      "--binary-location", bin, "--service-name", updaterServiceName, newbin]] := rfl

/-- C26. For every binary location bin and staged path newbin, restartSelf
does one thing: it spawns bin with the argument list ["restart-service",
"--binary-location", bin, "--service-name", "storagenode-updater", newbin].
Every process updateSelf spawns is that one, newbin being the staged path, and
it is spawned only when the suggested version parses and the staged binary,
downloaded without error, reports that very version. -/
theorem restart_subcommand_contract (d : SelfDeps) (bin newbin : Path) (ver : Process)
    (w : World) :
    eventsSince w (restartSelf bin newbin w).2
      = [Event.spawn bin ["restart-service", "--binary-location", bin, "--service-name",
          "storagenode-updater", newbin]] ∧
    (∀ p args, Event.spawn p args ∈ eventsSince w (updateSelf d bin ver w).2 →
      p = bin ∧
      args = ["restart-service", "--binary-location", bin, "--service-name",
        "storagenode-updater", stagedPath d.toDeps bin ver] ∧
      (afterDownload d.toDeps bin ver w).1 = none ∧
      ∃ suggested, d.semVer ver.suggested = .ok suggested ∧
        d.binaryVersion (afterDownload d.toDeps bin ver w).2.fs (stagedPath d.toDeps bin ver)
          = .ok suggested) := by
  refine ⟨eventsSince_of_log _ _ _ (restartSelf_log bin newbin w), ?_⟩
  intro p args hmem
  unfold afterDownload stagedPath
  unfold updateSelf at hmem
  rcases hs : d.semVer ver.suggested with err | suggested
  · rw [hs] at hmem
    simp [eventsSince] at hmem
  rw [hs] at hmem
  simp only at hmem
  rcases hgo : d.shouldUpdateVersion d.buildVersion d.nodeID ver with err | ⟨go, reason⟩
  · rw [hgo] at hmem
    simp [eventsSince] at hmem
  rw [hgo] at hmem
  simp only at hmem
  cases go
  · simp [eventsSince, World.note] at hmem
  simp only [Bool.not_true, Bool.false_eq_true, if_false] at hmem
  have hlog := downloadBinary_log d.toDeps (d.parseDownloadURL ver.suggested.url)
    (d.prependExtension bin ver.suggested.version) w
  rcases hd : downloadBinary d.toDeps (d.parseDownloadURL ver.suggested.url)
      (d.prependExtension bin ver.suggested.version) w with ⟨_ | derr, w1⟩
  swap
  · rw [hd] at hmem hlog
    simp only at hmem hlog
    rw [eventsSince_of_log _ _ _ hlog] at hmem
    simp at hmem
  rw [hd] at hmem hlog
  simp only at hmem hlog
  rcases hbv : d.binaryVersion w1.fs (d.prependExtension bin ver.suggested.version)
    with err | downloaded
  · rw [hbv] at hmem
    simp only at hmem
    rw [eventsSince_of_log w _ [Event.download _ _, Event.remove _]
      (by rw [os_Remove_log, hlog, List.append_assoc]; rfl)] at hmem
    simp at hmem
  rw [hbv] at hmem
  simp only at hmem
  by_cases hcmp : suggested.Compare downloaded = 0
  · simp only [hcmp, ne_eq, not_true_eq_false, if_false] at hmem
    rw [eventsSince_of_log w _ [Event.download _ _, Event.info "Restarting service.",
      Event.spawn bin ["restart-service", "--binary-location", bin, "--service-name",
        updaterServiceName, d.prependExtension bin ver.suggested.version]]
      (by rw [restartSelf_log]; simp only [World.note, hlog, List.append_assoc]; rfl)] at hmem
    simp only [List.mem_cons, List.mem_singleton, reduceCtorEq, false_or, Event.spawn.injEq,
      List.not_mem_nil, or_false] at hmem
    refine ⟨hmem.1, hmem.2, rfl, suggested, rfl, ?_⟩
    rw [((SemVer.Compare_eq_zero_iff _ _).mp hcmp)]
  · simp only [hcmp, ne_eq, not_false_eq_true, if_true] at hmem
    rw [eventsSince_of_log w _ [Event.download _ _, Event.remove _]
      (by rw [os_Remove_log, hlog, List.append_assoc]; rfl)] at hmem
    simp at hmem

/-- C26 at the sample environment with the good server: updateSelf spawns the
updater with the staged binary up.exe.v1.3.0, which reports 1.3.0. -/
theorem restart_subcommand_contract_witness :
    Event.spawn "up.exe" ["restart-service", "--binary-location", "up.exe", "--service-name",
        "storagenode-updater", "up.exe.v1.3.0"]
      ∈ eventsSince (sampleWorld []) (updateSelf sampleGoodSelfDeps "up.exe" (sampleProcess [255])
          (sampleWorld [])).2 ∧
    sampleGoodSelfDeps.binaryVersion
      (afterDownload sampleGoodSelfDeps.toDeps "up.exe" (sampleProcess [255]) (sampleWorld [])).2.fs
      "up.exe.v1.3.0" = .ok ⟨1, 3, 0⟩ :=
  have hmem : Event.spawn "up.exe" ["restart-service", "--binary-location", "up.exe",
      "--service-name", "storagenode-updater", "up.exe.v1.3.0"]
      ∈ eventsSince (sampleWorld []) (updateSelf sampleGoodSelfDeps "up.exe" (sampleProcess [255])
          (sampleWorld [])).2 := by decide
  have h := (restart_subcommand_contract sampleGoodSelfDeps "up.exe" "up.exe.v1.3.0"
    (sampleProcess [255]) (sampleWorld [])).2 _ _ hmem
  ⟨hmem, by
    obtain ⟨_, _, _, suggested, hs, hbv⟩ := h
    have : suggested = ⟨1, 3, 0⟩ := by
      have hs2 : sampleGoodSelfDeps.semVer (sampleProcess [255]).suggested = .ok ⟨1, 3, 0⟩ := rfl
      rw [hs2] at hs
      exact (Except.ok.inj hs).symm
    rw [this] at hbv
    exact hbv⟩

/-! ## C27: a nil result -/

/-- The statement that combines an error with the removal of the staged file
never gives nil. -/
theorem failAndRemove_ne_none (err : Error) (n : Path) (w : World) :
    (failAndRemove err n w).1 ≠ none := by
  unfold failAndRemove
  obtain ⟨e2, he2⟩ := errsWrap_some err
  rw [he2]
  exact errsCombine_ne_none _ _

/-- Lines 52 to 81 give nil only when both renames of the substitution and the
start loop succeeded; the world is then the one after the start loop. -/
theorem swapAndStart_of_nil (t n b : Path) (w : World)
    (h : (swapAndStart t n b w).1 = none) :
    (os_Rename t b w).1 = none ∧
    (os_Rename n t (os_Rename t b w).2).1 = none ∧
    (retry 2 startAttempt (afterSwap t n b w)).1 = none ∧
    (swapAndStart t n b w).2 = afterStarts t n b w := by
  unfold afterStarts afterSwap
  unfold swapAndStart substituteWithRecovery at h ⊢
  rcases h1 : os_Rename t b w with ⟨_ | e1, w1⟩
  · rw [h1] at h
    simp only at h ⊢
    rcases h2 : os_Rename n t w1 with ⟨_ | e2, w2⟩
    · rw [h2] at h
      simp only at h ⊢
      rcases h3 : retry 2 startAttempt w2 with ⟨_ | e3, w3⟩
      · exact ⟨trivial, trivial, rfl, rfl⟩
      · rw [h3] at h
        simp only at h
        rcases h4 : os_Rename b t w3 with ⟨_ | e4, w4⟩
        · rw [h4] at h
          exact absurd h (errsCombine_ne_none _ _)
        · rw [h4] at h
          simp only at h
          exact absurd h (errsCombine_ne_none _ _)
    · rw [h2] at h
      simp only at h
      rcases h3 : os_Rename b t w2 with ⟨_ | e3, w3⟩
      · rw [h3] at h
        obtain ⟨e, he⟩ := errsWrap_some e2
        simp only [he, if_true] at h
        obtain ⟨e4, he4⟩ := errsWrap_some e
        rw [he4] at h
        exact absurd h (errsCombine_ne_none _ _)
      · rw [h3] at h
        have hc : errsCombine [some e2, some e3] = some (Error.group [e2, e3]) := rfl
        simp only [hc] at h
        exact absurd h (failAndRemove_ne_none _ _ _)
  · rw [h1] at h
    obtain ⟨e, he⟩ := errsWrap_some e1
    simp only [he] at h
    exact absurd h (failAndRemove_ne_none _ _ _)

/-! ### The outcomes of the manager calls and the rest of the run -/

theorem os_Rename_withMgr (a b : Path) (w : World) (m : List (Option Nat)) :
    os_Rename a b (w.withMgr m) = ((os_Rename a b w).1, (os_Rename a b w).2.withMgr m) := by
  unfold os_Rename
  rw [show (w.withMgr m).nextFault = w.nextFault from rfl, show (w.withMgr m).fs = w.fs from rfl]
  split <;> rfl

theorem os_Remove_withMgr (a : Path) (w : World) (m : List (Option Nat)) :
    os_Remove a (w.withMgr m) = ((os_Remove a w).1, (os_Remove a w).2.withMgr m) := by
  unfold os_Remove
  rw [show (w.withMgr m).nextFault = w.nextFault from rfl, show (w.withMgr m).fs = w.fs from rfl]
  split <;> rfl

theorem srvc_Query_withMgr (w : World) (m : List (Option Nat)) :
    srvc_Query (w.withMgr m) = ((srvc_Query w).1, (srvc_Query w).2.withMgr m) := rfl

theorem srvc_Control_withMgr (cmd : Cmd) (w : World) (m : List (Option Nat)) :
    srvc_Control cmd (w.withMgr m)
      = ((srvc_Control cmd w).1, (srvc_Control cmd w).2.withMgr m) := rfl

theorem srvc_Start_withMgr (w : World) (m : List (Option Nat)) :
    srvc_Start (w.withMgr m) = ((srvc_Start w).1, (srvc_Start w).2.withMgr m) := rfl

theorem ctx_Err_withMgr (w : World) (m : List (Option Nat)) :
    ctx_Err (w.withMgr m) = ((ctx_Err w).1, (ctx_Err w).2.withMgr m) := rfl

theorem time_Now_withMgr (w : World) (m : List (Option Nat)) :
    time_Now (w.withMgr m) = ((time_Now w).1, (time_Now w).2.withMgr m) := rfl

theorem pollLoop_withMgr (state : SvcState) (timeout : Option Nat) (m : List (Option Nat))
    (fuel : Nat) :
    ∀ (status : SvcState) (w : World),
      pollLoop state timeout fuel status (w.withMgr m)
        = ((pollLoop state timeout fuel status w).1,
            (pollLoop state timeout fuel status w).2.withMgr m) := by
  induction fuel with
  | zero => intro status w; rfl
  | succ k ih =>
    intro status w
    unfold pollLoop
    by_cases hst : status = state
    · simp only [hst, if_true]
    · simp only [hst, if_false, ctx_Err_withMgr]
      rcases hc : ctx_Err w with ⟨_ | err, w1⟩
      · simp only [time_Now_withMgr]
        by_cases ht : timeBefore timeout (time_Now w1).1 = true
        · simp only [ht, if_true]
        · simp only [ht, if_false, srvc_Query_withMgr]
          rcases hq : srvc_Query (time_Now w1).2 with ⟨err | status2, w2⟩
          · rfl
          · exact ih status2 w2
      · rfl

theorem serviceControl_withMgr (cmd : Cmd) (state : SvcState) (timeout : Option Nat)
    (w : World) (m : List (Option Nat)) :
    serviceControl cmd state timeout (w.withMgr m)
      = ((serviceControl cmd state timeout w).1,
          (serviceControl cmd state timeout w).2.withMgr m) := by
  unfold serviceControl
  rw [srvc_Control_withMgr]
  rcases hc : srvc_Control cmd w with ⟨err | status, w1⟩
  · rfl
  · exact pollLoop_withMgr state timeout m _ status w1

theorem serviceWaitForState_withMgr (state : SvcState) (timeout : Option Nat)
    (w : World) (m : List (Option Nat)) :
    serviceWaitForState state timeout (w.withMgr m)
      = ((serviceWaitForState state timeout w).1,
          (serviceWaitForState state timeout w).2.withMgr m) := by
  unfold serviceWaitForState
  rw [srvc_Query_withMgr]
  rcases hc : srvc_Query w with ⟨err | status, w1⟩
  · rfl
  · exact pollLoop_withMgr state timeout m _ status w1

theorem stopService_withMgr (w : World) (m : List (Option Nat)) :
    stopService (w.withMgr m) = ((stopService w).1, (stopService w).2.withMgr m) := by
  unfold stopService
  rw [srvc_Query_withMgr]
  rcases hc : srvc_Query w with ⟨err | status, w1⟩
  · rfl
  · simp only [time_Now_withMgr]
    split
    · exact serviceControl_withMgr _ _ _ _ m
    · split
      · exact serviceWaitForState_withMgr _ _ _ m
      · rfl

theorem substituteWithRecovery_withMgr (t b n : Path) (w : World) (m : List (Option Nat)) :
    substituteWithRecovery t b n (w.withMgr m)
      = ((substituteWithRecovery t b n w).1, (substituteWithRecovery t b n w).2.withMgr m) := by
  unfold substituteWithRecovery
  rw [os_Rename_withMgr]
  rcases h1 : os_Rename t b w with ⟨_ | e1, w1⟩
  · simp only [os_Rename_withMgr]
    rcases h2 : os_Rename n t w1 with ⟨_ | e2, w2⟩
    · rfl
    · simp only [os_Rename_withMgr]
      rcases h3 : os_Rename b t w2 with ⟨_ | e3, w3⟩ <;> rfl
  · rfl

theorem startAttempt_withMgr (w : World) (m : List (Option Nat)) :
    startAttempt (w.withMgr m) = ((startAttempt w).1, (startAttempt w).2.withMgr m) := by
  unfold startAttempt
  rw [ctx_Err_withMgr]
  rcases hc : ctx_Err w with ⟨_ | err, w1⟩ <;> rfl

theorem retryFrom_withMgr (m : List (Option Nat)) (count : Nat) :
    ∀ (prev : Option Error) (w : World),
      retryFrom startAttempt count prev (w.withMgr m)
        = ((retryFrom startAttempt count prev w).1,
            (retryFrom startAttempt count prev w).2.withMgr m) := by
  induction count with
  | zero => intro prev w; rfl
  | succ k ih =>
    intro prev w
    unfold retryFrom
    rw [startAttempt_withMgr]
    rcases hc : startAttempt w with ⟨⟨abort, _ | err⟩, w1⟩
    · rfl
    · cases abort
      · exact ih (some err) w1
      · rfl

theorem failAndRemove_withMgr (err : Error) (n : Path) (w : World) (m : List (Option Nat)) :
    failAndRemove err n (w.withMgr m)
      = ((failAndRemove err n w).1, (failAndRemove err n w).2.withMgr m) := by
  unfold failAndRemove
  rw [os_Remove_withMgr]

theorem swapAndStart_withMgr (t n b : Path) (w : World) (m : List (Option Nat)) :
    swapAndStart t n b (w.withMgr m)
      = ((swapAndStart t n b w).1, (swapAndStart t n b w).2.withMgr m) := by
  unfold swapAndStart
  rw [substituteWithRecovery_withMgr]
  rcases hs : substituteWithRecovery t b n w with ⟨⟨recovered, _ | err⟩, w1⟩
  · simp only [retry, retryFrom_withMgr]
    rcases hr : retryFrom startAttempt 2 none w1 with ⟨_ | e2, w2⟩
    · rfl
    · simp only [os_Rename_withMgr]
      rcases h3 : os_Rename b t w2 with ⟨_ | e3, w3⟩ <;> rfl
  · cases recovered
    · exact failAndRemove_withMgr err n w1 m
    · simp only [if_true, srvc_Start_withMgr, os_Remove_withMgr]

theorem mgr_Connect_withMgr (w : World) (a : Option Nat) (m : List (Option Nat)) :
    mgr_Connect (w.withMgr (a :: m))
      = (a.map (Error.errno "Connect"), (w.note (.connect a)).withMgr m) := by
  cases a <;> rfl

theorem mgr_OpenService_withMgr (name : String) (w : World) (a : Option Nat)
    (m : List (Option Nat)) :
    mgr_OpenService name (w.withMgr (a :: m))
      = (a.map (Error.errno "OpenService"), (w.note (.openService name a)).withMgr m) := by
  cases a <;> rfl

/-- The error Windows.restartService returns is decided by the outcomes of
Connect and OpenService and by the run between them and the deferred calls:
the outcomes of the manager calls that come later have no part in it. -/
theorem Windows.restartService_deferred (service : String) (t n b : Path) (w : World)
    (a o : Option Nat) (m m2 : List (Option Nat)) :
    (Windows.restartService service t n b (w.withMgr (a :: o :: m))).1
      = (Windows.restartService service t n b (w.withMgr (a :: o :: m2))).1 := by
  unfold Windows.restartService
  rw [mgr_Connect_withMgr, mgr_Connect_withMgr]
  cases a with
  | some e => simp only [Option.map, failAndRemove_withMgr]
  | none =>
    simp only [Option.map, mgr_OpenService_withMgr]
    cases o with
    | some e => simp only [failAndRemove_withMgr]
    | none =>
      simp only [stopService_withMgr]
      rcases hs : stopService (w.note (.connect none) |>.note (.openService service none))
        with ⟨_ | e3, w3⟩
      · simp only [swapAndStart_withMgr]
      · simp only [failAndRemove_withMgr]

/-- A nil result of Windows.restartService: the manager was connected and the
service opened. -/
theorem Windows.restartService_open_of_nil (service : String) (t n b : Path) (w : World)
    (h : (Windows.restartService service t n b w).1 = none) :
    (mgr_Connect w).1 = none ∧ (mgr_OpenService service (mgr_Connect w).2).1 = none := by
  unfold Windows.restartService at h
  rcases h1 : mgr_Connect w with ⟨_ | e1, w1⟩
  · rw [h1] at h
    simp only at h ⊢
    rcases h2 : mgr_OpenService service w1 with ⟨_ | e2, w2⟩
    · exact ⟨trivial, rfl⟩
    · rw [h2] at h
      exact absurd h (failAndRemove_ne_none _ _ _)
  · rw [h1] at h
    exact absurd h (failAndRemove_ne_none _ _ _)

/-- The events since the start hold every event logged after a later world
whose log extends that of the start. -/
theorem mem_eventsSince (w mid out : World) (pre evs : List Event) (e : Event)
    (hmid : mid.log = w.log ++ pre) (hout : out.log = mid.log ++ evs) (he : e ∈ evs) :
    e ∈ eventsSince w out := by
  rw [eventsSince_of_log w out (pre ++ evs) (by rw [hout, hmid, List.append_assoc])]
  exact List.mem_append_right _ he

/-- The two renames of a successful substitution with distinct paths leave the
staged content at the live path and the old live content at the backup path,
both of which existed. -/
theorem swap_installs (live staged backup : Path) (w : World)
    (hLB : live ≠ backup) (hSB : staged ≠ backup)
    (h1 : (os_Rename live backup w).1 = none)
    (h2 : (os_Rename staged live (os_Rename live backup w).2).1 = none) :
    (afterSwap live staged backup w).fs live = w.fs staged ∧
    (afterSwap live staged backup w).fs backup = w.fs live ∧
    w.fs staged ≠ none ∧ w.fs live ≠ none := by
  obtain ⟨_, hl, hb⟩ := substituteWithRecovery_of_ok live backup staged w hLB hSB h1 h2
  obtain ⟨c1, hc1, _⟩ := os_Rename_fs_of_ok _ _ _ h1
  obtain ⟨c2, hc2, _⟩ := os_Rename_fs_of_ok _ _ _ h2
  have hSL : staged ≠ live := by
    intro heq
    rw [heq, os_Rename_old_of_ok live backup w hLB h1] at hc2
    exact absurd hc2 (by simp)
  rw [os_Rename_other_of_ok live backup staged w hSL hSB h1] at hc2
  refine ⟨hl, hb, ?_, ?_⟩
  · rw [hc2]; simp
  · rw [hc1]; simp

/-- C27. On both platforms restartService returns nil only if the new binary
is installed.  Without a service manager: both renames of the substitution
succeeded and the world is the one after them.  On Windows: the manager was
connected, the service opened and stopped, both renames succeeded, the start
loop ended without error and a Start that succeeded is among the events.  In
both cases, the live and the staged path being different from the backup path,
the live path holds the staged content and the backup path the old live
content, both of which existed.  The error Windows.restartService returns is
the same whatever the outcomes of the manager calls after OpenService, the
deferred Close and Disconnect, are. -/
theorem nil_only_if_installed (service : String) (live staged backup : Path) (w : World)
    (a o : Option Nat) (m m2 : List (Option Nat)) :
    ((restartService service live staged backup w).1 = none →
      (os_Rename live backup w).1 = none ∧
      (os_Rename staged live (os_Rename live backup w).2).1 = none ∧
      (restartService service live staged backup w).2 = afterSwap live staged backup w ∧
      (live ≠ backup → staged ≠ backup →
        (restartService service live staged backup w).2.fs live = w.fs staged ∧
        (restartService service live staged backup w).2.fs backup = w.fs live ∧
        w.fs staged ≠ none ∧ w.fs live ≠ none)) ∧
    ((Windows.restartService service live staged backup w).1 = none →
      (mgr_Connect w).1 = none ∧
      (mgr_OpenService service (mgr_Connect w).2).1 = none ∧
      (stopService (atStop service w)).1 = none ∧
      (os_Rename live backup (atSwap service w)).1 = none ∧
      (os_Rename staged live (os_Rename live backup (atSwap service w)).2).1 = none ∧
      (retry 2 startAttempt (afterSwap live staged backup (atSwap service w))).1 = none ∧
      Event.start none
        ∈ eventsSince w (Windows.restartService service live staged backup w).2 ∧
      (Windows.restartService service live staged backup w).2.fs
        = (afterSwap live staged backup (atSwap service w)).fs ∧
      (live ≠ backup → staged ≠ backup →
        (Windows.restartService service live staged backup w).2.fs live = w.fs staged ∧
        (Windows.restartService service live staged backup w).2.fs backup = w.fs live ∧
        w.fs staged ≠ none ∧ w.fs live ≠ none)) ∧
    (Windows.restartService service live staged backup (w.withMgr (a :: o :: m))).1
      = (Windows.restartService service live staged backup (w.withMgr (a :: o :: m2))).1 := by
  refine ⟨fun h => ?_, fun h => ?_,
    Windows.restartService_deferred service live staged backup w a o m m2⟩
  · rw [restartService_eq] at h ⊢
    rcases h1 : (os_Rename live backup w).1 with _ | e1
    · rw [h1] at h
      simp only at h ⊢
      rcases h2 : (os_Rename staged live (os_Rename live backup w).2).1 with _ | e2
      · simp only
        refine ⟨trivial, trivial, rfl, fun hLB hSB => ?_⟩
        exact swap_installs live staged backup w hLB hSB h1 h2
      · rw [h2] at h
        exact absurd h (errsCombine_ne_none _ _)
    · rw [h1] at h
      obtain ⟨e, he⟩ := errsWrap_some e1
      simp only [he] at h
      exact absurd h (by simp)
  · obtain ⟨hconn, hopen⟩ := Windows.restartService_open_of_nil service live staged backup w h
    rw [Windows.restartService_of_open service live staged backup w hconn hopen] at h ⊢
    rcases hs : (stopService (atStop service w)).1 with _ | e3
    · rw [hs] at h
      simp only at h ⊢
      obtain ⟨h1, h2, h3, hw⟩ := swapAndStart_of_nil live staged backup (atSwap service w) h
      have hfs : (afterStarts live staged backup (atSwap service w)).fs
          = (afterSwap live staged backup (atSwap service w)).fs := retry_fs _ _
      refine ⟨hconn, hopen, trivial, h1, h2, h3, ?_, ?_, fun hLB hSB => ?_⟩
      · rw [hw]
        obtain ⟨evs, hlog, _⟩ := atSwap_log service w
        rcases retryFrom_none 2 none (afterSwap live staged backup (atSwap service w)) h3
          with ⟨h0, _⟩ | ⟨pre, hpre⟩
        · exact absurd h0 (by decide)
        · refine mem_eventsSince w (afterSwap live staged backup (atSwap service w)) _
            (Event.connect w.nextMgr
              :: Event.openService service (mgr_Connect w).2.nextMgr :: evs
              ++ [Event.rename live backup, Event.rename staged live])
            (pre ++ [Event.start none]
              ++ [Event.close (afterStarts live staged backup (atSwap service w)).nextMgr,
                Event.disconnect
                  (srvc_Close (afterStarts live staged backup (atSwap service w))).2.nextMgr])
            _ ?_ ?_ ?_
          · unfold afterSwap
            rw [os_Rename_log, os_Rename_log, hlog]
            simp only [List.append_assoc, List.cons_append, List.nil_append]
          · show (srvc_Close (afterStarts live staged backup (atSwap service w))).2.log
                ++ [Event.disconnect _] = _
            rw [srvc_Close_log]
            unfold afterStarts retry
            rw [hpre]
            simp only [List.append_assoc, List.cons_append, List.nil_append]
          · simp
      · rw [hw]
        simp only [mgr_Disconnect_fs, srvc_Close_fs]
        exact hfs
      · rw [hw]
        simp only [mgr_Disconnect_fs, srvc_Close_fs, hfs]
        have := swap_installs live staged backup (atSwap service w) hLB hSB h1 h2
        simp only [atSwap_fs] at this
        exact this
    · rw [hs] at h
      exact absurd h (failAndRemove_ne_none _ _ _)

/-- C27 at the sample worlds: both restartService return nil, with the new
binary at sn.exe, the old one at sn.old.exe and, on Windows, a Start that
succeeded. -/
theorem nil_only_if_installed_witness :
    ((restartService "storagenode" "sn.exe" "sn.v2.exe" "sn.old.exe" (sampleWorld [])).2.fs
        "sn.exe" = sampleFS "sn.v2.exe" ∧
      (restartService "storagenode" "sn.exe" "sn.v2.exe" "sn.old.exe" (sampleWorld [])).2.fs
        "sn.old.exe" = sampleFS "sn.exe") ∧
    ((Windows.restartService "storagenode" "sn.exe" "sn.v2.exe" "sn.old.exe"
        (sampleService [.ok .Stopped] [] [] [])).2.fs "sn.exe" = sampleFS "sn.v2.exe" ∧
      Event.start none ∈ eventsSince (sampleService [.ok .Stopped] [] [] [])
        (Windows.restartService "storagenode" "sn.exe" "sn.v2.exe" "sn.old.exe"
          (sampleService [.ok .Stopped] [] [] [])).2) :=
  ⟨by
    have h := ((nil_only_if_installed "storagenode" "sn.exe" "sn.v2.exe" "sn.old.exe"
      (sampleWorld []) none none [] []).1 rfl).2.2.2 (by decide) (by decide)
    exact ⟨h.1, h.2.1⟩,
   by
    have h := (nil_only_if_installed "storagenode" "sn.exe" "sn.v2.exe" "sn.old.exe"
      (sampleService [.ok .Stopped] [] [] []) none none [] []).2.1 rfl
    exact ⟨(h.2.2.2.2.2.2.2.2 (by decide) (by decide)).1, h.2.2.2.2.2.2.1⟩⟩

/-! ## C28: the context is canceled when the start loop is reached -/

/-- C28, as stated, fails: with the service stopped, the swap done and the
context canceled when the start loop is reached, the restore rename is refused
by the OS; restartService then returns with the new binary at the live path
and without any Start call. -/
theorem canceled_restore_counterexample :
    (os_Rename "sn.exe" "sn.old.exe"
      (atSwap "storagenode" (sampleService [.ok .Stopped] [] [none, none, some 13] [true]))).1
      = none ∧
    (os_Rename "sn.v2.exe" "sn.exe" (os_Rename "sn.exe" "sn.old.exe"
      (atSwap "storagenode"
        (sampleService [.ok .Stopped] [] [none, none, some 13] [true]))).2).1 = none ∧
    (afterSwap "sn.exe" "sn.v2.exe" "sn.old.exe"
      (atSwap "storagenode"
        (sampleService [.ok .Stopped] [] [none, none, some 13] [true]))).nextCancel = true ∧
    (Windows.restartService "storagenode" "sn.exe" "sn.v2.exe" "sn.old.exe"
      (sampleService [.ok .Stopped] [] [none, none, some 13] [true])).2.fs "sn.exe"
      = some "new" ∧
    startCount
      (eventsSince (sampleService [.ok .Stopped] [] [none, none, some 13] [true])
        (Windows.restartService "storagenode" "sn.exe" "sn.v2.exe" "sn.old.exe"
          (sampleService [.ok .Stopped] [] [none, none, some 13] [true])).2) = 0 ∧
    (Windows.restartService "storagenode" "sn.exe" "sn.v2.exe" "sn.old.exe"
      (sampleService [.ok .Stopped] [] [none, none, some 13] [true])).1
      = some (Error.group [Error.canceled, Error.link "rename" "sn.old.exe" "sn.exe" 13]) := by
  refine ⟨rfl, rfl, rfl, ?_, ?_, rfl⟩ <;> decide

/-- C28, amended. After a successful swap between three different files, with
the context found canceled when the start loop is reached, the start loop
returns the cancellation error without calling Start and restartService renames
backup to live.  When that rename succeeds the live path holds the pre-update
binary, Start is called once, and the result is the cancellation error, alone
when that Start succeeds and grouped with the Start error otherwise.  When that
rename fails the new binary stays at the live path, Start is never called, and
the result is the group of the cancellation error and the rename error. -/
theorem cancellation_after_swap (service : String) (live staged backup : Path) (w : World)
    (hLB : live ≠ backup) (hSB : staged ≠ backup)
    (hconn : (mgr_Connect w).1 = none)
    (hopen : (mgr_OpenService service (mgr_Connect w).2).1 = none)
    (hstop : (stopService (atStop service w)).1 = none)
    (h1 : (os_Rename live backup (atSwap service w)).1 = none)
    (h2 : (os_Rename staged live (os_Rename live backup (atSwap service w)).2).1 = none)
    (hcancel : (afterSwap live staged backup (atSwap service w)).nextCancel = true) :
    retry 2 startAttempt (afterSwap live staged backup (atSwap service w))
      = (some Error.canceled, (ctx_Err (afterSwap live staged backup (atSwap service w))).2) ∧
    ((os_Rename backup live (afterStarts live staged backup (atSwap service w))).1 = none →
      (∃ r c d, eventsSince (atSwap service w)
          (Windows.restartService service live staged backup w).2
        = [Event.rename live backup, Event.rename staged live, Event.ctxErr true,
            Event.rename backup live, Event.start r, Event.close c, Event.disconnect d]) ∧
      startCount (eventsSince w (Windows.restartService service live staged backup w).2) = 1 ∧
      (Windows.restartService service live staged backup w).2.fs live = w.fs live ∧
      ((srvc_Start (os_Rename backup live
          (afterStarts live staged backup (atSwap service w))).2).1 = none →
        (Windows.restartService service live staged backup w).1 = some Error.canceled) ∧
      (∀ e3, (srvc_Start (os_Rename backup live
          (afterStarts live staged backup (atSwap service w))).2).1 = some e3 →
        (Windows.restartService service live staged backup w).1
          = some (Error.group [Error.canceled, e3]))) ∧
    (∀ rerr,
      (os_Rename backup live (afterStarts live staged backup (atSwap service w))).1
        = some rerr →
      (∃ c d, eventsSince (atSwap service w)
          (Windows.restartService service live staged backup w).2
        = [Event.rename live backup, Event.rename staged live, Event.ctxErr true,
            Event.rename backup live, Event.close c, Event.disconnect d]) ∧
      startCount (eventsSince w (Windows.restartService service live staged backup w).2) = 0 ∧
      (Windows.restartService service live staged backup w).2.fs live = w.fs staged ∧
      (Windows.restartService service live staged backup w).1
        = some (Error.group [Error.canceled, rerr])) := by
  obtain ⟨hsub, hl, hb⟩ := substituteWithRecovery_of_ok live backup staged (atSwap service w)
    hLB hSB h1 h2
  have hret : retry 2 startAttempt (afterSwap live staged backup (atSwap service w))
      = (some Error.canceled, (ctx_Err (afterSwap live staged backup (atSwap service w))).2) := by
    unfold retry
    rw [retryFrom_succ, if_pos hcancel]
  have hlog5 : (afterStarts live staged backup (atSwap service w)).log
      = (atSwap service w).log ++ [Event.rename live backup, Event.rename staged live,
          Event.ctxErr true] := by
    unfold afterStarts
    rw [hret]
    simp only [ctx_Err_log, hcancel]
    unfold afterSwap
    rw [os_Rename_log, os_Rename_log]
    simp
  have hfsS : (afterStarts live staged backup (atSwap service w)).fs
      = (afterSwap live staged backup (atSwap service w)).fs := retry_fs _ _
  have hfsL : (afterStarts live staged backup (atSwap service w)).fs live = w.fs staged := by
    rw [hfsS]
    unfold afterSwap
    rw [hl, atSwap_fs]
  have hfsB : (afterStarts live staged backup (atSwap service w)).fs backup = w.fs live := by
    rw [hfsS]
    unfold afterSwap
    rw [hb, atSwap_fs]
  have hsub2 : substituteWithRecovery live backup staged (atSwap service w)
      = ((false, none), afterSwap live staged backup (atSwap service w)) := hsub
  have hret2 : (retry 2 startAttempt (afterSwap live staged backup (atSwap service w))).1
      = some Error.canceled := by rw [hret]
  have hres := Windows.restartService_of_open service live staged backup w hconn hopen
  simp only [hstop] at hres
  refine ⟨hret, fun h3 => ?_, fun rerr h3 => ?_⟩
  · have hsw : swapAndStart live staged backup (atSwap service w)
        = (errsCombine [some Error.canceled,
              (srvc_Start (os_Rename backup live
                (afterStarts live staged backup (atSwap service w))).2).1],
            (srvc_Start (os_Rename backup live
              (afterStarts live staged backup (atSwap service w))).2).2) := by
      rw [swapAndStart_eq, hsub2]
      simp only [hret2]
      unfold afterStarts at h3
      simp only [h3]
      rfl
    rw [hres, hsw]
    have hlog : (mgr_Disconnect (srvc_Close (srvc_Start (os_Rename backup live
        (afterStarts live staged backup (atSwap service w))).2).2).2).2.log
        = (atSwap service w).log ++ [Event.rename live backup, Event.rename staged live,
            Event.ctxErr true, Event.rename backup live,
            Event.start (os_Rename backup live
              (afterStarts live staged backup (atSwap service w))).2.nextStart,
            Event.close (srvc_Start (os_Rename backup live
              (afterStarts live staged backup (atSwap service w))).2).2.nextMgr,
            Event.disconnect (srvc_Close (srvc_Start (os_Rename backup live
              (afterStarts live staged backup (atSwap service w))).2).2).2.nextMgr] := by
      simp [os_Rename_log, hlog5]
    refine ⟨⟨_, _, _, eventsSince_of_log _ _ _ hlog⟩, ?_, ?_, fun h4 => ?_, fun e3 h4 => ?_⟩
    · rw [startCount_since_atSwap service w _ _ hlog]
      simp [startCount, List.filter_cons]
    · simp only [mgr_Disconnect_fs, srvc_Close_fs, srvc_Start_fs]
      rw [os_Rename_new_of_ok _ _ _ h3, hfsB]
    · show errsCombine _ = _
      rw [h4]; rfl
    · show errsCombine _ = _
      rw [h4]; rfl
  · have hsw : swapAndStart live staged backup (atSwap service w)
        = (errsCombine [some Error.canceled, some rerr],
            (os_Rename backup live
              (afterStarts live staged backup (atSwap service w))).2) := by
      rw [swapAndStart_eq, hsub2]
      simp only [hret2]
      unfold afterStarts at h3
      simp only [h3]
      rfl
    rw [hres, hsw]
    have hlog : (mgr_Disconnect (srvc_Close (os_Rename backup live
        (afterStarts live staged backup (atSwap service w))).2).2).2.log
        = (atSwap service w).log ++ [Event.rename live backup, Event.rename staged live,
            Event.ctxErr true, Event.rename backup live,
            Event.close (os_Rename backup live
              (afterStarts live staged backup (atSwap service w))).2.nextMgr,
            Event.disconnect (srvc_Close (os_Rename backup live
              (afterStarts live staged backup (atSwap service w))).2).2.nextMgr] := by
      simp [os_Rename_log, hlog5]
    refine ⟨⟨_, _, eventsSince_of_log _ _ _ hlog⟩, ?_, ?_, rfl⟩
    · rw [startCount_since_atSwap service w _ _ hlog]
      simp [startCount, List.filter_cons]
    · simp only [mgr_Disconnect_fs, srvc_Close_fs]
      rw [os_Rename_fs_of_fail _ _ _ _ h3, hfsL]

/-- C28, amended, at the sample service with the context canceled when the
start loop is reached and the restore rename let through: the old binary is
back at sn.exe, Start is called once and the cancellation error is returned. -/
theorem cancellation_after_swap_witness :
    startCount (eventsSince (sampleService [.ok .Stopped] [] [] [true])
      (Windows.restartService "storagenode" "sn.exe" "sn.v2.exe" "sn.old.exe"
        (sampleService [.ok .Stopped] [] [] [true])).2) = 1 ∧
    (Windows.restartService "storagenode" "sn.exe" "sn.v2.exe" "sn.old.exe"
      (sampleService [.ok .Stopped] [] [] [true])).2.fs "sn.exe"
      = (sampleService [.ok .Stopped] [] [] [true]).fs "sn.exe" ∧
    (Windows.restartService "storagenode" "sn.exe" "sn.v2.exe" "sn.old.exe"
      (sampleService [.ok .Stopped] [] [] [true])).1 = some Error.canceled :=
  have h := (cancellation_after_swap "storagenode" "sn.exe" "sn.v2.exe" "sn.old.exe"
    (sampleService [.ok .Stopped] [] [] [true])
    (by decide) (by decide) rfl rfl rfl rfl rfl rfl).2.1 rfl
  ⟨h.2.1, h.2.2.1, h.2.2.2.1 rfl⟩

end Updater
